import Mathlib

/-!
# Invoice totals, tax normalisation and single-page layout

A shallow embedding of the billing application:

* `backend/src/services/pdfServiceVistar.js`: `safeName`, `calculateTotals`,
  `truncateToWidth` and, of `generateAndSavePDF`, the totals fill-in, the geometry, the
  column set and widths, the row and font sizing, the font-shrink loops, the Amount cell,
  the challan number, the round-off and the amount in words;
* `backend/src/routes/invoices.js`: `normalizeGstFields` and the first statements of the
  create and update handlers;
* `frontend/src/components/InvoiceForm.jsx`: the payload builder and the `totals()` preview.

The layout arithmetic and the data flow are modelled on exact rationals (`ℚ`), with
`Math.floor` as `Int.floor` and `x.toFixed(2)` as rounding to the nearest hundredth, ties
away from zero.  Where the last digit of a money figure is at stake (the returned totals
and the Amount cell), `calculateTotals` is also modelled in IEEE 754 binary64 arithmetic
(`fl`, `calculateTotals64`, `amountStr`), every operation rounded to the nearest binary64
value.

JavaScript strings are modelled as lists of characters (one list element per UTF-16 code
unit), so that `text.slice(0, k)` is `List.take k` and `text.length` is `List.length`.  Text
measurement (`doc.widthOfString`, `doc.heightOfString`) and the page size belong to the PDF
library and enter as parameters.  Database and file-system effects are outside the model.
-/

namespace Phoenix

/-! ## Page and style constants (`PAGE`, `STYLE`) -/

/-- The constant `PAGE.margin`. -/
def PAGE_margin : ℚ := 36

/-- The constant `STYLE.gap`. -/
def STYLE_gap : ℚ := 8

/-- The constant `STYLE.normalSize`. -/
def STYLE_normalSize : ℚ := 9

/-- The constant `STYLE.minFontSize`. -/
def STYLE_minFontSize : ℚ := 6

/-- Height of an A4 page in PDF points, the value the PDF library gives `page.height`
for `PAGE.size = 'A4'`. -/
def A4_height : ℚ := 84189 / 100

/-! ## Page geometry planner (`generateAndSavePDF`, lines 90-192) -/

/-- The constant `compBoxH`: height of the company box. -/
def compBoxH : ℚ := 86

/-- The constant `rowH`: height of the bill-to / invoice-details row. -/
def rowH : ℚ := 74

/-- The constant `footerReserved`. -/
def footerReserved : ℚ := 30

/-- The constant `bottomAreaReserved`. -/
def bottomAreaReserved : ℚ := 200

/-- The constant `headerH`: height of the table header. -/
def headerH : ℚ := 20

/-- The value of `cursorY` when the items table starts: top margin, then the title
(`titleH + STYLE.gap * 1.2`), the company box and the bill-to row, each followed by a gap.
`titleH` is the measured height of the title string. -/
def tableTop (titleH : ℚ) : ℚ :=
  PAGE_margin + (titleH + STYLE_gap * (12 / 10)) + (compBoxH + STYLE_gap) + (rowH + STYLE_gap)

/-- The value `tableBottomLimit = page.height - page.margins.bottom - bottomAreaReserved -
footerReserved`. -/
def tableBottomLimit (pageHeight : ℚ) : ℚ :=
  pageHeight - PAGE_margin - bottomAreaReserved - footerReserved

/-- The value `tableH = Math.max(80, tableBottomLimit - tableTop)`. -/
def tableH (pageHeight titleH : ℚ) : ℚ :=
  max 80 (tableBottomLimit pageHeight - tableTop titleH)

/-! ## Rows fitting logic (`generateAndSavePDF`, lines 239-250) -/

/-- The constant `minRowH`. -/
def minRowH : ℤ := 10

/-- The constant `maxRowH`. -/
def maxRowH : ℤ := 18

/-- The value `rowAreaH = tableH - headerH - 8`. -/
def rowAreaH (tH : ℚ) : ℚ := tH - headerH - 8

/-- The shared row height `rowHVal`:
`rowCount > 0 ? Math.floor(rowAreaH / rowCount) : maxRowH`, then capped at `maxRowH`, then
raised to `minRowH`. -/
def rowHVal (tH : ℚ) (rowCount : ℕ) : ℤ :=
  let r0 : ℤ := if rowCount > 0 then ⌊rowAreaH tH / (rowCount : ℚ)⌋ else maxRowH
  let r1 : ℤ := if r0 > maxRowH then maxRowH else r0
  if r1 < minRowH then minRowH else r1

/-! ## Text fitting (`truncateToWidth`, lines 54-66) -/

/-- The character `…` (U+2026, one UTF-16 code unit) that `truncateToWidth` appends. -/
def ellipsis : Char := Char.ofNat 8230

/-- The `while (lo < hi)` loop of `truncateToWidth`: `mid = Math.floor((lo + hi + 1)/2)`,
`s = text.slice(0, mid) + '…'`; when `widthOfString(s) <= width` then `lo = mid`,
otherwise `hi = mid - 1`.  The value is `lo` at loop exit.  `w` is `doc.widthOfString` at
the font and size selected just before. -/
def truncateLoop (w : List Char → ℚ) (text : List Char) (width : ℚ) (lo hi : ℕ) : ℕ :=
  if h : lo < hi then
    if w (text.take ((lo + hi + 1) / 2) ++ [ellipsis]) ≤ width then
      truncateLoop w text width ((lo + hi + 1) / 2) hi
    else
      truncateLoop w text width lo ((lo + hi + 1) / 2 - 1)
  else lo
termination_by hi - lo
decreasing_by
  all_goals simp_wf
  all_goals omega

/-- The function `truncateToWidth(doc, text, width, font, size)`: a falsy text (the empty
string; `null` and `undefined` are treated alike) gives `''`; a text that fits is returned
unchanged; otherwise the prefix found by the loop, followed by the ellipsis. -/
def truncateToWidth (w : List Char → ℚ) (text : List Char) (width : ℚ) : List Char :=
  if text = [] then []
  else if w text ≤ width then text
  else text.take (truncateLoop w text width 0 text.length) ++ [ellipsis]

/-- A width measure is monotone in prefix length when a longer prefix never renders
narrower, both bare and followed by the ellipsis (the strings the search measures). -/
def MonotoneInPrefixLength (w : List Char → ℚ) : Prop :=
  ∀ s t : List Char, s <+: t → w s ≤ w t ∧ w (s ++ [ellipsis]) ≤ w (t ++ [ellipsis])

/-- A sample width measure: one unit per character. -/
def unitWidth (s : List Char) : ℚ := (s.length : ℚ)

/-! ## Line items and totals (`calculateTotals`, lines 17-36) -/

/-- A line item.  A numeric field is `none` when the property is absent (`undefined`) and
`some q` when it holds a value that `Number(...)` converts to `q`. -/
structure Item where
  /-- Product name. -/
  product_name : Option String
  /-- Optional description. -/
  description : Option String
  /-- Optional HSN/SAC code. -/
  hsn_sac : Option String
  /-- Quantity. -/
  quantity : Option ℚ
  /-- Unit price. -/
  unit_price : Option ℚ
  /-- CGST rate in percent. -/
  cgst_rate : Option ℚ
  /-- SGST rate in percent. -/
  sgst_rate : Option ℚ
  /-- IGST rate in percent. -/
  igst_rate : Option ℚ
  /-- Line total, attached by `calculateTotals`. -/
  line_total : Option ℚ
  deriving DecidableEq, Repr

/-- The idiom `Number(x) || 0`: an absent field counts as `0`. -/
def numOr0 (x : Option ℚ) : ℚ := x.getD 0

/-- The idiom `+x.toFixed(2)`: the nearest multiple of `1/100` to the exact value of `x`,
a tie going away from zero (`toFixed` rounds the absolute value, picking the larger
candidate). -/
def toFixed2 (x : ℚ) : ℚ :=
  if x < 0 then -((⌊-x * 100 + 1 / 2⌋ : ℤ) : ℚ) / 100
  else ((⌊x * 100 + 1 / 2⌋ : ℤ) : ℚ) / 100

/-- The value `gstRate` of one item: the sum of its three rate fields. -/
def gstRate (it : Item) : ℚ := numOr0 it.cgst_rate + numOr0 it.sgst_rate + numOr0 it.igst_rate

/-- The value `line = qty * price` of one item. -/
def line (it : Item) : ℚ := numOr0 it.quantity * numOr0 it.unit_price

/-- The value `gstAmt = line * (gstRate / 100)` of one item. -/
def gstAmt (it : Item) : ℚ := line it * (gstRate it / 100)

/-- The object `calculateTotals` returns. -/
structure Totals where
  /-- The enriched items. -/
  items : List Item
  /-- The field `subtotal`. -/
  subtotal : ℚ
  /-- The field `totalGst`. -/
  totalGst : ℚ
  /-- The field `total`. -/
  total : ℚ
  deriving DecidableEq, Repr

/-- The function `calculateTotals(items)` in exact arithmetic: the accumulators `subtotal`
and `totalGst` are updated item by item, every item gets `line_total: +(line + gstAmt)`, and
the three figures are returned through `toFixed(2)`.  The same function with every
operation rounded to binary64 is `calculateTotals64`. -/
def calculateTotals (items : List Item) : Totals :=
  let subtotal : ℚ := items.foldl (fun acc it => acc + line it) 0
  let totalGst : ℚ := items.foldl (fun acc it => acc + gstAmt it) 0
  let enriched : List Item :=
    items.map (fun it => { it with line_total := some (line it + gstAmt it) })
  let total : ℚ := subtotal + totalGst
  { items := enriched
    subtotal := toFixed2 subtotal
    totalGst := toFixed2 totalGst
    total := toFixed2 total }

/-- The item `(quantity 0.3, unit_price 3.38, igst_rate 18)`. -/
def sampleFractionalItem : Item :=
  { product_name := some "Wire", description := none, hsn_sac := none,
    quantity := some (3 / 10), unit_price := some (169 / 50),
    cgst_rate := none, sgst_rate := none, igst_rate := some 18, line_total := none }

/-- The item `(quantity 2, unit_price 100, igst_rate 18)` of the worked example. -/
def sampleItem : Item :=
  { product_name := some "Cable", description := none, hsn_sac := none,
    quantity := some 2, unit_price := some 100,
    cgst_rate := none, sgst_rate := none, igst_rate := some 18, line_total := none }

/-- An item with a negative quantity: `(quantity -1, unit_price 100, igst_rate 18)`. -/
def sampleNegativeItem : Item :=
  { product_name := some "Return", description := none, hsn_sac := none,
    quantity := some (-1), unit_price := some 100,
    cgst_rate := none, sgst_rate := none, igst_rate := some 18, line_total := none }

/-! ## Totals in binary64 arithmetic (`calculateTotals`, lines 17-36)

JavaScript numbers are IEEE 754 binary64 values.  Every binary64 value is a rational, and
an arithmetic operation returns the binary64 value nearest to the exact result.  The
definitions of this section follow `calculateTotals` operation by operation with that
rounding; `toFixed2` is then applied to the exact value of the binary64 sum, which is what
`Number.prototype.toFixed` prescribes. -/

/-- Rounding to the nearest integer, a tie going to the even neighbour. -/
def roundHalfEven (x : ℚ) : ℤ :=
  if x - (⌊x⌋ : ℚ) < 1 / 2 then ⌊x⌋
  else if 1 / 2 < x - (⌊x⌋ : ℚ) then ⌊x⌋ + 1
  else if ⌊x⌋ % 2 = 0 then ⌊x⌋ else ⌊x⌋ + 1

/-- The binary64 value nearest to `x` (round to nearest, ties to even): for
`2^e ≤ |x| < 2^(e+1)` the binary64 values are the multiples of `2^(e-52)`.  The exponent is
not bounded here: overflow to `Infinity` (from about `1.8e308`) and the coarser spacing of
subnormal values (below about `2.2e-308`) are outside the model. -/
def fl (x : ℚ) : ℚ :=
  if x = 0 then 0
  else (roundHalfEven (x / (2 : ℚ) ^ (Int.log 2 |x| - 52)) : ℚ) * (2 : ℚ) ^ (Int.log 2 |x| - 52)

/-- The idiom `Number(x) || 0` in binary64: the decimal value of the field is read as the
nearest binary64 value, an absent field as 0. -/
def num64 (x : Option ℚ) : ℚ := fl (numOr0 x)

/-- The value `gstRate` of one item in binary64: the three rates are added left to right. -/
def gstRate64 (it : Item) : ℚ :=
  fl (fl (num64 it.cgst_rate + num64 it.sgst_rate) + num64 it.igst_rate)

/-- The value `line = qty * price` of one item in binary64. -/
def line64 (it : Item) : ℚ := fl (num64 it.quantity * num64 it.unit_price)

/-- The value `gstAmt = line * (gstRate / 100)` of one item in binary64. -/
def gstAmt64 (it : Item) : ℚ := fl (line64 it * fl (gstRate64 it / 100))

/-- The value `line_total: +(line + gstAmt)` of one item in binary64. -/
def lineTotal64 (it : Item) : ℚ := fl (line64 it + gstAmt64 it)

/-- The accumulator `subtotal` after the loop (`subtotal += line` for every item). -/
def subtotalAcc64 (items : List Item) : ℚ :=
  items.foldl (fun acc it => fl (acc + line64 it)) 0

/-- The accumulator `totalGst` after the loop (`totalGst += gstAmt` for every item). -/
def totalGstAcc64 (items : List Item) : ℚ :=
  items.foldl (fun acc it => fl (acc + gstAmt64 it)) 0

/-- The function `calculateTotals(items)` in binary64 arithmetic.  The three returned
figures are the decimals that `toFixed(2)` produces; the unary `+` turns each into the
binary64 value nearest to that decimal, which is printed and stored as the same decimal. -/
def calculateTotals64 (items : List Item) : Totals :=
  { items := items.map (fun it => { it with line_total := some (lineTotal64 it) })
    subtotal := toFixed2 (subtotalAcc64 items)
    totalGst := toFixed2 (totalGstAcc64 items)
    total := toFixed2 (fl (subtotalAcc64 items + totalGstAcc64 items)) }

/-- The unit roundoff of binary64, `2^-53`. -/
def u64 : ℚ := 1 / 2 ^ 53

/-- The value `x` was obtained from the exact value `X` with at most `k` binary64 roundings,
the magnitudes involved being bounded by `B`: `|x - X| ≤ ((1 + 2^-53)^k - 1) * B`. -/
def Approx (k : ℕ) (x X B : ℚ) : Prop :=
  |X| ≤ B ∧ |x - X| ≤ ((1 + u64) ^ k - 1) * B

/-- The item with its quantity negated. -/
def negateQuantity (it : Item) : Item :=
  { it with quantity := some (-numOr0 it.quantity) }

/-- An item whose exact tax amount lies on a half-cent boundary: `(quantity 1,
unit_price 21.50, igst_rate 5)`, tax 1.075 and amount 22.575. -/
def sampleHalfTaxItem : Item :=
  { product_name := some "Tape", description := none, hsn_sac := none,
    quantity := some 1, unit_price := some (43 / 2),
    cgst_rate := none, sgst_rate := none, igst_rate := some 5, line_total := none }

/-- An item with a two-decimal price whose exact tax lies on a half-cent boundary:
`(quantity 1, unit_price 1.25, igst_rate 18)`, tax 0.225 and amount 1.475. -/
def sampleFiveQuarterItem : Item :=
  { product_name := some "Clip", description := none, hsn_sac := none,
    quantity := some 1, unit_price := some (5 / 4),
    cgst_rate := none, sgst_rate := none, igst_rate := some 18, line_total := none }

/-- An item of a quarter rupee: `(quantity 1, unit_price 0.25, igst_rate 18)`, exact tax
0.045 and exact amount 0.295. -/
def sampleQuarterItem : Item :=
  { product_name := some "Pin", description := none, hsn_sac := none,
    quantity := some 1, unit_price := some (1 / 4),
    cgst_rate := none, sgst_rate := none, igst_rate := some 18, line_total := none }

/-! ## Tax normaliser and create route (`routes/invoices.js`, lines 26-73) -/

/-- The test `(gstNumber || "").startsWith("27")`. -/
def isCgstSgst (gstNumber : Option (List Char)) : Bool :=
  List.isPrefixOf ['2', '7'] (gstNumber.getD [])

/-- The expression `it.igst_rate ? Number(it.igst_rate) / 2 : 0`. -/
def halfIgst (it : Item) : ℚ :=
  match it.igst_rate with
  | some r => if r ≠ 0 then r / 2 else 0
  | none => 0

/-- The function `normalizeGstFields(items, gstNumber)`. -/
def normalizeGstFields (items : List Item) (gstNumber : Option (List Char)) : List Item :=
  items.map (fun it =>
    if isCgstSgst gstNumber then
      let cgst : ℚ := match it.cgst_rate with
        | some c => c
        | none => halfIgst it
      let sgst : ℚ := match it.sgst_rate with
        | some s => s
        | none => halfIgst it
      { it with cgst_rate := some cgst, sgst_rate := some sgst, igst_rate := some 0 }
    else
      let igst : ℚ := match it.igst_rate with
        | some i => i
        | none => numOr0 it.cgst_rate + numOr0 it.sgst_rate
      { it with igst_rate := some igst, cgst_rate := some 0, sgst_rate := some 0 })

/-- The start of the create handler `router.post("/")`: the request is rejected with status
400 when `customer_name` is falsy or `items` is empty; otherwise the items are normalised and
`calculateTotals` is applied.  Neither function has a failure path of its own. -/
def createInvoiceTotals (customer_name : Option String) (items : List Item)
    (customer_gst : Option (List Char)) : Except String Totals :=
  if customer_name = none ∨ customer_name = some "" ∨ items.length = 0 then
    Except.error "Missing customer_name or items[]"
  else
    Except.ok (calculateTotals (normalizeGstFields items customer_gst))

/-- The customer tax-id `27ABCDE1234F1Z5` of the worked example. -/
def sampleGstin27 : List Char :=
  ['2', '7', 'A', 'B', 'C', 'D', 'E', '1', '2', '3', '4', 'F', '1', 'Z', '5']

/-- A customer tax-id of another state, `29ABCDE1234F1Z5`. -/
def sampleGstin29 : List Char :=
  ['2', '9', 'A', 'B', 'C', 'D', 'E', '1', '2', '3', '4', 'F', '1', 'Z', '5']

/-- An item carrying only split rates: `(quantity 1, unit_price 50, cgst_rate 6,
sgst_rate 6)`. -/
def sampleSplitItem : Item :=
  { product_name := some "Switch", description := none, hsn_sac := none,
    quantity := some 1, unit_price := some 50,
    cgst_rate := some 6, sgst_rate := some 6, igst_rate := none, line_total := none }

/-! ## Renderer: output name and totals fill-in (`generateAndSavePDF`, lines 15 and 68-84) -/

/-- Width of an A4 page in PDF points, the value the PDF library gives `page.width`
for `PAGE.size = 'A4'`. -/
def A4_width : ℚ := 59528 / 100

/-- The characters that the regular expression of `safeName` replaces: slash, backslash,
colon, question mark, angle brackets, vertical bar and double quote. -/
def unsafeChars : List Char :=
  ['/', Char.ofNat 92, ':', '?', '<', '>', '|', Char.ofNat 34]

/-- The function `safeName(s)`: a falsy argument (absent or empty) is replaced by
`'unknown'`, every unsafe character by `'_'`, and the result is cut to 50 characters. -/
def safeName (s : Option (List Char)) : List Char :=
  let t : List Char := match s with
    | some u => if u = [] then "unknown".toList else u
    | none => "unknown".toList
  (t.map (fun c => if c ∈ unsafeChars then '_' else c)).take 50

/-- The invoice object handed to the renderer.  A field is `none` when absent. -/
structure Invoice where
  /-- Invoice number. -/
  invoice_number : Option (List Char)
  /-- Invoice date. -/
  invoice_date : Option (List Char)
  /-- Customer name. -/
  customer_name : Option (List Char)
  /-- Alternative customer field read by the output path. -/
  customer : Option (List Char)
  /-- Customer address. -/
  customer_address : Option (List Char)
  /-- Customer tax-id. -/
  customer_gst : Option (List Char)
  /-- Line items (`invoiceObj.items || []`). -/
  items : List Item
  /-- Aggregate `subtotal`. -/
  subtotal : Option ℚ
  /-- Aggregate `total_gst`. -/
  total_gst : Option ℚ
  /-- Aggregate `total`. -/
  total : Option ℚ
  deriving DecidableEq, Repr

/-- JavaScript truthiness of a string field: present and non-empty. -/
def truthyStr (s : Option (List Char)) : Bool :=
  match s with
  | some (_ :: _) => true
  | _ => false

/-- JavaScript truthiness of a numeric field: present and non-zero. -/
def truthyNum (x : Option ℚ) : Bool :=
  match x with
  | some q => decide (q ≠ 0)
  | none => false

/-- The value `custSafe = safeName(invoiceObj.customer_name || invoiceObj.customer ||
'customer')`. -/
def custSafe (invoiceObj : Invoice) : List Char :=
  safeName (some (if truthyStr invoiceObj.customer_name then invoiceObj.customer_name.getD []
    else if truthyStr invoiceObj.customer then invoiceObj.customer.getD []
    else "customer".toList))

/-- The block "compute totals/items if missing" (lines 77-84): when `subtotal`, `total` or
`total_gst` is falsy, the four fields are assigned on `invoiceObj` from `calculateTotals`.
The value is `invoiceObj` as it stands after the block, and after the call. -/
def fillTotals (invoiceObj : Invoice) : Invoice :=
  if (!truthyNum invoiceObj.subtotal || !truthyNum invoiceObj.total
      || !truthyNum invoiceObj.total_gst) = true then
    { invoiceObj with
      subtotal := some (calculateTotals invoiceObj.items).subtotal
      total_gst := some (calculateTotals invoiceObj.items).totalGst
      total := some (calculateTotals invoiceObj.items).total
      items := (calculateTotals invoiceObj.items).items }
  else invoiceObj

/-! ## Renderer: table columns, rows and fonts (`generateAndSavePDF`, lines 186-325) -/

/-- The two values of the variable `gstType`. -/
inductive GstType where
  /-- The value `'IGST'`. -/
  | IGST
  /-- The value `'CGST_SGST'`. -/
  | CGST_SGST
  deriving DecidableEq, Repr

/-- The variable `gstType`: `'IGST'` unless there is a first item whose `cgst_rate` or
`sgst_rate` is positive. -/
def gstType (items : List Item) : GstType :=
  match items with
  | [] => GstType.IGST
  | first :: _ =>
    if numOr0 first.cgst_rate > 0 ∨ numOr0 first.sgst_rate > 0 then GstType.CGST_SGST
    else GstType.IGST

/-- The list `headers` chosen by `gstType`. -/
def headers : GstType → List String
  | GstType.CGST_SGST =>
    ["SNo", "Description", "HSN/SAC", "Qty", "Unit Price", "CGST %", "SGST %", "Amount"]
  | GstType.IGST =>
    ["SNo", "Description", "HSN/SAC", "Qty", "Unit Price", "IGST %", "Amount"]

/-- The list `colPercents` chosen by `gstType`. -/
def colPercents : GstType → List ℚ
  | GstType.CGST_SGST => [6, 32, 12, 6, 12, 9, 9, 14]
  | GstType.IGST => [6, 34, 12, 6, 12, 10, 20]

/-- The shared font size `fontSizeVal =
Math.max(STYLE.minFontSize, Math.floor(baseFont * (rowHVal / maxRowH)))`, followed by the
(redundant) floor at `STYLE.minFontSize`. -/
def fontSizeVal (rowHeight : ℚ) : ℚ :=
  let f : ℚ := max STYLE_minFontSize ((⌊STYLE_normalSize * (rowHeight / (maxRowH : ℚ))⌋ : ℤ) : ℚ)
  if f < STYLE_minFontSize then STYLE_minFontSize else f

/-- The variable `currentRowY` after `n` rows: it starts at `tableY + headerH + 6` and grows
by `rowHVal` at the end of every loop iteration. -/
def currentRowY (tableY : ℚ) (rowHeight : ℤ) : ℕ → ℚ
  | 0 => tableY + headerH + 6
  | n + 1 => currentRowY tableY rowHeight n + (rowHeight : ℚ)

/-- What is drawn in the table body: the `'No items'` placeholder at `(x, y)` when
`rowCount === 0`, otherwise one row per item, recorded by its `currentRowY`. -/
inductive TableBody where
  /-- The placeholder text and its position. -/
  | noItems (text : String) (x y : ℚ)
  /-- The `currentRowY` of every row, in order. -/
  | rows (ys : List ℚ)
  deriving DecidableEq, Repr

/-- The table body for a list of items. -/
def tableBody (tableX tableY : ℚ) (rowHeight : ℤ) (items : List Item) : TableBody :=
  if items.length = 0 then TableBody.noItems "No items" (tableX + 8) (tableY + headerH + 8)
  else TableBody.rows ((List.range items.length).map (currentRowY tableY rowHeight))

/-! ## Renderer: totals box, words box and bottom box (`generateAndSavePDF`, lines 327-368) -/

/-- The constant `totH`: height of the totals box. -/
def totH : ℚ := 76

/-- The constant `wordsBoxH`: height of the amount-in-words box. -/
def wordsBoxH : ℚ := 56

/-- The constant `bottomBoxH`: height of the bank / signature box. -/
def bottomBoxH : ℚ := 100

/-- The value `totY = tableY + tableH + STYLE.gap`. -/
def totY (pageHeight titleH : ℚ) : ℚ :=
  tableTop titleH + tableH pageHeight titleH + STYLE_gap

/-- The value `bottomBoxY = totY + Math.max(totH, wordsBoxH) + STYLE.gap`. -/
def bottomBoxY (pageHeight titleH : ℚ) : ℚ :=
  totY pageHeight titleH + max totH wordsBoxH + STYLE_gap

/-- The function `Math.round`: the nearest integer, a tie going towards `+∞`. -/
def mathRound (x : ℚ) : ℤ := ⌊x + 1 / 2⌋

/-- The variable `roundedTotal`: `Math.round(invoiceObj.total)` when the total is present,
else its initial value `0`. -/
def roundedTotal (total : Option ℚ) : ℤ :=
  match total with
  | some t => mathRound t
  | none => 0

/-- The variable `roundOff`: `+(roundedTotal - invoiceObj.total).toFixed(2)` when the total
is present, else its initial value `0`. -/
def roundOff (total : Option ℚ) : ℚ :=
  match total with
  | some t => toFixed2 ((mathRound t : ℚ) - t)
  | none => 0

/-- Modelled from the spec: the integer that `numberToWords.toWords` spells.  The package
`number-to-words` is not part of the sources; as the claim states, it spells the integer
part of its argument (the fraction is dropped, towards zero). -/
def toWordsInteger (x : ℚ) : ℤ := if 0 ≤ x then ⌊x⌋ else ⌈x⌉

/-- The integer spelled in the words box: `amountWords` is
`numberToWords.toWords(invoiceObj.total)...` when `invoiceObj.total` is truthy, and the empty
string (`none`) otherwise. -/
def amountWordsInteger (total : Option ℚ) : Option ℤ :=
  match total with
  | some t => if t ≠ 0 then some (toWordsInteger t) else none
  | none => none

/-! ## Renderer: the page (`generateAndSavePDF`) -/

/-- The content of the page that `generateAndSavePDF` draws, as far as the properties below
need it. -/
structure RenderedPage where
  /-- The invoice object after the call. -/
  invoice : Invoice
  /-- Position `y` of the title text, the first thing drawn. -/
  titleY : ℚ
  /-- The table outer rectangle `(x, y, w, h)`. -/
  tableRect : ℚ × ℚ × ℚ × ℚ
  /-- The header texts. -/
  headerTexts : List String
  /-- The shared row height. -/
  rowHeight : ℤ
  /-- The shared font size. -/
  fontSize : ℚ
  /-- The table body. -/
  body : TableBody
  /-- The value printed after `Subtotal`. -/
  subtotalShown : Option ℚ
  /-- The value printed after `Total GST`. -/
  totalGstShown : Option ℚ
  /-- The value printed after `Round Off`. -/
  roundOffShown : ℚ
  /-- The value printed after `Grand Total`. -/
  grandTotalShown : ℤ
  /-- The integer spelled in the words box, if any. -/
  wordsInteger : Option ℤ
  /-- Bottom edge of the bank / signature box. -/
  bottomBoxBottom : ℚ
  deriving DecidableEq, Repr

/-- The function `generateAndSavePDF(invoiceObj, companyConfig)` on a page of the given size,
with `titleH` the measured height of the title.  The source has no `throw` and no rejection
of its own: every invoice gets a page (failures of the file system are outside the model). -/
def generateAndSavePDF (pageWidth pageHeight titleH : ℚ) (invoiceObj : Invoice) :
    Except String RenderedPage :=
  let inv : Invoice := fillTotals invoiceObj
  let contentW : ℚ := pageWidth - PAGE_margin - PAGE_margin
  let tableX : ℚ := PAGE_margin
  let tableY : ℚ := tableTop titleH
  let tH : ℚ := tableH pageHeight titleH
  let rowCount : ℕ := inv.items.length
  let rh : ℤ := rowHVal tH rowCount
  Except.ok
    { invoice := inv
      titleY := PAGE_margin
      tableRect := (tableX, tableY, contentW, tH)
      headerTexts := headers (gstType inv.items)
      rowHeight := rh
      fontSize := fontSizeVal (rh : ℚ)
      body := tableBody tableX tableY rh inv.items
      subtotalShown := inv.subtotal
      totalGstShown := inv.total_gst
      roundOffShown := roundOff inv.total
      grandTotalShown := roundedTotal inv.total
      wordsInteger := amountWordsInteger inv.total
      bottomBoxBottom := bottomBoxY pageHeight titleH + bottomBoxH }

/-! ## The row height and font size as the specification words them -/

/-- The function `clamp(x, lo, hi)` of the specification. -/
def clamp (x lo hi : ℚ) : ℚ := min (max x lo) hi

/-- The row height as the specification states it: `clamp(rowAreaH / N, 10, 18)` for
`N ≥ 1`, and 18 for `N = 0`. -/
def rowHeightSpec (tH : ℚ) (N : ℕ) : ℚ :=
  if N = 0 then 18 else clamp (rowAreaH tH / (N : ℚ)) 10 18

/-! ## Sample inputs for the renderer -/

/-- An item with no tax rate at all: `(quantity 1, unit_price 50)`. -/
def sampleUntaxedItem : Item :=
  { product_name := some "Manual", description := none, hsn_sac := none,
    quantity := some 1, unit_price := some 50,
    cgst_rate := none, sgst_rate := none, igst_rate := none, line_total := none }

/-- An invoice without aggregates, carrying the worked example's item. -/
def sampleInvoice : Invoice :=
  { invoice_number := some "INV-202611-0001".toList, invoice_date := some "2026-11-06".toList,
    customer_name := some "Acme".toList, customer := none, customer_address := none,
    customer_gst := some sampleGstin29, items := [sampleItem],
    subtotal := none, total_gst := none, total := none }

/-- An invoice with no items and no aggregates. -/
def sampleEmptyInvoice : Invoice :=
  { sampleInvoice with items := [] }

/-- An invoice that supplies all three aggregates, with a zero `total_gst`:
`subtotal 100, total_gst 0, total 100`, and one untaxed item of amount 50. -/
def sampleZeroGstInvoice : Invoice :=
  { sampleInvoice with
    items := [sampleUntaxedItem], subtotal := some 100, total_gst := some 0,
    total := some 100 }

/-- An item without tax whose amount ends in half a rupee: `(quantity 1,
unit_price 236.50, igst_rate 0)`. -/
def sampleHalfRupeeItem : Item :=
  { product_name := some "Service", description := none, hsn_sac := none,
    quantity := some 1, unit_price := some (473 / 2),
    cgst_rate := none, sgst_rate := none, igst_rate := some 0, line_total := none }

/-- An invoice without aggregates whose only item amounts to 236.50. -/
def sampleHalfRupeeInvoice : Invoice :=
  { sampleInvoice with items := [sampleHalfRupeeItem] }

/-! ## Renderer: challan number, font-shrink loops, Amount cell, widths
(`generateAndSavePDF`, lines 155-174, 215, 303-316, 331-357, 408) -/

/-- The variable `challanNo`: empty unless `invoiceObj.invoice_number` is truthy, and then
`'CH' + invNumStr.slice(-4)`, the prefix followed by the last four characters. -/
def challanNo (invoice_number : Option (List Char)) : List Char :=
  match invoice_number with
  | some (c :: cs) => ['C', 'H'] ++ (c :: cs).drop ((c :: cs).length - 4)
  | _ => []

/-- The two font-shrink loops: `while (overflows at size && size > STYLE.minFontSize)
size--`.  Font sizes are whole numbers in the source (the start sizes are
`STYLE.normalSize = 9` and `fontSizeVal`); `overflows z` says that the measured text exceeds
its limit at size `z`. -/
def shrinkLoop (overflows : ℤ → Bool) (minSize : ℤ) (size : ℤ) : ℤ :=
  if h : overflows size = true ∧ size > minSize then
    shrinkLoop overflows minSize (size - 1)
  else size
termination_by (size - minSize).toNat
decreasing_by
  simp_wf
  omega

/-- The variable `billToAddressFontSize` after its loop: start `STYLE.normalSize = 9`, floor
`STYLE.minFontSize = 6`, overflow when the wrapped height exceeds 18. -/
def billToAddressFontSize (heightAt : ℤ → ℚ) : ℤ :=
  shrinkLoop (fun z => decide (heightAt z > 18)) 6 9

/-- The variable `amountFontSize` after its loop: start `fontSizeVal`, floor
`STYLE.minFontSize = 6`, overflow when the width of `amountStr` exceeds the width of the
last column minus 12. -/
def amountFontSize (widthAt : ℤ → ℚ) (lastColWidth : ℚ) (fontSize : ℤ) : ℤ :=
  shrinkLoop (fun z => decide (widthAt z > lastColWidth - 12)) 6 fontSize

/-- The value printed in the Amount cell: `amountStr = Number(total).toFixed(2)` with
`gst`, `line`, `gstAmt` and `total = line + gstAmt` recomputed from the item in binary64
arithmetic (lines 305-309). -/
def amountStr (it : Item) : ℚ :=
  toFixed2 (fl (fl (num64 it.quantity * num64 it.unit_price)
    + fl (fl (num64 it.quantity * num64 it.unit_price)
        * fl (fl (fl (num64 it.cgst_rate + num64 it.sgst_rate) + num64 it.igst_rate) / 100))))

/-- The list `colWidths = colPercents.map(p => Math.floor((p/100) * tableW))`. -/
def colWidths (g : GstType) (tableW : ℚ) : List ℤ :=
  (colPercents g).map (fun p => ⌊p / 100 * tableW⌋)

/-- The value `totW = Math.floor(contentW * 0.36)`. -/
def totW (contentW : ℚ) : ℤ := ⌊contentW * (36 / 100)⌋

/-- The value `totX = page.margins.left + contentW - totW`. -/
def totX (contentW : ℚ) : ℚ := PAGE_margin + contentW - (totW contentW : ℚ)

/-- The value `wordsBoxX = page.margins.left`. -/
def wordsBoxX : ℚ := PAGE_margin

/-- The value `wordsBoxW = contentW - totW - 16`. -/
def wordsBoxW (contentW : ℚ) : ℚ := contentW - (totW contentW : ℚ) - 16

/-- The value `footerY = page.height - page.margins.bottom - 12`. -/
def footerY (pageHeight : ℚ) : ℚ := pageHeight - PAGE_margin - 12

/-! ## Client form (`frontend/src/components/InvoiceForm.jsx`, lines 129-146 and 206-228) -/

/-- The item mapping of the payload builder in `handleSubmit`: under `CGST_SGST` the split
rates are sent as numbers and `igst_rate` as 0, under `IGST` the other way round. -/
def payloadItem (g : GstType) (it : Item) : Item :=
  match g with
  | GstType.CGST_SGST =>
    { it with cgst_rate := some (numOr0 it.cgst_rate), sgst_rate := some (numOr0 it.sgst_rate),
              igst_rate := some 0 }
  | GstType.IGST =>
    { it with igst_rate := some (numOr0 it.igst_rate), cgst_rate := some 0,
              sgst_rate := some 0 }

/-- The value `payload.items` of `handleSubmit`. -/
def payloadItems (g : GstType) (items : List Item) : List Item := items.map (payloadItem g)

/-- The object that the client function `totals()` returns. -/
structure ClientTotals where
  /-- The field `subtotal` (not rounded). -/
  subtotal : ℚ
  /-- The field `totalGst` (not rounded). -/
  totalGst : ℚ
  /-- The field `total` (not rounded). -/
  total : ℚ
  /-- The field `roundedTotal`. -/
  roundedTotal : ℤ
  /-- The field `roundOff`. -/
  roundOff : ℚ
  deriving DecidableEq, Repr

/-- The rate the client applies to one item: `cgst_rate + sgst_rate` under `CGST_SGST`,
`igst_rate` under `IGST`. -/
def clientGstRate (g : GstType) (it : Item) : ℚ :=
  match g with
  | GstType.CGST_SGST => numOr0 it.cgst_rate + numOr0 it.sgst_rate
  | GstType.IGST => numOr0 it.igst_rate

/-- The client function `totals()` for the form's `gstType` and `items`. -/
def totals (g : GstType) (items : List Item) : ClientTotals :=
  let subtotal : ℚ := items.foldl (fun acc it => acc + line it) 0
  let totalGst : ℚ := items.foldl (fun acc it => acc + line it * (clientGstRate g it / 100)) 0
  let total : ℚ := subtotal + totalGst
  let rounded : ℤ := mathRound total
  { subtotal := subtotal
    totalGst := totalGst
    total := total
    roundedTotal := rounded
    roundOff := toFixed2 ((rounded : ℚ) - total) }

/-! ## Update route (`routes/invoices.js`, lines 233-254) -/

/-- The start of the update handler `router.put("/:id")`.  Its first statement evaluates
`customer_gst || body.customer_gst`, and no variable `body` exists in that handler: with a
falsy `customer_gst` the evaluation raises a `ReferenceError`, which the handler's `catch`
turns into a status-500 response.  With a truthy `customer_gst` the items are normalised
and `calculateTotals` is applied. -/
def updateInvoiceTotals (items : List Item) (customer_gst : Option (List Char)) :
    Except String Totals :=
  if truthyStr customer_gst = true then
    Except.ok (calculateTotals (normalizeGstFields items customer_gst))
  else
    Except.error "body is not defined"

/-! ## Conditions under which the normaliser keeps the total rate -/

/-- An item whose total rate `normalizeGstFields` keeps.  With a tax-id starting with `27`:
`igst_rate` is absent or zero, or both split rates are absent.  With any other tax-id: both
split rates are absent or zero, or `igst_rate` is absent. -/
def RateKept (gstNumber : Option (List Char)) (it : Item) : Prop :=
  if isCgstSgst gstNumber = true then
    numOr0 it.igst_rate = 0 ∨ (it.cgst_rate = none ∧ it.sgst_rate = none)
  else
    (numOr0 it.cgst_rate = 0 ∧ numOr0 it.sgst_rate = 0) ∨ it.igst_rate = none

/-! ## Further sample inputs -/

/-- An item populated in the unified regime only, its split rates present as zero (the
shape the client form gives every item): `(quantity 2, unit_price 100, cgst_rate 0,
sgst_rate 0, igst_rate 18)`. -/
def sampleZeroSplitItem : Item :=
  { product_name := some "Cable", description := none, hsn_sac := none,
    quantity := some 2, unit_price := some 100,
    cgst_rate := some 0, sgst_rate := some 0, igst_rate := some 18, line_total := none }

/-- An item whose total ends just below half a rupee: `(quantity 1, unit_price 200.42,
igst_rate 18)`, total 236.4956. -/
def sampleNearHalfItem : Item :=
  { product_name := some "Router", description := none, hsn_sac := none,
    quantity := some 1, unit_price := some (10021 / 50),
    cgst_rate := some 0, sgst_rate := some 0, igst_rate := some 18, line_total := none }

/-! ## Row fitting: proofs -/

/-- When the floor of the ideal row height is not below the minimum, the rows fit the row
area. -/
theorem rowHVal_mul_le (tH : ℚ) (N : ℕ) (hN : 1 ≤ N)
    (hfit : (minRowH : ℚ) * N ≤ rowAreaH tH) :
    (rowHVal tH N : ℚ) * N ≤ rowAreaH tH := by
  have hNpos : (0 : ℚ) < (N : ℚ) := by exact_mod_cast hN
  have hfloor : ((⌊rowAreaH tH / (N : ℚ)⌋ : ℤ) : ℚ) * N ≤ rowAreaH tH := by
    have h1 : ((⌊rowAreaH tH / (N : ℚ)⌋ : ℤ) : ℚ) ≤ rowAreaH tH / (N : ℚ) := Int.floor_le _
    calc ((⌊rowAreaH tH / (N : ℚ)⌋ : ℤ) : ℚ) * N
        ≤ rowAreaH tH / (N : ℚ) * N := mul_le_mul_of_nonneg_right h1 hNpos.le
      _ = rowAreaH tH := div_mul_cancel₀ _ hNpos.ne'
  have hN0 : N > 0 := hN
  unfold rowHVal
  simp only [hN0, if_true]
  by_cases hcap : ⌊rowAreaH tH / (N : ℚ)⌋ > maxRowH
  · simp only [hcap, if_true]
    have h18 : ¬ (maxRowH < minRowH) := by decide
    simp only [h18, if_false]
    have hle : ((maxRowH : ℤ) : ℚ) ≤ ((⌊rowAreaH tH / (N : ℚ)⌋ : ℤ) : ℚ) := by
      exact_mod_cast hcap.le
    exact le_trans (mul_le_mul_of_nonneg_right hle hNpos.le) hfloor
  · simp only [hcap, if_false]
    by_cases hlow : ⌊rowAreaH tH / (N : ℚ)⌋ < minRowH
    · simp only [hlow, if_true]
      exact hfit
    · simp only [hlow, if_false]
      exact hfloor

/-- The shared row height is never below `minRowH` and never above `maxRowH`. -/
theorem rowHVal_bounds (tH : ℚ) (N : ℕ) : minRowH ≤ rowHVal tH N ∧ rowHVal tH N ≤ maxRowH := by
  unfold rowHVal minRowH maxRowH
  simp only []
  constructor
  · split_ifs <;> omega
  · split_ifs <;> omega

/-- On an A4 page, whatever the measured title height (taken non-negative), 60 rows do not
fit the table frame. -/
theorem rows_overflow_A4_sixty (titleH : ℚ) (ht : 0 ≤ titleH) :
    tableH A4_height titleH < (rowHVal (tableH A4_height titleH) 60 : ℚ) * (60 : ℕ)
      + headerH + 8 := by
  have hmin : ((minRowH : ℤ) : ℚ) ≤ (rowHVal (tableH A4_height titleH) 60 : ℚ) := by
    exact_mod_cast (rowHVal_bounds (tableH A4_height titleH) 60).1
  have hT : tableH A4_height titleH ≤ 400 := by
    unfold tableH
    apply max_le
    · norm_num
    · unfold tableBottomLimit tableTop A4_height PAGE_margin STYLE_gap compBoxH rowH
        footerReserved bottomAreaReserved
      linarith
  have hmin10 : ((minRowH : ℤ) : ℚ) = 10 := by norm_num [minRowH]
  rw [hmin10] at hmin
  have h60 : ((60 : ℕ) : ℚ) = 60 := by norm_num
  rw [h60]
  unfold headerH
  linarith

/-- C1: the claim fails as stated.  On an A4 page with a title 21.42 points high the planner
gives the table 332.87 points; with 60 items the row height bottoms out at `minRowH = 10`, and
`10 * 60 + 20 + 8 = 628` exceeds the table height. -/
theorem C1_rows_overflow_counterexample :
    1 ≤ 60 ∧ tableH A4_height (2142 / 100) = 33287 / 100 ∧
      rowHVal (tableH A4_height (2142 / 100)) 60 = 10 ∧
      ¬ ((rowHVal (tableH A4_height (2142 / 100)) 60 : ℚ) * (60 : ℕ) + headerH + 8
          ≤ tableH A4_height (2142 / 100)) := by
  have hT : tableH A4_height (2142 / 100) = 33287 / 100 := by
    norm_num [tableH, tableBottomLimit, tableTop, A4_height, PAGE_margin, STYLE_gap,
      compBoxH, rowH, footerReserved, bottomAreaReserved]
  have hR : rowHVal (33287 / 100) 60 = 10 := by
    norm_num [rowHVal, rowAreaH, headerH, minRowH, maxRowH, Int.floor_eq_iff]
  refine ⟨by decide, hT, ?_, ?_⟩
  · rw [hT]; exact hR
  · rw [hT, hR]; norm_num [headerH]

/-- C1 (amended): for every item count `N ≥ 1` and every table height produced by the
planner, if `N` rows fit at the minimum row height (`minRowH * N ≤ tableH - headerH - 8`),
then `rowHVal * N + headerH + 8 ≤ tableH`. -/
theorem C1_rows_fit_when_capacity (pageHeight titleH : ℚ) (N : ℕ) (hN : 1 ≤ N)
    (hfit : (minRowH : ℚ) * N ≤ rowAreaH (tableH pageHeight titleH)) :
    (rowHVal (tableH pageHeight titleH) N : ℚ) * N + headerH + 8
      ≤ tableH pageHeight titleH := by
  have h := rowHVal_mul_le (tableH pageHeight titleH) N hN hfit
  unfold rowAreaH at h
  linarith

/-- C1 (amended), evaluated: 30 items on the A4 page with a 21.42-point title, where the
row area is 304.87 points high. -/
theorem C1_rows_fit_when_capacity_witness :
    1 ≤ 30 ∧ (minRowH : ℚ) * (30 : ℕ) ≤ rowAreaH (tableH A4_height (2142 / 100)) ∧
      (rowHVal (tableH A4_height (2142 / 100)) 30 : ℚ) * (30 : ℕ) + headerH + 8
        ≤ tableH A4_height (2142 / 100) :=
  have hfit : (minRowH : ℚ) * (30 : ℕ) ≤ rowAreaH (tableH A4_height (2142 / 100)) := by
    norm_num [tableH, tableBottomLimit, tableTop, A4_height, PAGE_margin, STYLE_gap,
      compBoxH, rowH, footerReserved, bottomAreaReserved, rowAreaH, headerH, minRowH]
  ⟨by decide, hfit, C1_rows_fit_when_capacity A4_height (2142 / 100) 30 (by decide) hfit⟩

/-! ## Text fitting: proofs -/

/-- One loop iteration when the candidate `text.slice(0, mid) + '…'` fits. -/
theorem truncateLoop_fit (w : List Char → ℚ) (text : List Char) (width : ℚ) (lo hi : ℕ)
    (h : lo < hi) (hf : w (text.take ((lo + hi + 1) / 2) ++ [ellipsis]) ≤ width) :
    truncateLoop w text width lo hi = truncateLoop w text width ((lo + hi + 1) / 2) hi := by
  rw [truncateLoop]; simp only [h, dite_true, hf, if_true]

/-- One loop iteration when the candidate does not fit. -/
theorem truncateLoop_nofit (w : List Char → ℚ) (text : List Char) (width : ℚ) (lo hi : ℕ)
    (h : lo < hi) (hf : ¬ w (text.take ((lo + hi + 1) / 2) ++ [ellipsis]) ≤ width) :
    truncateLoop w text width lo hi
      = truncateLoop w text width lo ((lo + hi + 1) / 2 - 1) := by
  rw [truncateLoop]; simp only [h, dite_true, hf, if_false]

/-- Loop exit. -/
theorem truncateLoop_done (w : List Char → ℚ) (text : List Char) (width : ℚ) (lo hi : ℕ)
    (h : ¬ lo < hi) : truncateLoop w text width lo hi = lo := by
  rw [truncateLoop]; simp only [h, dite_false]

/-- The loop result stays in `[lo, hi]`, and it is either the initial `lo` or a prefix
length whose candidate fits. -/
theorem truncateLoop_spec (w : List Char → ℚ) (text : List Char) (width : ℚ) :
    ∀ (n lo hi : ℕ), hi - lo = n → lo ≤ hi →
      lo ≤ truncateLoop w text width lo hi ∧ truncateLoop w text width lo hi ≤ hi ∧
      (truncateLoop w text width lo hi = lo ∨
        w (text.take (truncateLoop w text width lo hi) ++ [ellipsis]) ≤ width) := by
  intro n
  induction n using Nat.strong_induction_on with
  | _ n ih =>
    intro lo hi hn hle
    by_cases h : lo < hi
    · by_cases hf : w (text.take ((lo + hi + 1) / 2) ++ [ellipsis]) ≤ width
      · rw [truncateLoop_fit w text width lo hi h hf]
        have hrec := ih (hi - (lo + hi + 1) / 2) (by omega) ((lo + hi + 1) / 2) hi rfl
          (by omega)
        refine ⟨by omega, hrec.2.1, ?_⟩
        rcases hrec.2.2 with he | hfit
        · right; rw [he]; exact hf
        · right; exact hfit
      · rw [truncateLoop_nofit w text width lo hi h hf]
        have hrec := ih ((lo + hi + 1) / 2 - 1 - lo) (by omega) lo ((lo + hi + 1) / 2 - 1) rfl
          (by omega)
        exact ⟨hrec.1, by omega, hrec.2.2⟩
    · rw [truncateLoop_done w text width lo hi h]
      exact ⟨le_refl _, hle, Or.inl rfl⟩

/-- When fitting is downward closed in the prefix length and no length above `hi` (up to
`L`) fits, no length above the loop result fits either. -/
theorem truncateLoop_maximal (w : List Char → ℚ) (text : List Char) (width : ℚ) (L : ℕ)
    (hanti : ∀ i j : ℕ, i ≤ j → w (text.take j ++ [ellipsis]) ≤ width →
      w (text.take i ++ [ellipsis]) ≤ width) :
    ∀ (n lo hi : ℕ), hi - lo = n → lo ≤ hi →
      (∀ j, hi < j → j ≤ L → ¬ w (text.take j ++ [ellipsis]) ≤ width) →
      ∀ j, truncateLoop w text width lo hi < j → j ≤ L →
        ¬ w (text.take j ++ [ellipsis]) ≤ width := by
  intro n
  induction n using Nat.strong_induction_on with
  | _ n ih =>
    intro lo hi hn hle habove
    by_cases h : lo < hi
    · by_cases hf : w (text.take ((lo + hi + 1) / 2) ++ [ellipsis]) ≤ width
      · rw [truncateLoop_fit w text width lo hi h hf]
        exact ih (hi - (lo + hi + 1) / 2) (by omega) ((lo + hi + 1) / 2) hi rfl (by omega)
          habove
      · rw [truncateLoop_nofit w text width lo hi h hf]
        refine ih ((lo + hi + 1) / 2 - 1 - lo) (by omega) lo ((lo + hi + 1) / 2 - 1) rfl
          (by omega) ?_
        intro j hj _ hfit
        exact hf (hanti ((lo + hi + 1) / 2) j (by omega) hfit)
    · rw [truncateLoop_done w text width lo hi h]
      intro j hj hjL
      exact habove j (by omega) hjL

/-- For a monotone measure, fitting of the candidates is downward closed in the prefix
length. -/
theorem fits_downward_closed (w : List Char → ℚ) (text : List Char) (width : ℚ)
    (hmono : MonotoneInPrefixLength w) (i j : ℕ) (hij : i ≤ j)
    (hfit : w (text.take j ++ [ellipsis]) ≤ width) :
    w (text.take i ++ [ellipsis]) ≤ width :=
  le_trans (hmono (text.take i) (text.take j) (List.take_prefix_take_left text hij)).2 hfit

/-- The sample measure is monotone in prefix length. -/
theorem unitWidth_monotone : MonotoneInPrefixLength unitWidth := by
  intro s t hst
  have hlen : s.length ≤ t.length := hst.length_le
  constructor
  · unfold unitWidth; exact_mod_cast hlen
  · unfold unitWidth
    simp only [List.length_append, List.length_singleton]
    exact_mod_cast Nat.add_le_add_right hlen 1

/-- The sample search: six characters, width 4, gives prefix length 3. -/
theorem truncateLoop_sample :
    truncateLoop unitWidth ['a', 'b', 'c', 'd', 'e', 'f'] 4 0 6 = 3 := by
  rw [truncateLoop_fit _ _ _ 0 6 (by decide) (by norm_num [unitWidth]),
    truncateLoop_nofit _ _ _ 3 6 (by decide) (by norm_num [unitWidth]),
    truncateLoop_nofit _ _ _ 3 4 (by decide) (by norm_num [unitWidth]),
    truncateLoop_done _ _ _ 3 3 (by decide)]

/-- The sample truncation: `"abcdef"` at width 4 becomes `"abc…"`. -/
theorem truncateToWidth_sample :
    truncateToWidth unitWidth ['a', 'b', 'c', 'd', 'e', 'f'] 4 = ['a', 'b', 'c', ellipsis] := by
  have h2 : ¬ unitWidth ['a', 'b', 'c', 'd', 'e', 'f'] ≤ 4 := by norm_num [unitWidth]
  simp [truncateToWidth, truncateLoop_sample, h2]

/-- The sample truncation at width 0: only the ellipsis is left. -/
theorem truncateToWidth_zero_width :
    truncateToWidth unitWidth ['a', 'b', 'c'] 0 = [ellipsis] := by
  have h : truncateLoop unitWidth ['a', 'b', 'c'] 0 0 3 = 0 := by
    rw [truncateLoop_nofit _ _ _ 0 3 (by decide) (by norm_num [unitWidth]),
      truncateLoop_nofit _ _ _ 0 1 (by decide) (by norm_num [unitWidth]),
      truncateLoop_done _ _ _ 0 0 (by decide)]
  have h2 : ¬ unitWidth ['a', 'b', 'c'] ≤ 0 := by norm_num [unitWidth]
  simp [truncateToWidth, h, h2]

/-- C2: the claim fails as stated.  With one unit per character (a monotone measure) and
maximum width 0, `truncateToWidth("abc", 0)` is the lone ellipsis, of width 1 > 0: the
search starts from prefix length 0 without checking that the ellipsis alone fits. -/
theorem C2_ellipsis_too_wide_counterexample :
    MonotoneInPrefixLength unitWidth ∧
      truncateToWidth unitWidth ['a', 'b', 'c'] 0 = [ellipsis] ∧
      ¬ (unitWidth (truncateToWidth unitWidth ['a', 'b', 'c'] 0) ≤ 0) := by
  refine ⟨unitWidth_monotone, truncateToWidth_zero_width, ?_⟩
  rw [truncateToWidth_zero_width]
  norm_num [unitWidth]

/-- C2 (amended): for every text, every maximum width `W` and every width measure monotone
in prefix length, if the ellipsis alone fits (`w "…" ≤ W`), the rendered width of
`truncateToWidth(text, W)` is at most `W`. -/
theorem C2_truncated_width_le (w : List Char → ℚ) (text : List Char) (W : ℚ)
    (hmono : MonotoneInPrefixLength w) (hell : w [ellipsis] ≤ W) :
    w (truncateToWidth w text W) ≤ W := by
  unfold truncateToWidth
  by_cases hnil : text = []
  · simp only [hnil, if_true]
    exact le_trans (hmono [] [ellipsis] (List.nil_prefix)).1 hell
  · simp only [hnil, if_false]
    by_cases hfit : w text ≤ W
    · simp only [hfit, if_true]
    · simp only [hfit, if_false]
      have hspec := truncateLoop_spec w text W text.length 0 text.length rfl (Nat.zero_le _)
      rcases hspec.2.2 with h0 | hk
      · rw [h0]; simpa using hell
      · exact hk

/-- C2 (amended), evaluated: `"abcdef"` at width 4 with one unit per character. -/
theorem C2_truncated_width_le_witness :
    MonotoneInPrefixLength unitWidth ∧ unitWidth [ellipsis] ≤ 4 ∧
      unitWidth (truncateToWidth unitWidth ['a', 'b', 'c', 'd', 'e', 'f'] 4) ≤ 4 :=
  ⟨unitWidth_monotone, by norm_num [unitWidth],
    C2_truncated_width_le unitWidth ['a', 'b', 'c', 'd', 'e', 'f'] 4 unitWidth_monotone
      (by norm_num [unitWidth])⟩

/-- C3: `truncateToWidth` is idempotent: for every text, width `W` and width measure
monotone in prefix length, truncating the truncated text again changes nothing. -/
theorem C3_truncateToWidth_idempotent (w : List Char → ℚ) (text : List Char) (W : ℚ)
    (hmono : MonotoneInPrefixLength w) :
    truncateToWidth w (truncateToWidth w text W) W = truncateToWidth w text W := by
  by_cases hnil : text = []
  · simp [truncateToWidth, hnil]
  · by_cases hfit : w text ≤ W
    · have h1 : truncateToWidth w text W = text := by
        simp [truncateToWidth, hnil, hfit]
      rw [h1, h1]
    · have h1 : truncateToWidth w text W
          = text.take (truncateLoop w text W 0 text.length) ++ [ellipsis] := by
        simp [truncateToWidth, hnil, hfit]
      have hspec := truncateLoop_spec w text W text.length 0 text.length rfl (Nat.zero_le _)
      by_cases hr : w (text.take (truncateLoop w text W 0 text.length) ++ [ellipsis]) ≤ W
      · rw [h1]
        have hne : text.take (truncateLoop w text W 0 text.length) ++ [ellipsis] ≠ [] := by
          simp
        simp only [truncateToWidth, hne, if_false, hr, if_true]
      · have h0 : truncateLoop w text W 0 text.length = 0 := by
          rcases hspec.2.2 with h0 | hk
          · exact h0
          · exact absurd hk hr
        rw [h0] at hr
        have hr1 : ¬ w [ellipsis] ≤ W := by simpa using hr
        have h2 : truncateToWidth w text W = [ellipsis] := by
          rw [h1, h0]; simp
        have hdouble : ¬ w ([ellipsis].take ((0 + 1 + 1) / 2) ++ [ellipsis]) ≤ W := by
          intro hle
          have hm := (hmono [] [ellipsis] List.nil_prefix).2
          simp only [List.nil_append] at hm
          have h22 : [ellipsis].take ((0 + 1 + 1) / 2) ++ [ellipsis]
              = [ellipsis] ++ [ellipsis] := by
            simp
          rw [h22] at hle
          exact hr1 (le_trans hm hle)
        have hloop : truncateLoop w [ellipsis] W 0 1 = 0 := by
          rw [truncateLoop_nofit w [ellipsis] W 0 1 (by decide) hdouble,
            truncateLoop_done _ _ _ 0 _ (by decide)]
        rw [h2]
        have hne : ([ellipsis] : List Char) ≠ [] := by simp
        simp only [truncateToWidth, hne, if_false, hr1, List.length_singleton, hloop,
          List.take_zero, List.nil_append]

/-- C3, evaluated: `"abcdef"` at width 4 with one unit per character, where the
truncation is `"abc…"`. -/
theorem C3_truncateToWidth_idempotent_witness :
    MonotoneInPrefixLength unitWidth ∧
      truncateToWidth unitWidth
          (truncateToWidth unitWidth ['a', 'b', 'c', 'd', 'e', 'f'] 4) 4
        = truncateToWidth unitWidth ['a', 'b', 'c', 'd', 'e', 'f'] 4 :=
  ⟨unitWidth_monotone,
    C3_truncateToWidth_idempotent unitWidth ['a', 'b', 'c', 'd', 'e', 'f'] 4
      unitWidth_monotone⟩

/-- C4: the claim fails as stated.  With one unit per character and maximum width
`1/2`, the text `"ab"` is non-empty and too wide, yet no prefix length `k` has a fitting
candidate (the ellipsis alone has width 1), so the returned `"…"` is not a longest
fitting prefix plus ellipsis. -/
theorem C4_no_fitting_prefix_counterexample :
    MonotoneInPrefixLength unitWidth ∧ (['a', 'b'] : List Char) ≠ [] ∧
      ¬ unitWidth ['a', 'b'] ≤ 1 / 2 ∧
      ¬ ∃ k : ℕ, k ≤ (['a', 'b'] : List Char).length ∧
        truncateToWidth unitWidth ['a', 'b'] (1 / 2) = (['a', 'b'] : List Char).take k ++ [ellipsis] ∧
        unitWidth ((['a', 'b'] : List Char).take k ++ [ellipsis]) ≤ 1 / 2 ∧
        ∀ j : ℕ, j ≤ (['a', 'b'] : List Char).length →
          unitWidth ((['a', 'b'] : List Char).take j ++ [ellipsis]) ≤ 1 / 2 → j ≤ k := by
  refine ⟨unitWidth_monotone, by simp, by norm_num [unitWidth], ?_⟩
  rintro ⟨k, _, _, hfit, _⟩
  have h1 : (1 : ℚ) ≤ unitWidth ((['a', 'b'] : List Char).take k ++ [ellipsis]) := by
    unfold unitWidth
    simp only [List.length_append, List.length_singleton]
    push_cast
    have : (0 : ℚ) ≤ ((List.take k ['a', 'b']).length : ℚ) := Nat.cast_nonneg _
    linarith
  linarith

/-- C4 (amended): for every non-empty text whose full width exceeds `W` and every width
measure monotone in prefix length, if the ellipsis alone fits (`w "…" ≤ W`), then
`truncateToWidth` returns `text.slice(0, k)` followed by one ellipsis, where `k` is the
greatest prefix length in `0..text.length` whose prefix plus ellipsis has width `≤ W`. -/
theorem C4_longest_fitting_prefix (w : List Char → ℚ) (text : List Char) (W : ℚ)
    (hne : text ≠ []) (hwide : ¬ w text ≤ W) (hmono : MonotoneInPrefixLength w)
    (hell : w [ellipsis] ≤ W) :
    ∃ k : ℕ, k ≤ text.length ∧
      truncateToWidth w text W = text.take k ++ [ellipsis] ∧
      w (text.take k ++ [ellipsis]) ≤ W ∧
      ∀ j : ℕ, j ≤ text.length → w (text.take j ++ [ellipsis]) ≤ W → j ≤ k := by
  have hspec := truncateLoop_spec w text W text.length 0 text.length rfl (Nat.zero_le _)
  refine ⟨truncateLoop w text W 0 text.length, hspec.2.1, ?_, ?_, ?_⟩
  · simp [truncateToWidth, hne, hwide]
  · rcases hspec.2.2 with h0 | hk
    · rw [h0]; simpa using hell
    · exact hk
  · intro j hj hfit
    by_contra hlt
    exact truncateLoop_maximal w text W text.length (fits_downward_closed w text W hmono)
      text.length 0 text.length rfl (Nat.zero_le _) (fun j hj1 hj2 => absurd hj2 (by omega))
      j (by omega) hj hfit

/-- C4 (amended), evaluated: `"abcdef"` at width 4 with one unit per character. -/
theorem C4_longest_fitting_prefix_witness :
    (['a', 'b', 'c', 'd', 'e', 'f'] : List Char) ≠ [] ∧
      ¬ unitWidth ['a', 'b', 'c', 'd', 'e', 'f'] ≤ 4 ∧
      MonotoneInPrefixLength unitWidth ∧ unitWidth [ellipsis] ≤ 4 ∧
      ∃ k : ℕ, k ≤ (['a', 'b', 'c', 'd', 'e', 'f'] : List Char).length ∧
        truncateToWidth unitWidth ['a', 'b', 'c', 'd', 'e', 'f'] 4
          = (['a', 'b', 'c', 'd', 'e', 'f'] : List Char).take k ++ [ellipsis] ∧
        unitWidth ((['a', 'b', 'c', 'd', 'e', 'f'] : List Char).take k ++ [ellipsis]) ≤ 4 ∧
        ∀ j : ℕ, j ≤ (['a', 'b', 'c', 'd', 'e', 'f'] : List Char).length →
          unitWidth ((['a', 'b', 'c', 'd', 'e', 'f'] : List Char).take j ++ [ellipsis]) ≤ 4 →
          j ≤ k :=
  ⟨by simp, by norm_num [unitWidth], unitWidth_monotone, by norm_num [unitWidth],
    C4_longest_fitting_prefix unitWidth ['a', 'b', 'c', 'd', 'e', 'f'] 4 (by simp)
      (by norm_num [unitWidth]) unitWidth_monotone (by norm_num [unitWidth])⟩

/-! ## Totals: proofs -/

/-- The accumulator loop computes the sum of the per-item values. -/
theorem foldl_add_eq_sum (f : Item → ℚ) (items : List Item) (acc : ℚ) :
    items.foldl (fun a it => a + f it) acc = acc + (items.map f).sum := by
  induction items generalizing acc with
  | nil => simp
  | cons it rest ih =>
    simp only [List.foldl_cons, List.map_cons, List.sum_cons]
    rw [ih]; ring

/-- Evaluation rule for `toFixed2` on a non-negative value. -/
theorem toFixed2_eq_of_nonneg (x : ℚ) (n : ℤ) (h0 : 0 ≤ x) (h1 : (n : ℚ) ≤ x * 100 + 1 / 2)
    (h2 : x * 100 + 1 / 2 < (n : ℚ) + 1) : toFixed2 x = (n : ℚ) / 100 := by
  unfold toFixed2
  have hx : ¬ x < 0 := not_lt.mpr h0
  simp only [hx, if_false]
  have hfl : ⌊x * 100 + 1 / 2⌋ = n := Int.floor_eq_iff.mpr ⟨h1, h2⟩
  rw [hfl]

/-- Every `toFixed2` value is a whole number of hundredths. -/
theorem toFixed2_hundredths (x : ℚ) : ∃ n : ℤ, toFixed2 x = (n : ℚ) / 100 := by
  unfold toFixed2
  by_cases hx : x < 0
  · refine ⟨-⌊-x * 100 + 1 / 2⌋, ?_⟩
    simp only [hx, if_true]
    push_cast; ring
  · exact ⟨⌊x * 100 + 1 / 2⌋, by simp only [hx, if_false]⟩

/-- Rounding moves a value by at most half a hundredth. -/
theorem toFixed2_abs_sub_le (x : ℚ) : |toFixed2 x - x| ≤ 1 / 200 := by
  unfold toFixed2
  by_cases hx : x < 0
  · simp only [hx, if_true]
    have h1 := Int.floor_le (-x * 100 + 1 / 2)
    have h2 := Int.lt_floor_add_one (-x * 100 + 1 / 2)
    rw [abs_le]
    constructor <;> linarith
  · simp only [hx, if_false]
    have h1 := Int.floor_le (x * 100 + 1 / 2)
    have h2 := Int.lt_floor_add_one (x * 100 + 1 / 2)
    rw [abs_le]
    constructor <;> linarith

/-- Rounding commutes with adding a whole number of hundredths, for non-negative values. -/
theorem toFixed2_add_hundredths (a b : ℚ) (n : ℤ) (ha : a = (n : ℚ) / 100) (ha0 : 0 ≤ a)
    (hb0 : 0 ≤ b) : toFixed2 (a + b) = toFixed2 a + toFixed2 b := by
  have hab : ¬ a + b < 0 := not_lt.mpr (add_nonneg ha0 hb0)
  have ha' : ¬ a < 0 := not_lt.mpr ha0
  have hb' : ¬ b < 0 := not_lt.mpr hb0
  unfold toFixed2
  simp only [hab, ha', hb', if_false]
  have e1 : (a + b) * 100 + 1 / 2 = (b * 100 + 1 / 2) + (n : ℚ) := by rw [ha]; ring
  have e2 : a * 100 + 1 / 2 = (1 / 2 : ℚ) + (n : ℚ) := by rw [ha]; ring
  have h12 : ⌊(1 / 2 : ℚ)⌋ = 0 := by
    rw [Int.floor_eq_iff]; norm_num
  rw [e1, e2, Int.floor_add_int, Int.floor_add_int, h12]
  push_cast; ring

/-- The totals of the fractional sample item: 1.01, 0.18 and 1.20. -/
theorem calculateTotals_sampleFractionalItem :
    (calculateTotals [sampleFractionalItem]).subtotal = 101 / 100 ∧
      (calculateTotals [sampleFractionalItem]).totalGst = 18 / 100 ∧
      (calculateTotals [sampleFractionalItem]).total = 120 / 100 := by
  have hl : line sampleFractionalItem = 507 / 500 := by
    norm_num [line, numOr0, sampleFractionalItem]
  have hg : gstAmt sampleFractionalItem = 4563 / 25000 := by
    norm_num [gstAmt, gstRate, line, numOr0, sampleFractionalItem]
  simp only [calculateTotals, List.foldl_cons, List.foldl_nil, zero_add, hl, hg]
  refine ⟨?_, ?_, ?_⟩
  · rw [toFixed2_eq_of_nonneg (507 / 500) 101 (by norm_num) (by norm_num) (by norm_num)]
    norm_num
  · rw [toFixed2_eq_of_nonneg (4563 / 25000) 18 (by norm_num) (by norm_num) (by norm_num)]
    norm_num
  · rw [toFixed2_eq_of_nonneg (507 / 500 + 4563 / 25000) 120 (by norm_num) (by norm_num)
      (by norm_num)]
    norm_num

/-- Evaluation rule for `toFixed2` on a negative value. -/
theorem toFixed2_eq_of_neg (x : ℚ) (n : ℤ) (h0 : x < 0) (h1 : (n : ℚ) ≤ -x * 100 + 1 / 2)
    (h2 : -x * 100 + 1 / 2 < (n : ℚ) + 1) : toFixed2 x = -(n : ℚ) / 100 := by
  unfold toFixed2
  simp only [h0, if_true]
  have hfl : ⌊-x * 100 + 1 / 2⌋ = n := Int.floor_eq_iff.mpr ⟨h1, h2⟩
  rw [hfl]

/-- C7: the claim fails as stated.  An item with quantity `-1` passes the create route and
`calculateTotals` returns totals for it (subtotal -100.00, totalGst -18.00, total -118.00):
there is no validation error. -/
theorem C7_negative_quantity_counterexample :
    numOr0 sampleNegativeItem.quantity < 0 ∧
      createInvoiceTotals (some "Acme") [sampleNegativeItem] none
        = Except.ok (calculateTotals (normalizeGstFields [sampleNegativeItem] none)) ∧
      (calculateTotals [sampleNegativeItem]).subtotal = -100 ∧
      (calculateTotals [sampleNegativeItem]).totalGst = -18 ∧
      (calculateTotals [sampleNegativeItem]).total = -118 := by
  have hl : line sampleNegativeItem = -100 := by
    norm_num [line, numOr0, sampleNegativeItem]
  have hg : gstAmt sampleNegativeItem = -18 := by
    norm_num [gstAmt, gstRate, line, numOr0, sampleNegativeItem]
  refine ⟨by norm_num [numOr0, sampleNegativeItem], ?_, ?_, ?_, ?_⟩
  · simp [createInvoiceTotals]
  · simp only [calculateTotals, List.foldl_cons, List.foldl_nil, zero_add, hl]
    rw [toFixed2_eq_of_neg (-100) 10000 (by norm_num) (by norm_num) (by norm_num)]
    norm_num
  · simp only [calculateTotals, List.foldl_cons, List.foldl_nil, zero_add, hg]
    rw [toFixed2_eq_of_neg (-18) 1800 (by norm_num) (by norm_num) (by norm_num)]
    norm_num
  · simp only [calculateTotals, List.foldl_cons, List.foldl_nil, zero_add, hl, hg]
    rw [toFixed2_eq_of_neg (-100 + -18) 11800 (by norm_num) (by norm_num) (by norm_num)]
    norm_num

/-- C8: the claim fails as stated.  For the item `(quantity 0.3, unit_price 3.38,
igst_rate 18)` the attached `line_total` is the unrounded 1.19652, not its 2-decimal
rounding 1.20. -/
theorem C8_line_total_unrounded_counterexample :
    (calculateTotals [sampleFractionalItem]).items.map (fun it => it.line_total)
        = [some (29913 / 25000)] ∧
      toFixed2 (numOr0 sampleFractionalItem.quantity * numOr0 sampleFractionalItem.unit_price
          * (1 + (numOr0 sampleFractionalItem.cgst_rate + numOr0 sampleFractionalItem.sgst_rate
              + numOr0 sampleFractionalItem.igst_rate) / 100)) = 6 / 5 ∧
      (29913 / 25000 : ℚ) ≠ 6 / 5 := by
  refine ⟨?_, ?_, by norm_num⟩
  · simp only [calculateTotals, List.map_cons, List.map_nil]
    norm_num [gstAmt, gstRate, line, numOr0, sampleFractionalItem]
  · have hv : numOr0 sampleFractionalItem.quantity * numOr0 sampleFractionalItem.unit_price
          * (1 + (numOr0 sampleFractionalItem.cgst_rate
              + numOr0 sampleFractionalItem.sgst_rate
              + numOr0 sampleFractionalItem.igst_rate) / 100) = 29913 / 25000 := by
      norm_num [numOr0, sampleFractionalItem]
    rw [hv, toFixed2_eq_of_nonneg (29913 / 25000) 120 (by norm_num) (by norm_num)
      (by norm_num)]
    norm_num

/-- C8 (amended): for every item, the `line_total` that `calculateTotals` attaches equals
`quantity * unit_price * (1 + (cgst_rate + sgst_rate + igst_rate)/100)` exactly, with no
rounding; every other field of the item is kept. -/
theorem C8_line_total_exact (items : List Item) :
    (calculateTotals items).items
      = items.map (fun it =>
          { it with line_total := some (numOr0 it.quantity * numOr0 it.unit_price
              * (1 + (numOr0 it.cgst_rate + numOr0 it.sgst_rate + numOr0 it.igst_rate) / 100)) }) := by
  simp only [calculateTotals]
  apply List.map_congr_left
  intro it _
  have h : line it + gstAmt it = numOr0 it.quantity * numOr0 it.unit_price
      * (1 + (numOr0 it.cgst_rate + numOr0 it.sgst_rate + numOr0 it.igst_rate) / 100) := by
    simp only [gstAmt, line, gstRate]
    ring
  rw [h]

/-! ## Tax normaliser: proofs -/

/-- The worked example's tax-id starts with `27`; the other sample does not. -/
theorem isCgstSgst_samples :
    isCgstSgst (some sampleGstin27) = true ∧ isCgstSgst (some sampleGstin29) = false ∧
      isCgstSgst none = false := by
  refine ⟨by decide, by decide, by decide⟩

/-- The test `isCgstSgst` holds exactly for the tax-ids that start with `27`. -/
theorem isCgstSgst_iff (gstNumber : List Char) :
    isCgstSgst (some gstNumber) = true ↔ ['2', '7'] <+: gstNumber := by
  unfold isCgstSgst
  simp only [Option.getD_some]
  exact List.isPrefixOf_iff_prefix

/-- C9: for every list of items and every customer tax-id, no item returned by
`normalizeGstFields` has both a non-zero split-regime rate and a non-zero `igst_rate`, and
all returned items are in one regime: `igst_rate = 0` for all when the tax-id starts with
`27`, `cgst_rate = sgst_rate = 0` for all otherwise. -/
theorem C9_single_regime (items : List Item) (gstNumber : Option (List Char)) :
    (∀ it ∈ normalizeGstFields items gstNumber,
        ¬ ((numOr0 it.cgst_rate ≠ 0 ∨ numOr0 it.sgst_rate ≠ 0) ∧ numOr0 it.igst_rate ≠ 0)) ∧
      (isCgstSgst gstNumber = true →
        ∀ it ∈ normalizeGstFields items gstNumber, it.igst_rate = some 0) ∧
      (isCgstSgst gstNumber = false →
        ∀ it ∈ normalizeGstFields items gstNumber,
          it.cgst_rate = some 0 ∧ it.sgst_rate = some 0) := by
  unfold normalizeGstFields
  by_cases h : isCgstSgst gstNumber = true
  · simp only [h, if_true, List.mem_map]
    refine ⟨?_, ?_, ?_⟩
    · rintro it ⟨src, _, rfl⟩
      simp [numOr0]
    · rintro _ it ⟨src, _, rfl⟩
      rfl
    · intro hc
      cases hc
  · have hf : isCgstSgst gstNumber = false := by simpa using h
    simp only [hf, Bool.false_eq_true, if_false, List.mem_map]
    refine ⟨?_, ?_, ?_⟩
    · rintro it ⟨src, _, rfl⟩
      simp [numOr0]
    · intro hc
      cases hc
    · rintro _ it ⟨src, _, rfl⟩
      exact ⟨rfl, rfl⟩

/-- C9, evaluated: the worked example under tax-id `27ABCDE1234F1Z5` has `igst_rate = 0`,
and an item with split rates under tax-id `29ABCDE1234F1Z5` has `cgst_rate = sgst_rate = 0`. -/
theorem C9_single_regime_witness :
    (∀ it ∈ normalizeGstFields [sampleItem] (some sampleGstin27), it.igst_rate = some 0) ∧
      (∀ it ∈ normalizeGstFields [sampleSplitItem] (some sampleGstin29),
        it.cgst_rate = some 0 ∧ it.sgst_rate = some 0) :=
  ⟨(C9_single_regime [sampleItem] (some sampleGstin27)).2.1 (by decide),
    (C9_single_regime [sampleSplitItem] (some sampleGstin29)).2.2 (by decide)⟩

/-- C10: `normalizeGstFields` derives missing target-regime rates from the other regime.
With a tax-id starting with `27`, an item with only `igst_rate = r` present becomes
`cgst_rate = r/2`, `sgst_rate = r/2`, `igst_rate = 0` (tax-id `27ABCDE1234F1Z5` with igst 18
gives 9, 9, 0); with any other tax-id, an item with `igst_rate` missing becomes
`igst_rate = cgst_rate + sgst_rate` (an absent rate counting as 0), `cgst_rate = sgst_rate = 0`.
All other fields and the item order are kept. -/
theorem C10_derive_missing_rates :
    (∀ (items : List Item) (gstNumber : Option (List Char)) (i : ℕ) (it : Item) (r : ℚ),
        isCgstSgst gstNumber = true → items[i]? = some it →
        it.cgst_rate = none → it.sgst_rate = none → it.igst_rate = some r →
        (normalizeGstFields items gstNumber)[i]?
          = some { it with cgst_rate := some (r / 2), sgst_rate := some (r / 2),
                           igst_rate := some 0 }) ∧
      normalizeGstFields [sampleItem] (some sampleGstin27)
        = [{ sampleItem with cgst_rate := some 9, sgst_rate := some 9, igst_rate := some 0 }] ∧
      (∀ (items : List Item) (gstNumber : Option (List Char)) (i : ℕ) (it : Item),
        isCgstSgst gstNumber = false → items[i]? = some it → it.igst_rate = none →
        (normalizeGstFields items gstNumber)[i]?
          = some { it with igst_rate := some (numOr0 it.cgst_rate + numOr0 it.sgst_rate),
                           cgst_rate := some 0, sgst_rate := some 0 }) := by
  have part1 : ∀ (items : List Item) (gstNumber : Option (List Char)) (i : ℕ) (it : Item)
      (r : ℚ), isCgstSgst gstNumber = true → items[i]? = some it →
      it.cgst_rate = none → it.sgst_rate = none → it.igst_rate = some r →
      (normalizeGstFields items gstNumber)[i]?
        = some { it with cgst_rate := some (r / 2), sgst_rate := some (r / 2),
                         igst_rate := some 0 } := by
    intro items gstNumber i it r h27 hget hc hs hi
    unfold normalizeGstFields
    rw [List.getElem?_map, hget]
    have hhalf : halfIgst it = r / 2 := by
      unfold halfIgst
      rw [hi]
      by_cases hr : r = 0
      · simp [hr]
      · simp [hr]
    simp only [Option.map_some', h27, if_true, hc, hs, hhalf]
  refine ⟨part1, ?_, ?_⟩
  · have h27 : isCgstSgst (some sampleGstin27) = true := by decide
    have hhalf : halfIgst sampleItem = 9 := by norm_num [halfIgst, sampleItem]
    simp only [normalizeGstFields, List.map_cons, List.map_nil, h27, if_true]
    simp only [sampleItem] at hhalf ⊢
    simp only [hhalf]
  · intro items gstNumber i it h27 hget hi
    unfold normalizeGstFields
    rw [List.getElem?_map, hget]
    simp only [Option.map_some', h27, Bool.false_eq_true, if_false, hi]

/-- C10, evaluated: the worked example under `27ABCDE1234F1Z5`, and an item with split
rates 6 and 6 and no `igst_rate` under `29ABCDE1234F1Z5`, which gets `igst_rate = 12`. -/
theorem C10_derive_missing_rates_witness :
    (normalizeGstFields [sampleItem] (some sampleGstin27))[0]?
        = some { sampleItem with cgst_rate := some (18 / 2), sgst_rate := some (18 / 2),
                                 igst_rate := some 0 } ∧
      (normalizeGstFields [sampleSplitItem] (some sampleGstin29))[0]?
        = some { sampleSplitItem with
                  igst_rate := some (numOr0 sampleSplitItem.cgst_rate
                    + numOr0 sampleSplitItem.sgst_rate),
                  cgst_rate := some 0, sgst_rate := some 0 } ∧
      numOr0 sampleSplitItem.cgst_rate + numOr0 sampleSplitItem.sgst_rate = 12 :=
  ⟨C10_derive_missing_rates.1 [sampleItem] (some sampleGstin27) 0 sampleItem 18
      (by decide) rfl rfl rfl rfl,
    C10_derive_missing_rates.2.2 [sampleSplitItem] (some sampleGstin29) 0 sampleSplitItem
      (by decide) rfl rfl,
    by norm_num [numOr0, sampleSplitItem]⟩

/-! ## Row height and font size: proofs -/

/-- The row height is the floored ideal height, clamped, as an integer identity. -/
theorem rowHVal_eq_min_max (tH : ℚ) (N : ℕ) (hN : 0 < N) :
    rowHVal tH N = min (max ⌊rowAreaH tH / (N : ℚ)⌋ 10) 18 := by
  unfold rowHVal minRowH maxRowH
  simp only [gt_iff_lt, hN, if_true, min_def, max_def]
  split_ifs <;> omega

/-- C19: the claim fails as stated.  With the A4 table height 332.87 and 20 items the ideal
row height is 304.87 / 20 = 15.2435, which lies inside [10, 18], so the stated
`clamp(rowAreaH / N, 10, 18)` is 15.2435; the code floors first and uses 15. -/
theorem C19_row_height_floored_counterexample :
    1 ≤ 20 ∧ rowHVal (tableH A4_height (2142 / 100)) 20 = 15 ∧
      rowHeightSpec (tableH A4_height (2142 / 100)) 20 = 30487 / 2000 ∧
      ((rowHVal (tableH A4_height (2142 / 100)) 20 : ℤ) : ℚ)
        ≠ rowHeightSpec (tableH A4_height (2142 / 100)) 20 := by
  have hT : tableH A4_height (2142 / 100) = 33287 / 100 := by
    norm_num [tableH, tableBottomLimit, tableTop, A4_height, PAGE_margin, STYLE_gap,
      compBoxH, rowH, footerReserved, bottomAreaReserved]
  have hR : rowHVal (33287 / 100) 20 = 15 := by
    norm_num [rowHVal, rowAreaH, headerH, minRowH, maxRowH, Int.floor_eq_iff]
  have hS : rowHeightSpec (33287 / 100) 20 = 30487 / 2000 := by
    norm_num [rowHeightSpec, clamp, rowAreaH, headerH]
  rw [hT]
  refine ⟨by decide, hR, hS, ?_⟩
  rw [hR, hS]
  norm_num

/-- C19 (amended): for every table height and item count `N ≥ 1` the shared row height
equals `clamp(floor(rowAreaH / N), 10, 18)` with `rowAreaH = tableH - 20 - 8`, and for
`N = 0` it equals `MAX_ROW_H = 18`. -/
theorem C19_row_height_clamped_floor (tH : ℚ) (N : ℕ) :
    rowAreaH tH = tH - 20 - 8 ∧
      ((rowHVal tH N : ℤ) : ℚ)
        = if N = 0 then 18 else clamp ((⌊rowAreaH tH / (N : ℚ)⌋ : ℤ) : ℚ) 10 18 := by
  refine ⟨by simp [rowAreaH, headerH], ?_⟩
  by_cases hN : N = 0
  · subst hN
    simp [rowHVal, minRowH, maxRowH]
  · have hpos : 0 < N := Nat.pos_of_ne_zero hN
    simp only [hN, if_false]
    rw [rowHVal_eq_min_max tH N hpos]
    unfold clamp
    push_cast
    rfl

/-- The font size is at least the minimum whatever the row height. -/
theorem fontSizeVal_ge_min (h : ℚ) : STYLE_minFontSize ≤ fontSizeVal h := by
  unfold fontSizeVal
  simp only []
  split_ifs
  · exact le_refl _
  · exact le_max_left _ _

/-- C20: for every row height `h` in `[10, 18]` the shared table font size equals
`clamp(floor(9 * h / 18), 6, 9)`; in particular it lies between `minFontSize = 6` and the
base size 9. -/
theorem C20_font_size_clamped (h : ℚ) (_h10 : 10 ≤ h) (h18 : h ≤ 18) :
    fontSizeVal h = clamp ((⌊9 * h / 18⌋ : ℤ) : ℚ) 6 9 ∧
      6 ≤ fontSizeVal h ∧ fontSizeVal h ≤ 9 := by
  have hexpr : STYLE_normalSize * (h / ((maxRowH : ℤ) : ℚ)) = 9 * h / 18 := by
    norm_num [STYLE_normalSize, maxRowH]
    ring
  have hle9 : ((⌊9 * h / 18⌋ : ℤ) : ℚ) ≤ 9 := by
    have h1 : ((⌊9 * h / 18⌋ : ℤ) : ℚ) ≤ 9 * h / 18 := Int.floor_le _
    linarith
  have hval : fontSizeVal h = max 6 ((⌊9 * h / 18⌋ : ℤ) : ℚ) := by
    unfold fontSizeVal
    simp only [hexpr]
    have hnot : ¬ max STYLE_minFontSize ((⌊9 * h / 18⌋ : ℤ) : ℚ) < STYLE_minFontSize :=
      not_lt.mpr (le_max_left _ _)
    simp only [hnot, if_false]
    rfl
  have hmax9 : max 6 ((⌊9 * h / 18⌋ : ℤ) : ℚ) ≤ 9 := max_le (by norm_num) hle9
  refine ⟨?_, ?_, ?_⟩
  · rw [hval]
    unfold clamp
    rw [max_comm, min_eq_left]
    rw [max_comm]
    exact hmax9
  · rw [hval]; exact le_max_left _ _
  · rw [hval]; exact hmax9

/-- C20, evaluated at row height 14, where the font size is 7. -/
theorem C20_font_size_clamped_witness :
    (10 : ℚ) ≤ 14 ∧ (14 : ℚ) ≤ 18 ∧
      (fontSizeVal 14 = clamp ((⌊9 * (14 : ℚ) / 18⌋ : ℤ) : ℚ) 6 9 ∧
        6 ≤ fontSizeVal 14 ∧ fontSizeVal 14 ≤ 9) ∧
      fontSizeVal 14 = 7 :=
  ⟨by norm_num, by norm_num, C20_font_size_clamped 14 (by norm_num) (by norm_num), by
    have hf : ⌊(9 : ℚ) * (14 / 18)⌋ = 7 := by
      rw [Int.floor_eq_iff]; norm_num
    norm_num [fontSizeVal, STYLE_minFontSize, STYLE_normalSize, maxRowH, hf]⟩

/-! ## Round-off and amount in words: proofs -/

/-- A whole number of hundredths is left unchanged by `toFixed2`. -/
theorem toFixed2_of_hundredths (m : ℤ) : toFixed2 ((m : ℚ) / 100) = (m : ℚ) / 100 := by
  have h12 : ⌊(1 / 2 : ℚ)⌋ = 0 := by
    rw [Int.floor_eq_iff]; norm_num
  unfold toFixed2
  by_cases hx : (m : ℚ) / 100 < 0
  · simp only [hx, if_true]
    have e : -((m : ℚ) / 100) * 100 + 1 / 2 = ((-m : ℤ) : ℚ) + 1 / 2 := by
      push_cast; ring
    rw [e, Int.floor_int_add, h12]
    push_cast; ring
  · simp only [hx, if_false]
    have e : (m : ℚ) / 100 * 100 + 1 / 2 = ((m : ℤ) : ℚ) + 1 / 2 := by
      ring
    rw [e, Int.floor_int_add, h12]
    push_cast; ring

/-- The distance from a value to its `Math.round` is at most one half, and the rounded value
is reached from below only by strictly less than one half. -/
theorem mathRound_sub_bounds (t : ℚ) :
    -(1 / 2) < (mathRound t : ℚ) - t ∧ (mathRound t : ℚ) - t ≤ 1 / 2 := by
  unfold mathRound
  have h1 := Int.floor_le (t + 1 / 2)
  have h2 := Int.lt_floor_add_one (t + 1 / 2)
  constructor <;> linarith

/-- C14: for every grand total `t` that is a 2-decimal amount, the totals box uses
`roundedTotal = Math.round(t)` and `roundOff = Math.round(t) - t`, so that
`t + roundOff = roundedTotal`; the round-off is negative exactly when the total is rounded
down and non-negative exactly when it is rounded up (or unchanged), and
`|roundOff| ≤ 0.50`. -/
theorem C14_round_off (t : ℚ) (n : ℤ) (ht : t = (n : ℚ) / 100) :
    roundedTotal (some t) = mathRound t ∧
      roundOff (some t) = (mathRound t : ℚ) - t ∧
      t + roundOff (some t) = (roundedTotal (some t) : ℚ) ∧
      (roundOff (some t) < 0 ↔ ((roundedTotal (some t) : ℤ) : ℚ) < t) ∧
      (0 ≤ roundOff (some t) ↔ t ≤ ((roundedTotal (some t) : ℤ) : ℚ)) ∧
      |roundOff (some t)| ≤ 1 / 2 := by
  have hro : roundOff (some t) = (mathRound t : ℚ) - t := by
    simp only [roundOff]
    have e : (mathRound t : ℚ) - t = ((100 * mathRound t - n : ℤ) : ℚ) / 100 := by
      rw [ht]; push_cast; ring
    rw [e, toFixed2_of_hundredths]
  have hrt : roundedTotal (some t) = mathRound t := rfl
  have hb := mathRound_sub_bounds t
  refine ⟨hrt, hro, ?_, ?_, ?_, ?_⟩
  · rw [hro, hrt]; ring
  · rw [hro, hrt]; constructor <;> intro h <;> linarith
  · rw [hro, hrt]; constructor <;> intro h <;> linarith
  · rw [hro, abs_le]; constructor <;> linarith [hb.1, hb.2]

/-- C14, evaluated at the total 235.49: rounded total 235, round-off -0.49. -/
theorem C14_round_off_witness :
    ((23549 / 100 : ℚ) = ((23549 : ℤ) : ℚ) / 100) ∧
      (roundedTotal (some (23549 / 100)) = mathRound (23549 / 100) ∧
        roundOff (some (23549 / 100)) = (mathRound (23549 / 100) : ℚ) - 23549 / 100 ∧
        23549 / 100 + roundOff (some (23549 / 100))
          = (roundedTotal (some (23549 / 100)) : ℚ) ∧
        (roundOff (some (23549 / 100)) < 0
          ↔ ((roundedTotal (some (23549 / 100)) : ℤ) : ℚ) < 23549 / 100) ∧
        (0 ≤ roundOff (some (23549 / 100))
          ↔ (23549 / 100 : ℚ) ≤ ((roundedTotal (some (23549 / 100)) : ℤ) : ℚ)) ∧
        |roundOff (some (23549 / 100))| ≤ 1 / 2) ∧
      mathRound (23549 / 100) = 235 :=
  ⟨by norm_num, C14_round_off (23549 / 100) 23549 (by norm_num), by
    unfold mathRound
    rw [Int.floor_eq_iff]; norm_num⟩

/-- For a non-negative total the spelled integer is the rounded total exactly when the
fraction is below one half. -/
theorem toWordsInteger_eq_mathRound_iff (t : ℚ) (h0 : 0 ≤ t) :
    toWordsInteger t = mathRound t ↔ t < (⌊t⌋ : ℚ) + 1 / 2 := by
  unfold toWordsInteger mathRound
  simp only [h0, if_true]
  constructor
  · intro h
    have h2 := Int.lt_floor_add_one (t + 1 / 2)
    rw [← h] at h2
    linarith
  · intro h
    symm
    rw [Int.floor_eq_iff]
    constructor
    · have := Int.floor_le t
      linarith
    · linarith

/-- The totals of the half-rupee invoice: 236.50, 0.00 and 236.50. -/
theorem calculateTotals_sampleHalfRupeeItem :
    (calculateTotals [sampleHalfRupeeItem]).subtotal = 473 / 2 ∧
      (calculateTotals [sampleHalfRupeeItem]).totalGst = 0 ∧
      (calculateTotals [sampleHalfRupeeItem]).total = 473 / 2 := by
  have hl : line sampleHalfRupeeItem = 473 / 2 := by
    norm_num [line, numOr0, sampleHalfRupeeItem]
  have hg : gstAmt sampleHalfRupeeItem = 0 := by
    norm_num [gstAmt, gstRate, line, numOr0, sampleHalfRupeeItem]
  simp only [calculateTotals, List.foldl_cons, List.foldl_nil, zero_add, hl, hg, add_zero]
  refine ⟨?_, ?_, ?_⟩
  · rw [toFixed2_eq_of_nonneg (473 / 2) 23650 (by norm_num) (by norm_num) (by norm_num)]
    norm_num
  · rw [toFixed2_eq_of_nonneg 0 0 (by norm_num) (by norm_num) (by norm_num)]
    norm_num
  · rw [toFixed2_eq_of_nonneg (473 / 2) 23650 (by norm_num) (by norm_num) (by norm_num)]
    norm_num

/-- C15: the code at the failing input.  For the invoice whose only item is
`(quantity 1, unit_price 236.50, igst_rate 0)` the total is 236.50; the totals box prints the
Grand Total `Math.round(236.50) = 237`, while the words box spells the integer part of
`invoiceObj.total`, 236. -/
theorem C15_words_differ_from_grand_total :
    (fillTotals sampleHalfRupeeInvoice).total = some (473 / 2) ∧
      ∃ page : RenderedPage,
        generateAndSavePDF A4_width A4_height (2142 / 100) sampleHalfRupeeInvoice
          = Except.ok page ∧
        page.grandTotalShown = 237 ∧ page.wordsInteger = some 236 := by
  obtain ⟨_, _, h3⟩ := calculateTotals_sampleHalfRupeeItem
  have hfill : (fillTotals sampleHalfRupeeInvoice).total = some (473 / 2) := by
    simp only [fillTotals, sampleHalfRupeeInvoice, sampleInvoice, truthyNum, Bool.not_false,
      Bool.or_self, if_true, h3]
  have hround : mathRound (473 / 2) = 237 := by
    unfold mathRound
    rw [Int.floor_eq_iff]; norm_num
  have hwords : toWordsInteger (473 / 2) = 236 := by
    unfold toWordsInteger
    have h0 : (0 : ℚ) ≤ 473 / 2 := by norm_num
    simp only [h0, if_true]
    rw [Int.floor_eq_iff]; norm_num
  refine ⟨hfill, _, rfl, ?_, ?_⟩
  · simp only [hfill, roundedTotal, hround]
  · have hne : (473 / 2 : ℚ) ≠ 0 := by norm_num
    simp only [hfill, amountWordsInteger, hne, ne_eq, not_false_eq_true, if_true, hwords]

/-! ## Output name: proofs -/

/-- The replacement character is not one of the unsafe characters. -/
theorem underscore_safe : '_' ∉ unsafeChars := by decide

/-- C18: for every input string, `safeName` returns a string of at most 50 characters that
contains none of the path-unsafe characters (slash, backslash, colon, question mark, angle
brackets, vertical bar, double quote); an absent or
empty input yields the non-empty name `unknown`.  The same holds for the directory name
`custSafe` built from the invoice. -/
theorem C18_safeName_safe (s : Option (List Char)) (invoiceObj : Invoice) :
    (safeName s).length ≤ 50 ∧ (∀ c ∈ safeName s, c ∉ unsafeChars) ∧
      safeName none = "unknown".toList ∧ safeName (some []) = "unknown".toList ∧
      "unknown".toList ≠ [] ∧
      (custSafe invoiceObj).length ≤ 50 ∧ (∀ c ∈ custSafe invoiceObj, c ∉ unsafeChars) := by
  have hlen : ∀ u : Option (List Char), (safeName u).length ≤ 50 := by
    intro u
    unfold safeName
    simp only [List.length_take]
    exact Nat.min_le_left _ _
  have hsafe : ∀ (u : Option (List Char)), ∀ c ∈ safeName u, c ∉ unsafeChars := by
    intro u c hc
    unfold safeName at hc
    have hmem := List.mem_of_mem_take hc
    rw [List.mem_map] at hmem
    obtain ⟨d, _, hd⟩ := hmem
    by_cases hbad : d ∈ unsafeChars
    · rw [if_pos hbad] at hd
      rw [← hd]
      exact underscore_safe
    · rw [if_neg hbad] at hd
      rw [← hd]
      exact hbad
  refine ⟨hlen s, hsafe s, by decide, by decide, by decide, ?_, ?_⟩
  · exact hlen _
  · exact hsafe _

/-! ## Column set: proofs -/

/-- With a tax-id that does not start with `27`, normalised items always get the IGST
column set. -/
theorem gstType_normalized_other (items : List Item) (gstNumber : Option (List Char))
    (h : isCgstSgst gstNumber = false) :
    gstType (normalizeGstFields items gstNumber) = GstType.IGST := by
  cases items with
  | nil => rfl
  | cons first rest =>
    simp [normalizeGstFields, gstType, h, numOr0]

/-- With a tax-id that starts with `27`, normalised items get the CGST/SGST column set
exactly when the first normalised item has a positive `cgst_rate` or `sgst_rate`. -/
theorem gstType_normalized_27 (first : Item) (rest : List Item)
    (gstNumber : Option (List Char)) :
    gstType (normalizeGstFields (first :: rest) gstNumber) = GstType.CGST_SGST ↔
      ∃ it, (normalizeGstFields (first :: rest) gstNumber)[0]? = some it ∧
        (0 < numOr0 it.cgst_rate ∨ 0 < numOr0 it.sgst_rate) := by
  simp only [normalizeGstFields, List.map_cons, gstType, List.getElem?_cons_zero,
    Option.some.injEq, exists_eq_left', gt_iff_lt]
  split_ifs with h1 h2 h2 <;> simp_all

/-- C11: the code at the failing input.  The tax-id `27ABCDE1234F1Z5` starts with `27`; the
items are an untaxed item followed by the worked example's item (igst 18).  After
normalisation the second item carries `cgst_rate = sgst_rate = 9`, but the first carries
0 and 0, so the renderer picks the 7-column set with `IGST %`. -/
theorem C11_first_item_zero_rate_picks_igst :
    isCgstSgst (some sampleGstin27) = true ∧
      (normalizeGstFields [sampleUntaxedItem, sampleItem] (some sampleGstin27)).map
          (fun it => (it.cgst_rate, it.sgst_rate, it.igst_rate))
        = [(some 0, some 0, some 0), (some 9, some 9, some 0)] ∧
      headers (gstType (normalizeGstFields [sampleUntaxedItem, sampleItem]
          (some sampleGstin27)))
        = ["SNo", "Description", "HSN/SAC", "Qty", "Unit Price", "IGST %", "Amount"] := by
  have h27 : isCgstSgst (some sampleGstin27) = true := by decide
  have hhalf : halfIgst sampleItem = 9 := by norm_num [halfIgst, sampleItem]
  have hhalf0 : halfIgst sampleUntaxedItem = 0 := by simp [halfIgst, sampleUntaxedItem]
  refine ⟨h27, ?_, ?_⟩
  · simp only [normalizeGstFields, List.map_cons, List.map_nil, h27, if_true]
    simp only [sampleItem, sampleUntaxedItem] at hhalf hhalf0 ⊢
    simp only [hhalf, hhalf0]
  · have hg : gstType (normalizeGstFields [sampleUntaxedItem, sampleItem]
        (some sampleGstin27)) = GstType.IGST := by
      simp only [normalizeGstFields, List.map_cons, List.map_nil, h27, if_true, gstType]
      simp only [sampleUntaxedItem] at hhalf0 ⊢
      simp [hhalf0, numOr0]
    rw [hg]
    rfl

/-! ## Vertical extent: proofs -/

/-- Closed form of `currentRowY` after `n` rows. -/
theorem currentRowY_eq (tableY : ℚ) (rowHeight : ℤ) (n : ℕ) :
    currentRowY tableY rowHeight n = tableY + headerH + 6 + (n : ℚ) * (rowHeight : ℚ) := by
  induction n with
  | zero => simp [currentRowY]
  | succ k ih =>
    simp only [currentRowY, ih]
    push_cast
    ring

/-- Either the rows fit the row area, or the row height is the minimum. -/
theorem rowHVal_fit_or_min (tH : ℚ) (N : ℕ) :
    (rowHVal tH N : ℚ) * N ≤ rowAreaH tH ∨ rowHVal tH N = minRowH ∨ N = 0 := by
  by_cases hN : N = 0
  · exact Or.inr (Or.inr hN)
  · have hpos : 1 ≤ N := Nat.pos_of_ne_zero hN
    by_cases hfit : (minRowH : ℚ) * N ≤ rowAreaH tH
    · exact Or.inl (rowHVal_mul_le tH N hpos hfit)
    · right; left
      have hNq : (0 : ℚ) < (N : ℚ) := by exact_mod_cast hpos
      have hlt : rowAreaH tH / (N : ℚ) < (minRowH : ℚ) := by
        rw [div_lt_iff₀ hNq]
        exact not_le.mp hfit
      have hfl : ⌊rowAreaH tH / (N : ℚ)⌋ < minRowH := Int.floor_lt.mpr hlt
      have hN0 : N > 0 := hpos
      unfold rowHVal
      simp only [hN0, if_true]
      have hcap : ¬ ⌊rowAreaH tH / (N : ℚ)⌋ > maxRowH := by
        unfold minRowH at hfl
        unfold maxRowH
        omega
      simp only [hcap, if_false, hfl, if_true]

/-- When the table is not clamped at its floor, its bottom edge is `tableBottomLimit`. -/
theorem tableTop_add_tableH (pageHeight titleH : ℚ)
    (hclamp : 80 ≤ tableBottomLimit pageHeight - tableTop titleH) :
    tableTop titleH + tableH pageHeight titleH = tableBottomLimit pageHeight := by
  unfold tableH
  rw [max_eq_right hclamp]
  ring

/-- C13: the code departs from its own single-page promise (header comment "Single page
only (fits content by scaling/truncation)", line 239 "Rows fitting logic (single page)").  On
an A4 page with a title 21.42 points high and 60 items, the row height is 10 and the rows
end at `243.02 + 20 + 6 + 60 * 10 = 869.02`, below the bottom margin at
`841.89 - 36 = 805.89`. -/
theorem C13_rows_leave_page :
    currentRowY (tableTop (2142 / 100)) (rowHVal (tableH A4_height (2142 / 100)) 60) 60
        = 86902 / 100 ∧
      A4_height - PAGE_margin = 80589 / 100 ∧
      ¬ (currentRowY (tableTop (2142 / 100)) (rowHVal (tableH A4_height (2142 / 100)) 60) 60
          ≤ A4_height - PAGE_margin) := by
  have hT : tableH A4_height (2142 / 100) = 33287 / 100 := by
    norm_num [tableH, tableBottomLimit, tableTop, A4_height, PAGE_margin, STYLE_gap,
      compBoxH, rowH, footerReserved, bottomAreaReserved]
  have hR : rowHVal (33287 / 100) 60 = 10 := by
    norm_num [rowHVal, rowAreaH, headerH, minRowH, maxRowH, Int.floor_eq_iff]
  have hY : currentRowY (tableTop (2142 / 100)) (rowHVal (tableH A4_height (2142 / 100)) 60)
      60 = 86902 / 100 := by
    rw [currentRowY_eq, hT, hR]
    norm_num [tableTop, PAGE_margin, STYLE_gap, compBoxH, rowH, headerH]
  refine ⟨hY, by norm_num [A4_height, PAGE_margin], ?_⟩
  rw [hY]
  norm_num [A4_height, PAGE_margin]

/-- Where the single-page promise holds: for every title height at which the table is not
clamped at its 80-point floor, and every item count `N` whose rows at the minimum height
still end above the bottom margin (`10 * N ≤ page height - bottom margin - (tableY +
headerH + 6)`), the y position after the last item row and the bottom edge of the
bank/signature box are both at most `page height - bottom margin`. -/
theorem rows_within_page_of_capacity (pageHeight titleH : ℚ) (N : ℕ)
    (hclamp : 80 ≤ tableBottomLimit pageHeight - tableTop titleH)
    (hrows : (minRowH : ℚ) * N ≤ pageHeight - PAGE_margin - (tableTop titleH + headerH + 6)) :
    currentRowY (tableTop titleH) (rowHVal (tableH pageHeight titleH) N) N
        ≤ pageHeight - PAGE_margin ∧
      bottomBoxY pageHeight titleH + bottomBoxH ≤ pageHeight - PAGE_margin := by
  have hsum := tableTop_add_tableH pageHeight titleH hclamp
  have hlim : tableBottomLimit pageHeight = pageHeight - PAGE_margin - 230 := by
    unfold tableBottomLimit bottomAreaReserved footerReserved
    ring
  constructor
  · rw [currentRowY_eq]
    rcases rowHVal_fit_or_min (tableH pageHeight titleH) N with hfit | hmin | h0
    · unfold rowAreaH at hfit
      unfold headerH at hfit ⊢
      have : (N : ℚ) * (rowHVal (tableH pageHeight titleH) N : ℚ)
          ≤ tableH pageHeight titleH - 20 - 8 := by
        rw [mul_comm]; exact hfit
      linarith
    · rw [hmin]
      have : (N : ℚ) * ((minRowH : ℤ) : ℚ) = ((minRowH : ℤ) : ℚ) * N := mul_comm _ _
      linarith
    · subst h0
      simp only [Nat.cast_zero, zero_mul, add_zero]
      simp only [Nat.cast_zero, mul_zero] at hrows
      linarith
  · unfold bottomBoxY totY totH wordsBoxH bottomBoxH STYLE_gap
    have hmax : max (76 : ℚ) 56 = 76 := by norm_num
    rw [hmax]
    linarith

/-- The rows of 53 items stay on the A4 page with a 21.42-point title. -/
theorem rows_within_page_of_capacity_A4 :
    80 ≤ tableBottomLimit A4_height - tableTop (2142 / 100) ∧
      (minRowH : ℚ) * (53 : ℕ)
        ≤ A4_height - PAGE_margin - (tableTop (2142 / 100) + headerH + 6) ∧
      currentRowY (tableTop (2142 / 100)) (rowHVal (tableH A4_height (2142 / 100)) 53) 53
        ≤ A4_height - PAGE_margin ∧
      bottomBoxY A4_height (2142 / 100) + bottomBoxH ≤ A4_height - PAGE_margin :=
  have h1 : 80 ≤ tableBottomLimit A4_height - tableTop (2142 / 100) := by
    norm_num [tableBottomLimit, tableTop, A4_height, PAGE_margin, STYLE_gap,
      compBoxH, rowH, footerReserved, bottomAreaReserved]
  have h2 : (minRowH : ℚ) * (53 : ℕ)
      ≤ A4_height - PAGE_margin - (tableTop (2142 / 100) + headerH + 6) := by
    norm_num [tableTop, A4_height, PAGE_margin, STYLE_gap, compBoxH, rowH, headerH, minRowH]
  ⟨h1, h2, rows_within_page_of_capacity A4_height (2142 / 100) 53 h1 h2⟩

/-! ## The page: proofs -/

/-- An invoice that supplies three non-zero aggregates is left as it is. -/
theorem fillTotals_of_truthy (invoiceObj : Invoice)
    (h : (truthyNum invoiceObj.subtotal && truthyNum invoiceObj.total
      && truthyNum invoiceObj.total_gst) = true) :
    fillTotals invoiceObj = invoiceObj := by
  simp only [Bool.and_eq_true] at h
  obtain ⟨⟨h1, h2⟩, h3⟩ := h
  simp [fillTotals, h1, h2, h3]

/-- An invoice with an absent or zero aggregate gets all three aggregates and the items
from `calculateTotals`. -/
theorem fillTotals_of_falsy (invoiceObj : Invoice)
    (h : (truthyNum invoiceObj.subtotal && truthyNum invoiceObj.total
      && truthyNum invoiceObj.total_gst) = false) :
    fillTotals invoiceObj =
      { invoiceObj with
        subtotal := some (calculateTotals invoiceObj.items).subtotal
        total_gst := some (calculateTotals invoiceObj.items).totalGst
        total := some (calculateTotals invoiceObj.items).total
        items := (calculateTotals invoiceObj.items).items } := by
  have hc : (!truthyNum invoiceObj.subtotal || !truthyNum invoiceObj.total
      || !truthyNum invoiceObj.total_gst) = true := by
    cases h1 : truthyNum invoiceObj.subtotal <;> cases h2 : truthyNum invoiceObj.total <;>
      cases h3 : truthyNum invoiceObj.total_gst <;> simp_all
  simp only [fillTotals, hc, if_true]

/-- The fill-in never changes the number of items. -/
theorem fillTotals_items_length (invoiceObj : Invoice) :
    (fillTotals invoiceObj).items.length = invoiceObj.items.length := by
  unfold fillTotals
  split_ifs
  · simp [calculateTotals]
  · rfl

/-- C12: the claim fails as stated.  For an invoice with zero items on an A4 page,
`generateAndSavePDF` does not fail: it returns a page whose table body is the text
`No items` at `(36 + 8, 243.02 + 20 + 8)`. -/
theorem C12_zero_items_rendered_counterexample :
    sampleEmptyInvoice.items.length = 0 ∧
      (¬ ∃ e : String,
        generateAndSavePDF A4_width A4_height (2142 / 100) sampleEmptyInvoice
          = Except.error e) ∧
      ∃ page : RenderedPage,
        generateAndSavePDF A4_width A4_height (2142 / 100) sampleEmptyInvoice
          = Except.ok page ∧
        page.body = TableBody.noItems "No items" 44 (27102 / 100) := by
  refine ⟨rfl, ?_, _, rfl, ?_⟩
  · rintro ⟨e, he⟩
    simp [generateAndSavePDF] at he
  · have hlen : (fillTotals sampleEmptyInvoice).items.length = 0 := by
      rw [fillTotals_items_length]; rfl
    simp only [tableBody, hlen, if_true]
    norm_num [tableTop, PAGE_margin, STYLE_gap, compBoxH, rowH, headerH]

/-- C12 (amended): for every invoice that has zero items `generateAndSavePDF` does not
fail; it draws the page (the title first, at the top margin) with the IGST column set, the
default row height 18, and in the table body the single text `No items` at
`(tableX + 8, tableY + headerH + 8)`. -/
theorem C12_zero_items_placeholder (pageWidth pageHeight titleH : ℚ) (invoiceObj : Invoice)
    (hzero : invoiceObj.items.length = 0) :
    ∃ page : RenderedPage,
      generateAndSavePDF pageWidth pageHeight titleH invoiceObj = Except.ok page ∧
      page.titleY = PAGE_margin ∧
      page.body = TableBody.noItems "No items" (PAGE_margin + 8) (tableTop titleH + headerH + 8) ∧
      page.headerTexts
        = ["SNo", "Description", "HSN/SAC", "Qty", "Unit Price", "IGST %", "Amount"] ∧
      page.rowHeight = maxRowH := by
  have hlen : (fillTotals invoiceObj).items.length = 0 := by
    rw [fillTotals_items_length]; exact hzero
  have hnil : (fillTotals invoiceObj).items = [] := List.length_eq_zero.mp hlen
  refine ⟨_, rfl, rfl, ?_, ?_, ?_⟩
  · simp only [tableBody, hlen, if_true]
  · simp only [hnil, gstType, headers]
  · simp [hlen, rowHVal, minRowH, maxRowH]

/-- C12 (amended), evaluated on the empty sample invoice. -/
theorem C12_zero_items_placeholder_witness :
    sampleEmptyInvoice.items.length = 0 ∧
      ∃ page : RenderedPage,
        generateAndSavePDF A4_width A4_height (2142 / 100) sampleEmptyInvoice
          = Except.ok page ∧
        page.titleY = PAGE_margin ∧
        page.body = TableBody.noItems "No items" (PAGE_margin + 8)
          (tableTop (2142 / 100) + headerH + 8) ∧
        page.headerTexts
          = ["SNo", "Description", "HSN/SAC", "Qty", "Unit Price", "IGST %", "Amount"] ∧
        page.rowHeight = maxRowH :=
  ⟨rfl, C12_zero_items_placeholder A4_width A4_height (2142 / 100) sampleEmptyInvoice rfl⟩

/-- The totals of the untaxed sample item: 50.00, 0.00 and 50.00. -/
theorem calculateTotals_sampleUntaxedItem :
    (calculateTotals [sampleUntaxedItem]).subtotal = 50 ∧
      (calculateTotals [sampleUntaxedItem]).totalGst = 0 ∧
      (calculateTotals [sampleUntaxedItem]).total = 50 := by
  have hl : line sampleUntaxedItem = 50 := by
    norm_num [line, numOr0, sampleUntaxedItem]
  have hg : gstAmt sampleUntaxedItem = 0 := by
    norm_num [gstAmt, gstRate, line, numOr0, sampleUntaxedItem]
  simp only [calculateTotals, List.foldl_cons, List.foldl_nil, zero_add, hl, hg, add_zero]
  refine ⟨?_, ?_, ?_⟩
  · rw [toFixed2_eq_of_nonneg 50 5000 (by norm_num) (by norm_num) (by norm_num)]
    norm_num
  · rw [toFixed2_eq_of_nonneg 0 0 (by norm_num) (by norm_num) (by norm_num)]
    norm_num
  · rw [toFixed2_eq_of_nonneg 50 5000 (by norm_num) (by norm_num) (by norm_num)]
    norm_num

/-- C16: the code at the failing input.  The invoice supplies `subtotal = 100`,
`total_gst = 0` and `total = 100`; because the zero `total_gst` is falsy, the aggregates are
recomputed from the single item of amount 50, and the page prints subtotal 50, total GST 0
and grand total 50 instead of the supplied values. -/
theorem C16_zero_gst_recomputed :
    sampleZeroGstInvoice.subtotal = some 100 ∧ sampleZeroGstInvoice.total_gst = some 0 ∧
      sampleZeroGstInvoice.total = some 100 ∧
      ∃ page : RenderedPage,
        generateAndSavePDF A4_width A4_height (2142 / 100) sampleZeroGstInvoice
          = Except.ok page ∧
        page.subtotalShown = some 50 ∧ page.totalGstShown = some 0 ∧
        page.grandTotalShown = 50 := by
  obtain ⟨h1, h2, h3⟩ := calculateTotals_sampleUntaxedItem
  have hfalsy : (truthyNum sampleZeroGstInvoice.subtotal && truthyNum sampleZeroGstInvoice.total
      && truthyNum sampleZeroGstInvoice.total_gst) = false := by
    simp [truthyNum, sampleZeroGstInvoice]
  have hitems : sampleZeroGstInvoice.items = [sampleUntaxedItem] := rfl
  have hfill := fillTotals_of_falsy sampleZeroGstInvoice hfalsy
  rw [hitems, h1, h2, h3] at hfill
  have hround : mathRound 50 = 50 := by
    unfold mathRound
    rw [Int.floor_eq_iff]; norm_num
  refine ⟨rfl, rfl, rfl, _, rfl, ?_, ?_, ?_⟩
  · simp only [hfill]
  · simp only [hfill]
  · simp only [hfill, roundedTotal, hround]

/-- The totals of the worked example's item: 200.00, 36.00 and 236.00. -/
theorem calculateTotals_sampleItem :
    (calculateTotals [sampleItem]).subtotal = 200 ∧
      (calculateTotals [sampleItem]).totalGst = 36 ∧
      (calculateTotals [sampleItem]).total = 236 := by
  have hl : line sampleItem = 200 := by norm_num [line, numOr0, sampleItem]
  have hg : gstAmt sampleItem = 36 := by
    norm_num [gstAmt, gstRate, line, numOr0, sampleItem]
  simp only [calculateTotals, List.foldl_cons, List.foldl_nil, zero_add, hl, hg]
  refine ⟨?_, ?_, ?_⟩
  · rw [toFixed2_eq_of_nonneg 200 20000 (by norm_num) (by norm_num) (by norm_num)]
    norm_num
  · rw [toFixed2_eq_of_nonneg 36 3600 (by norm_num) (by norm_num) (by norm_num)]
    norm_num
  · rw [toFixed2_eq_of_nonneg (200 + 36) 23600 (by norm_num) (by norm_num) (by norm_num)]
    norm_num

/-- C17: the claim fails as stated.  The sample invoice has no aggregates before the call;
after it, its `subtotal` is 200, its `total_gst` 36 and its `total` 236. -/
theorem C17_invoice_mutated_counterexample :
    sampleInvoice.subtotal = none ∧ sampleInvoice.total_gst = none ∧
      sampleInvoice.total = none ∧
      ∃ page : RenderedPage,
        generateAndSavePDF A4_width A4_height (2142 / 100) sampleInvoice = Except.ok page ∧
        page.invoice.subtotal = some 200 ∧ page.invoice.total_gst = some 36 ∧
        page.invoice.total = some 236 ∧ page.invoice ≠ sampleInvoice := by
  obtain ⟨h1, h2, h3⟩ := calculateTotals_sampleItem
  have hfalsy : (truthyNum sampleInvoice.subtotal && truthyNum sampleInvoice.total
      && truthyNum sampleInvoice.total_gst) = false := by
    simp [truthyNum, sampleInvoice]
  have hitems : sampleInvoice.items = [sampleItem] := rfl
  have hfill := fillTotals_of_falsy sampleInvoice hfalsy
  rw [hitems, h1, h2, h3] at hfill
  refine ⟨rfl, rfl, rfl, _, rfl, ?_, ?_, ?_, ?_⟩
  · simp only [hfill]
  · simp only [hfill]
  · simp only [hfill]
  · intro heq
    have hsub : (fillTotals sampleInvoice).subtotal = sampleInvoice.subtotal :=
      congrArg Invoice.subtotal heq
    rw [hfill] at hsub
    simp [sampleInvoice] at hsub

/-- The enriched items differ from the given ones in `line_total` only. -/
theorem calculateTotals_items_frame (items : List Item) :
    (calculateTotals items).items.map (fun it => { it with line_total := none })
      = items.map (fun it => { it with line_total := none }) := by
  simp [calculateTotals, List.map_map, Function.comp_def]

/-- C17 (amended): `generateAndSavePDF` leaves the invoice object unchanged when `subtotal`,
`total` and `total_gst` are all present and non-zero.  When one of the three is absent it
assigns `subtotal`, `total_gst` and `total` from `calculateTotals` and replaces `items` by
the enriched items.  The other invoice fields always keep their values and the items keep
every field except `line_total`. -/
theorem C17_invoice_after_call (pageWidth pageHeight titleH : ℚ) (invoiceObj : Invoice) :
    ∃ page : RenderedPage,
      generateAndSavePDF pageWidth pageHeight titleH invoiceObj = Except.ok page ∧
      ((∃ s t g : ℚ, invoiceObj.subtotal = some s ∧ invoiceObj.total = some t ∧
          invoiceObj.total_gst = some g ∧ s ≠ 0 ∧ t ≠ 0 ∧ g ≠ 0) →
        page.invoice = invoiceObj) ∧
      ((invoiceObj.subtotal = none ∨ invoiceObj.total = none ∨ invoiceObj.total_gst = none) →
        page.invoice.subtotal = some (calculateTotals invoiceObj.items).subtotal ∧
        page.invoice.total_gst = some (calculateTotals invoiceObj.items).totalGst ∧
        page.invoice.total = some (calculateTotals invoiceObj.items).total ∧
        page.invoice.items = (calculateTotals invoiceObj.items).items) ∧
      (page.invoice.invoice_number = invoiceObj.invoice_number ∧
        page.invoice.invoice_date = invoiceObj.invoice_date ∧
        page.invoice.customer_name = invoiceObj.customer_name ∧
        page.invoice.customer = invoiceObj.customer ∧
        page.invoice.customer_address = invoiceObj.customer_address ∧
        page.invoice.customer_gst = invoiceObj.customer_gst) ∧
      page.invoice.items.map (fun it => { it with line_total := none })
        = invoiceObj.items.map (fun it => { it with line_total := none }) := by
  refine ⟨_, rfl, ?_, ?_, ?_, ?_⟩
  · rintro ⟨s, t, g, hs, ht, hg, hs0, ht0, hg0⟩
    apply fillTotals_of_truthy invoiceObj
    simp [truthyNum, hs, ht, hg, hs0, ht0, hg0]
  · intro h
    have hf : (truthyNum invoiceObj.subtotal && truthyNum invoiceObj.total
        && truthyNum invoiceObj.total_gst) = false := by
      rcases h with h | h | h <;> simp [truthyNum, h]
    have hfill := fillTotals_of_falsy invoiceObj hf
    simp only [hfill, and_self]
  · cases h : (truthyNum invoiceObj.subtotal && truthyNum invoiceObj.total
        && truthyNum invoiceObj.total_gst)
    · have hfill := fillTotals_of_falsy invoiceObj h
      simp only [hfill, and_self]
    · have hfill := fillTotals_of_truthy invoiceObj h
      simp only [hfill, and_self]
  · cases h : (truthyNum invoiceObj.subtotal && truthyNum invoiceObj.total
        && truthyNum invoiceObj.total_gst)
    · have hfill := fillTotals_of_falsy invoiceObj h
      simp only [hfill]
      exact calculateTotals_items_frame invoiceObj.items
    · have hfill := fillTotals_of_truthy invoiceObj h
      simp only [hfill]

/-- C17 (amended), evaluated: the half-rupee invoice, which has no aggregates, gets them
filled in, and an invoice with three non-zero aggregates is returned as it was. -/
theorem C17_invoice_after_call_witness :
    (∃ page : RenderedPage,
      generateAndSavePDF A4_width A4_height (2142 / 100) sampleHalfRupeeInvoice
        = Except.ok page ∧
      page.invoice.total = some (calculateTotals sampleHalfRupeeInvoice.items).total) ∧
    (∃ page : RenderedPage,
      generateAndSavePDF A4_width A4_height (2142 / 100)
          { sampleInvoice with subtotal := some 200, total_gst := some 36, total := some 236 }
        = Except.ok page ∧
      page.invoice
        = { sampleInvoice with subtotal := some 200, total_gst := some 36,
                               total := some 236 }) := by
  constructor
  · obtain ⟨page, hp, _, habsent, _⟩ :=
      C17_invoice_after_call A4_width A4_height (2142 / 100) sampleHalfRupeeInvoice
    exact ⟨page, hp, (habsent (Or.inl rfl)).2.2.1⟩
  · obtain ⟨page, hp, hpresent, _⟩ :=
      C17_invoice_after_call A4_width A4_height (2142 / 100)
        { sampleInvoice with subtotal := some 200, total_gst := some 36, total := some 236 }
    exact ⟨page, hp, hpresent ⟨200, 236, 36, rfl, rfl, rfl, by norm_num, by norm_num,
      by norm_num⟩⟩

/-! ## Rows beyond the capacity: proofs -/

/-- The row area of a planner table is at least 52 points high. -/
theorem rowAreaH_tableH_pos (pageHeight titleH : ℚ) :
    52 ≤ rowAreaH (tableH pageHeight titleH) := by
  have h80 : (80 : ℚ) ≤ tableH pageHeight titleH := le_max_left _ _
  unfold rowAreaH headerH
  linarith

/-- When more rows are asked for than fit at the minimum height, the row height is the
minimum. -/
theorem rowHVal_eq_min_of_over (pageHeight titleH : ℚ) (N : ℕ)
    (hover : (minRowH : ℚ) * N > rowAreaH (tableH pageHeight titleH)) :
    rowHVal (tableH pageHeight titleH) N = minRowH := by
  have hpos := rowAreaH_tableH_pos pageHeight titleH
  rcases rowHVal_fit_or_min (tableH pageHeight titleH) N with hfit | hmin | h0
  · exfalso
    have hb : ((minRowH : ℤ) : ℚ) ≤ (rowHVal (tableH pageHeight titleH) N : ℚ) := by
      exact_mod_cast (rowHVal_bounds (tableH pageHeight titleH) N).1
    have hN : (0 : ℚ) ≤ (N : ℚ) := Nat.cast_nonneg N
    have := mul_le_mul_of_nonneg_right hb hN
    linarith
  · exact hmin
  · exfalso
    subst h0
    simp only [Nat.cast_zero, mul_zero] at hover
    linarith

/-- C21: the claim fails as stated.  On the A4 page with a 21.42-point title the row area
is 304.87 points, so 30 rows fit at height 10.  With 60 items the 31st row (index 30) is
beyond the capacity, yet its `currentRowY` is `243.02 + 26 + 300 = 569.02`, above the
table's bottom border at `243.02 + 332.87 = 575.89`. -/
theorem C21_first_extra_row_inside_counterexample :
    (minRowH : ℚ) * (60 : ℕ) > rowAreaH (tableH A4_height (2142 / 100)) ∧
      (minRowH : ℚ) * (31 : ℕ) > rowAreaH (tableH A4_height (2142 / 100)) ∧
      currentRowY (tableTop (2142 / 100)) (rowHVal (tableH A4_height (2142 / 100)) 60) 30
        = 56902 / 100 ∧
      tableTop (2142 / 100) + tableH A4_height (2142 / 100) = 57589 / 100 ∧
      ¬ (currentRowY (tableTop (2142 / 100)) (rowHVal (tableH A4_height (2142 / 100)) 60) 30
          > tableTop (2142 / 100) + tableH A4_height (2142 / 100)) := by
  have hT : tableH A4_height (2142 / 100) = 33287 / 100 := by
    norm_num [tableH, tableBottomLimit, tableTop, A4_height, PAGE_margin, STYLE_gap,
      compBoxH, rowH, footerReserved, bottomAreaReserved]
  have hR : rowHVal (33287 / 100) 60 = 10 := by
    norm_num [rowHVal, rowAreaH, headerH, minRowH, maxRowH, Int.floor_eq_iff]
  have hTop : tableTop (2142 / 100) = 24302 / 100 := by
    norm_num [tableTop, PAGE_margin, STYLE_gap, compBoxH, rowH]
  have hY : currentRowY (tableTop (2142 / 100)) (rowHVal (tableH A4_height (2142 / 100)) 60)
      30 = 56902 / 100 := by
    rw [currentRowY_eq, hT, hR, hTop]
    norm_num [headerH]
  refine ⟨?_, ?_, hY, ?_, ?_⟩
  · rw [hT]; norm_num [rowAreaH, headerH, minRowH]
  · rw [hT]; norm_num [rowAreaH, headerH, minRowH]
  · rw [hT, hTop]; norm_num
  · rw [hY, hT, hTop]; norm_num

/-- C21 (amended): whenever the item count exceeds the number of rows that fit at the
minimum row height (`N * 10 > rowAreaH`), the computed row height is exactly
`MIN_ROW_H = 10` for all rows; the row with 0-based index `i` is positioned below the
table's bottom border (`currentRowY > tableY + tableH`) exactly when `10 * i > rowAreaH + 2`,
and every row beyond the capacity (`10 * (i + 1) > rowAreaH`) ends past the row area, which
stops at `tableY + tableH - 2`. -/
theorem C21_rows_beyond_capacity (pageHeight titleH : ℚ) (N : ℕ)
    (hover : (minRowH : ℚ) * N > rowAreaH (tableH pageHeight titleH)) :
    rowHVal (tableH pageHeight titleH) N = 10 ∧
      (∀ i : ℕ,
        currentRowY (tableTop titleH) (rowHVal (tableH pageHeight titleH) N) i
            > tableTop titleH + tableH pageHeight titleH
          ↔ 10 * (i : ℚ) > rowAreaH (tableH pageHeight titleH) + 2) ∧
      (∀ i : ℕ, 10 * ((i : ℚ) + 1) > rowAreaH (tableH pageHeight titleH) →
        currentRowY (tableTop titleH) (rowHVal (tableH pageHeight titleH) N) (i + 1)
          > tableTop titleH + tableH pageHeight titleH - 2) := by
  have hmin := rowHVal_eq_min_of_over pageHeight titleH N hover
  have h10 : ((minRowH : ℤ) : ℚ) = 10 := by norm_num [minRowH]
  refine ⟨hmin, ?_, ?_⟩
  · intro i
    rw [currentRowY_eq, hmin, h10]
    unfold rowAreaH headerH
    constructor <;> intro h <;> linarith
  · intro i h
    rw [currentRowY_eq, hmin, h10]
    unfold rowAreaH headerH at h
    unfold headerH
    push_cast
    linarith

/-- C21 (amended), evaluated: 60 items on the A4 page with a 21.42-point title; the row
with index 31 lies below the border. -/
theorem C21_rows_beyond_capacity_witness :
    (minRowH : ℚ) * (60 : ℕ) > rowAreaH (tableH A4_height (2142 / 100)) ∧
      rowHVal (tableH A4_height (2142 / 100)) 60 = 10 ∧
      currentRowY (tableTop (2142 / 100)) (rowHVal (tableH A4_height (2142 / 100)) 60) 31
        > tableTop (2142 / 100) + tableH A4_height (2142 / 100) := by
  have hT : tableH A4_height (2142 / 100) = 33287 / 100 := by
    norm_num [tableH, tableBottomLimit, tableTop, A4_height, PAGE_margin, STYLE_gap,
      compBoxH, rowH, footerReserved, bottomAreaReserved]
  have hover : (minRowH : ℚ) * (60 : ℕ) > rowAreaH (tableH A4_height (2142 / 100)) := by
    rw [hT]; norm_num [rowAreaH, headerH, minRowH]
  have h := C21_rows_beyond_capacity A4_height (2142 / 100) 60 hover
  refine ⟨hover, h.1, (h.2.1 31).mpr ?_⟩
  rw [hT]
  norm_num [rowAreaH, headerH]

/-! ## Challan number: proofs -/

/-- C24: for every non-empty invoice number `n`, the challan number is `CH` followed by the
last four characters of `n`, that is by the suffix of `n` of length `min 4 n.length` (all of
`n` when it has fewer than four characters); when the invoice number is absent or empty the
challan number is the empty string. -/
theorem C24_challan_number (n : List Char) (hn : n ≠ []) :
    challanNo (some n) = ['C', 'H'] ++ n.drop (n.length - 4) ∧
      n.drop (n.length - 4) <:+ n ∧
      (n.drop (n.length - 4)).length = min 4 n.length ∧
      (n.length < 4 → challanNo (some n) = ['C', 'H'] ++ n) ∧
      challanNo none = [] ∧ challanNo (some []) = [] := by
  have hmain : challanNo (some n) = ['C', 'H'] ++ n.drop (n.length - 4) := by
    cases n with
    | nil => exact absurd rfl hn
    | cons c cs => rfl
  refine ⟨hmain, List.drop_suffix _ _, ?_, ?_, rfl, rfl⟩
  · rw [List.length_drop]
    omega
  · intro hlt
    rw [hmain]
    have h0 : n.length - 4 = 0 := by omega
    rw [h0, List.drop_zero]

/-- C24, evaluated: the invoice number `INV-202611-0001` gives the challan number
`CH0001`. -/
theorem C24_challan_number_witness :
    "INV-202611-0001".toList ≠ [] ∧
      challanNo (some "INV-202611-0001".toList) = "CH0001".toList :=
  ⟨by decide, by
    rw [(C24_challan_number "INV-202611-0001".toList (by decide)).1]
    decide⟩

/-! ## Column widths and bottom boxes: proofs -/

/-- A prefix of a list of non-negative integers sums to at most the whole list. -/
theorem sum_take_le_sum (l : List ℤ) (hl : ∀ w ∈ l, 0 ≤ w) (k : ℕ) :
    (l.take k).sum ≤ l.sum := by
  induction l generalizing k with
  | nil => simp
  | cons a rest ih =>
    cases k with
    | zero =>
      simp only [List.take_zero, List.sum_nil, List.sum_cons]
      have ha : 0 ≤ a := hl a (List.mem_cons_self a rest)
      have hr : 0 ≤ rest.sum := List.sum_nonneg (fun w hw => hl w (List.mem_cons_of_mem a hw))
      omega
    | succ j =>
      simp only [List.take_succ_cons, List.sum_cons]
      have := ih (fun w hw => hl w (List.mem_cons_of_mem a hw)) j
      omega

/-- The floored widths sum to at most the exact shares. -/
theorem sum_floor_le (l : List ℚ) (W : ℚ) :
    (((l.map (fun p => ⌊p / 100 * W⌋)).sum : ℤ) : ℚ) ≤ l.sum / 100 * W := by
  induction l with
  | nil => simp
  | cons p rest ih =>
    simp only [List.map_cons, List.sum_cons, Int.cast_add]
    have hp : ((⌊p / 100 * W⌋ : ℤ) : ℚ) ≤ p / 100 * W := Int.floor_le _
    have : (p + rest.sum) / 100 * W = p / 100 * W + rest.sum / 100 * W := by ring
    rw [this]
    linarith

/-- The percentages of either column set sum to 100. -/
theorem colPercents_sum (g : GstType) : (colPercents g).sum = 100 := by
  cases g <;> norm_num [colPercents]

/-- C27: for both regimes the header list and the column-percentage list have the same
length and the percentages sum to exactly 100; for every (non-negative) table width the
floored column widths are non-negative and sum to at most the table width, and so does
every partial sum, which is where the column separators are drawn. -/
theorem C27_columns_fit (g : GstType) (W : ℚ) (hW : 0 ≤ W) :
    (headers g).length = (colPercents g).length ∧
      (colPercents g).sum = 100 ∧
      (colWidths g W).length = (headers g).length ∧
      (∀ w ∈ colWidths g W, 0 ≤ w) ∧
      (((colWidths g W).sum : ℤ) : ℚ) ≤ W ∧
      (∀ k : ℕ, ((((colWidths g W).take k).sum : ℤ) : ℚ) ≤ W) := by
  have hnonneg : ∀ w ∈ colWidths g W, 0 ≤ w := by
    intro w hw
    unfold colWidths at hw
    rw [List.mem_map] at hw
    obtain ⟨p, hp, rfl⟩ := hw
    apply Int.floor_nonneg.mpr
    have hall : ∀ q ∈ colPercents g, (0 : ℚ) ≤ q := by
      cases g <;> norm_num [colPercents]
    have hp0 : 0 ≤ p := hall p hp
    positivity
  have hsum : (((colWidths g W).sum : ℤ) : ℚ) ≤ W := by
    have h := sum_floor_le (colPercents g) W
    rw [colPercents_sum g] at h
    unfold colWidths
    linarith
  refine ⟨by cases g <;> rfl, colPercents_sum g, by cases g <;> rfl, hnonneg, hsum, ?_⟩
  intro k
  have hk : ((colWidths g W).take k).sum ≤ (colWidths g W).sum :=
    sum_take_le_sum _ hnonneg k
  have hkq : ((((colWidths g W).take k).sum : ℤ) : ℚ) ≤ (((colWidths g W).sum : ℤ) : ℚ) := by
    exact_mod_cast hk
  linarith

/-- C27, evaluated at the A4 content width 523.28 in the CGST/SGST regime. -/
theorem C27_columns_fit_witness :
    (0 : ℚ) ≤ 52328 / 100 ∧
      (((colWidths GstType.CGST_SGST (52328 / 100)).sum : ℤ) : ℚ) ≤ 52328 / 100 ∧
      ∀ w ∈ colWidths GstType.CGST_SGST (52328 / 100), 0 ≤ w :=
  ⟨by norm_num,
    (C27_columns_fit GstType.CGST_SGST (52328 / 100) (by norm_num)).2.2.2.2.1,
    (C27_columns_fit GstType.CGST_SGST (52328 / 100) (by norm_num)).2.2.2.1⟩

/-- C28: whenever the table height is not clamped at its 80-point floor, the bottom edge of
the bank/signature box, `tableY + tableH + 8 + max(76, 56) + 8 + 100`, is at most
`page height - bottom margin - 30`, hence strictly above the footer text at
`page height - bottom margin - 12`; and the words box ends 16 points to the left of the
totals box, so the two do not overlap horizontally. -/
theorem C28_bottom_blocks_fit (pageHeight titleH contentW : ℚ)
    (hclamp : 80 ≤ tableBottomLimit pageHeight - tableTop titleH) :
    bottomBoxY pageHeight titleH + bottomBoxH
        = tableTop titleH + tableH pageHeight titleH + 8 + max 76 56 + 8 + 100 ∧
      bottomBoxY pageHeight titleH + bottomBoxH ≤ pageHeight - PAGE_margin - footerReserved ∧
      bottomBoxY pageHeight titleH + bottomBoxH < footerY pageHeight ∧
      wordsBoxX + wordsBoxW contentW = totX contentW - 16 ∧
      wordsBoxX + wordsBoxW contentW < totX contentW := by
  have hsum := tableTop_add_tableH pageHeight titleH hclamp
  have hmax : max (76 : ℚ) 56 = 76 := by norm_num
  have hedge : bottomBoxY pageHeight titleH + bottomBoxH
      = tableTop titleH + tableH pageHeight titleH + 8 + max 76 56 + 8 + 100 := by
    unfold bottomBoxY totY totH wordsBoxH bottomBoxH STYLE_gap
    ring
  have hval : bottomBoxY pageHeight titleH + bottomBoxH = pageHeight - PAGE_margin - 38 := by
    rw [hedge, hsum, hmax]
    unfold tableBottomLimit bottomAreaReserved footerReserved
    ring
  refine ⟨hedge, ?_, ?_, ?_, ?_⟩
  · rw [hval]; unfold footerReserved; linarith
  · rw [hval]; unfold footerY; linarith
  · unfold wordsBoxX wordsBoxW totX; ring
  · unfold wordsBoxX wordsBoxW totX; linarith

/-- C28, evaluated on the A4 page with a 21.42-point title: the bank/signature box ends at
767.89. -/
theorem C28_bottom_blocks_fit_witness :
    80 ≤ tableBottomLimit A4_height - tableTop (2142 / 100) ∧
      bottomBoxY A4_height (2142 / 100) + bottomBoxH
        ≤ A4_height - PAGE_margin - footerReserved ∧
      bottomBoxY A4_height (2142 / 100) + bottomBoxH < footerY A4_height ∧
      wordsBoxX + wordsBoxW (A4_width - 72) < totX (A4_width - 72) :=
  have h1 : 80 ≤ tableBottomLimit A4_height - tableTop (2142 / 100) := by
    norm_num [tableBottomLimit, tableTop, A4_height, PAGE_margin, STYLE_gap,
      compBoxH, rowH, footerReserved, bottomAreaReserved]
  ⟨h1, (C28_bottom_blocks_fit A4_height (2142 / 100) (A4_width - 72) h1).2.1,
    (C28_bottom_blocks_fit A4_height (2142 / 100) (A4_width - 72) h1).2.2.1,
    (C28_bottom_blocks_fit A4_height (2142 / 100) (A4_width - 72) h1).2.2.2.2⟩

/-! ## Font-shrink loops: proofs -/

/-- One loop iteration: the text overflows and the size is above the floor. -/
theorem shrinkLoop_step (overflows : ℤ → Bool) (minSize size : ℤ)
    (h : overflows size = true ∧ size > minSize) :
    shrinkLoop overflows minSize size = shrinkLoop overflows minSize (size - 1) := by
  rw [shrinkLoop]
  simp only [h, and_self, dite_true]

/-- Loop exit: the text fits or the floor is reached. -/
theorem shrinkLoop_done (overflows : ℤ → Bool) (minSize size : ℤ)
    (h : ¬ (overflows size = true ∧ size > minSize)) :
    shrinkLoop overflows minSize size = size := by
  rw [shrinkLoop]
  simp only [h, dite_false]

/-- The result of a shrink loop started at or above the floor: it lies between the floor and
the start size, the text fits there unless the floor is reached, and the text overflows at
every size above it up to the start size. -/
theorem shrinkLoop_spec (overflows : ℤ → Bool) (minSize : ℤ) :
    ∀ (n : ℕ) (size : ℤ), (size - minSize).toNat = n → minSize ≤ size →
      minSize ≤ shrinkLoop overflows minSize size ∧
      shrinkLoop overflows minSize size ≤ size ∧
      (overflows (shrinkLoop overflows minSize size) = false ∨
        shrinkLoop overflows minSize size = minSize) ∧
      ∀ z : ℤ, shrinkLoop overflows minSize size < z → z ≤ size → overflows z = true := by
  intro n
  induction n using Nat.strong_induction_on with
  | _ n ih =>
    intro size hn hle
    by_cases h : overflows size = true ∧ size > minSize
    · rw [shrinkLoop_step overflows minSize size h]
      have hrec := ih ((size - 1 - minSize).toNat) (by omega) (size - 1) rfl (by omega)
      refine ⟨hrec.1, by omega, hrec.2.2.1, ?_⟩
      intro z hz hzs
      by_cases hzeq : z = size
      · rw [hzeq]; exact h.1
      · exact hrec.2.2.2 z hz (by omega)
    · rw [shrinkLoop_done overflows minSize size h]
      refine ⟨hle, le_refl _, ?_, ?_⟩
      · by_cases ho : overflows size = true
        · right
          have : ¬ size > minSize := fun hgt => h ⟨ho, hgt⟩
          omega
        · left
          simpa using ho
      · intro z hz hzs
        omega

/-- C23: the two font-shrink loops (bill-to address by height, Amount cell by width) are
total functions, so they terminate for every text; started at a size at or above the
minimum they return a size `s` with `minFontSize ≤ s ≤ startSize` such that the text fits
at `s` or `s = minFontSize`, and the text overflows at every size above `s` up to and
including the start size (so `s` is the largest fitting size, never below the floor). -/
theorem C23_font_shrink (heightAt widthAt : ℤ → ℚ) (lastColWidth : ℚ) (fontSize : ℤ)
    (hstart : 6 ≤ fontSize) :
    (6 ≤ billToAddressFontSize heightAt ∧ billToAddressFontSize heightAt ≤ 9 ∧
      (heightAt (billToAddressFontSize heightAt) ≤ 18 ∨ billToAddressFontSize heightAt = 6) ∧
      ∀ z : ℤ, billToAddressFontSize heightAt < z → z ≤ 9 → heightAt z > 18) ∧
    (6 ≤ amountFontSize widthAt lastColWidth fontSize ∧
      amountFontSize widthAt lastColWidth fontSize ≤ fontSize ∧
      (widthAt (amountFontSize widthAt lastColWidth fontSize) ≤ lastColWidth - 12 ∨
        amountFontSize widthAt lastColWidth fontSize = 6) ∧
      ∀ z : ℤ, amountFontSize widthAt lastColWidth fontSize < z → z ≤ fontSize →
        widthAt z > lastColWidth - 12) := by
  have hA := shrinkLoop_spec (fun z => decide (heightAt z > 18)) 6 _ 9 rfl (by norm_num)
  have hB := shrinkLoop_spec (fun z => decide (widthAt z > lastColWidth - 12)) 6 _ fontSize
    rfl hstart
  constructor
  · refine ⟨hA.1, hA.2.1, ?_, ?_⟩
    · rcases hA.2.2.1 with hfit | hmin
      · left
        have := of_decide_eq_false hfit
        exact not_lt.mp this
      · right; exact hmin
    · intro z hz hz9
      exact of_decide_eq_true (hA.2.2.2 z hz hz9)
  · refine ⟨hB.1, hB.2.1, ?_, ?_⟩
    · rcases hB.2.2.1 with hfit | hmin
      · left
        have := of_decide_eq_false hfit
        exact not_lt.mp this
      · right; exact hmin
    · intro z hz hzs
      exact of_decide_eq_true (hB.2.2.2 z hz hzs)

/-- C23, evaluated: an address whose height is `3 * size` shrinks from 9 to the floor 6,
where it fits; an amount whose width is `10 * size`, in a last column 92 wide, shrinks from
9 to 8. -/
theorem C23_font_shrink_witness :
    (6 : ℤ) ≤ 9 ∧
      billToAddressFontSize (fun z => 3 * (z : ℚ)) = 6 ∧
      amountFontSize (fun z => 10 * (z : ℚ)) 92 9 = 8 ∧
      ((fun z : ℤ => 10 * (z : ℚ)) (amountFontSize (fun z => 10 * (z : ℚ)) 92 9) ≤ 92 - 12 ∨
        amountFontSize (fun z => 10 * (z : ℚ)) 92 9 = 6) := by
  have hbill : billToAddressFontSize (fun z => 3 * (z : ℚ)) = 6 := by
    unfold billToAddressFontSize
    rw [shrinkLoop_step _ 6 9 (by norm_num), shrinkLoop_step _ 6 (9 - 1) (by norm_num),
      shrinkLoop_step _ 6 (9 - 1 - 1) (by norm_num),
      shrinkLoop_done _ 6 (9 - 1 - 1 - 1) (by norm_num)]
    norm_num
  have hamt : amountFontSize (fun z => 10 * (z : ℚ)) 92 9 = 8 := by
    unfold amountFontSize
    rw [shrinkLoop_step _ 6 9 (by norm_num), shrinkLoop_done _ 6 (9 - 1) (by norm_num)]
    norm_num
  exact ⟨by norm_num, hbill, hamt,
    (C23_font_shrink (fun z => 3 * (z : ℚ)) (fun z => 10 * (z : ℚ)) 92 9 (by norm_num)).2.2.2.1⟩

/-! ## Normaliser: rate preservation, idempotence and shape: proofs -/

/-- Normalisation leaves the line amount of every item alone. -/
theorem normalizeGstFields_map_line (items : List Item) (gstNumber : Option (List Char)) :
    (normalizeGstFields items gstNumber).map line = items.map line := by
  unfold normalizeGstFields
  rw [List.map_map]
  apply List.map_congr_left
  intro it _
  by_cases h : isCgstSgst gstNumber = true
  · simp [h, line]
  · simp [h, line]

/-- Normalisation keeps the total rate of an item that satisfies `RateKept`. -/
theorem normalizeGstFields_map_gstRate (items : List Item) (gstNumber : Option (List Char))
    (hkept : ∀ it ∈ items, RateKept gstNumber it) :
    (normalizeGstFields items gstNumber).map gstRate = items.map gstRate := by
  unfold normalizeGstFields
  rw [List.map_map]
  apply List.map_congr_left
  intro it hit
  have hk := hkept it hit
  unfold RateKept at hk
  by_cases h : isCgstSgst gstNumber = true
  · rw [if_pos h] at hk
    simp only [Function.comp, h, if_true, gstRate, numOr0, Option.getD_some]
    rcases hk with hz | ⟨hc, hs⟩
    · have hhalf : halfIgst it = 0 := by
        unfold halfIgst
        cases hi : it.igst_rate with
        | none => rfl
        | some r =>
          rw [hi] at hz
          simp only [numOr0, Option.getD_some] at hz
          simp [hz]
      cases hc : it.cgst_rate <;> cases hs : it.sgst_rate <;>
        simp only [hhalf, Option.getD_none, Option.getD_some] <;>
        simp only [numOr0] at hz <;> rw [hz]
    · rw [hc, hs]
      simp only [Option.getD_none]
      unfold halfIgst
      cases hi : it.igst_rate with
      | none => simp
      | some r =>
        by_cases hr : r = 0
        · simp [hr]
        · simp only [ne_eq, hr, not_false_eq_true, if_true, Option.getD_some]
          ring
  · rw [if_neg h] at hk
    have hf : isCgstSgst gstNumber = false := by simpa using h
    simp only [Function.comp, hf, Bool.false_eq_true, if_false, gstRate, numOr0,
      Option.getD_some]
    rcases hk with ⟨hc, hs⟩ | hi
    · simp only [numOr0] at hc hs
      cases hi : it.igst_rate with
      | none => simp only [Option.getD_none, hc, hs]; ring
      | some r => simp only [Option.getD_some, hc, hs]
    · rw [hi]
      simp only [Option.getD_none]
      ring

/-- The totals of the zero-split sample item before normalisation: 200.00, 36.00 and
236.00. -/
theorem calculateTotals_sampleZeroSplitItem :
    (calculateTotals [sampleZeroSplitItem]).subtotal = 200 ∧
      (calculateTotals [sampleZeroSplitItem]).totalGst = 36 ∧
      (calculateTotals [sampleZeroSplitItem]).total = 236 := by
  have hl : line sampleZeroSplitItem = 200 := by
    norm_num [line, numOr0, sampleZeroSplitItem]
  have hg : gstAmt sampleZeroSplitItem = 36 := by
    norm_num [gstAmt, gstRate, line, numOr0, sampleZeroSplitItem]
  simp only [calculateTotals, List.foldl_cons, List.foldl_nil, zero_add, hl, hg]
  refine ⟨?_, ?_, ?_⟩
  · rw [toFixed2_eq_of_nonneg 200 20000 (by norm_num) (by norm_num) (by norm_num)]
    norm_num
  · rw [toFixed2_eq_of_nonneg 36 3600 (by norm_num) (by norm_num) (by norm_num)]
    norm_num
  · rw [toFixed2_eq_of_nonneg (200 + 36) 23600 (by norm_num) (by norm_num) (by norm_num)]
    norm_num

/-- C25: the claim fails as stated.  The item `(quantity 2, unit_price 100, cgst_rate 0,
sgst_rate 0, igst_rate 18)` is populated in the unified regime only, its split rates being
zero.  With the tax-id `27ABCDE1234F1Z5` the normaliser keeps the present split rates 0 and
0 and sets `igst_rate` to 0: the total rate drops from 18 to 0 and the invoice total from
236.00 to 200.00. -/
theorem C25_zero_split_rates_drop_tax_counterexample :
    isCgstSgst (some sampleGstin27) = true ∧
      numOr0 sampleZeroSplitItem.cgst_rate = 0 ∧ numOr0 sampleZeroSplitItem.sgst_rate = 0 ∧
      gstRate sampleZeroSplitItem = 18 ∧
      (normalizeGstFields [sampleZeroSplitItem] (some sampleGstin27)).map gstRate = [0] ∧
      (calculateTotals [sampleZeroSplitItem]).total = 236 ∧
      (calculateTotals (normalizeGstFields [sampleZeroSplitItem] (some sampleGstin27))).total
        = 200 := by
  have h27 : isCgstSgst (some sampleGstin27) = true := by decide
  have hnorm : normalizeGstFields [sampleZeroSplitItem] (some sampleGstin27)
      = [{ sampleZeroSplitItem with igst_rate := some 0 }] := by
    simp only [normalizeGstFields, List.map_cons, List.map_nil, h27, if_true]
    rfl
  have hl : line { sampleZeroSplitItem with igst_rate := some 0 } = 200 := by
    norm_num [line, numOr0, sampleZeroSplitItem]
  have hg : gstAmt { sampleZeroSplitItem with igst_rate := some 0 } = 0 := by
    norm_num [gstAmt, gstRate, line, numOr0, sampleZeroSplitItem]
  refine ⟨h27, by simp [numOr0, sampleZeroSplitItem], by simp [numOr0, sampleZeroSplitItem],
    by norm_num [gstRate, numOr0, sampleZeroSplitItem], ?_,
    calculateTotals_sampleZeroSplitItem.2.2, ?_⟩
  · rw [hnorm]
    norm_num [gstRate, numOr0, sampleZeroSplitItem]
  · rw [hnorm]
    simp only [calculateTotals, List.foldl_cons, List.foldl_nil, zero_add, hl, hg, add_zero]
    rw [toFixed2_eq_of_nonneg 200 20000 (by norm_num) (by norm_num) (by norm_num)]
    norm_num

/-- C25 (amended): normalisation does not change an item's total tax rate when, for a
tax-id starting with `27`, the item's `igst_rate` is absent or zero or both its split rates
are absent, and, for any other tax-id, both split rates are absent or zero or its
`igst_rate` is absent; for a list of such items `calculateTotals` gives the same subtotal,
GST total and total before and after normalisation. -/
theorem C25_rate_kept (items : List Item) (gstNumber : Option (List Char))
    (hkept : ∀ it ∈ items, RateKept gstNumber it) :
    (normalizeGstFields items gstNumber).map gstRate = items.map gstRate ∧
      (calculateTotals (normalizeGstFields items gstNumber)).subtotal
        = (calculateTotals items).subtotal ∧
      (calculateTotals (normalizeGstFields items gstNumber)).totalGst
        = (calculateTotals items).totalGst ∧
      (calculateTotals (normalizeGstFields items gstNumber)).total
        = (calculateTotals items).total := by
  have hline := normalizeGstFields_map_line items gstNumber
  have hrate := normalizeGstFields_map_gstRate items gstNumber hkept
  have hgst : (normalizeGstFields items gstNumber).map gstAmt = items.map gstAmt := by
    have e : ∀ l : List Item, l.map gstAmt
        = List.zipWith (fun a b => a * (b / 100)) (l.map line) (l.map gstRate) := by
      intro l
      induction l with
      | nil => rfl
      | cons a rest ih => simp only [List.map_cons, List.zipWith_cons_cons, ih, gstAmt]
    rw [e, e, hline, hrate]
  refine ⟨hrate, ?_, ?_, ?_⟩
  · simp only [calculateTotals, foldl_add_eq_sum, hline]
  · simp only [calculateTotals, foldl_add_eq_sum, hgst]
  · simp only [calculateTotals, foldl_add_eq_sum, hline, hgst]

/-- C25 (amended), evaluated: the worked example's item carries only `igst_rate = 18`; with
the tax-id `27ABCDE1234F1Z5` it becomes 9 + 9 and the totals are unchanged. -/
theorem C25_rate_kept_witness :
    (∀ it ∈ [sampleItem], RateKept (some sampleGstin27) it) ∧
      (normalizeGstFields [sampleItem] (some sampleGstin27)).map gstRate
        = [sampleItem].map gstRate ∧
      (calculateTotals (normalizeGstFields [sampleItem] (some sampleGstin27))).total
        = (calculateTotals [sampleItem]).total :=
  have hk : ∀ it ∈ [sampleItem], RateKept (some sampleGstin27) it := by
    intro it hit
    rw [List.mem_singleton] at hit
    subst hit
    have h27 : isCgstSgst (some sampleGstin27) = true := by decide
    unfold RateKept
    rw [if_pos h27]
    right
    exact ⟨rfl, rfl⟩
  ⟨hk, (C25_rate_kept [sampleItem] (some sampleGstin27) hk).1,
    (C25_rate_kept [sampleItem] (some sampleGstin27) hk).2.2.2⟩

/-- C29: `normalizeGstFields` is idempotent and shape-preserving: for every item list and
tax-id, normalising an already normalised list with the same tax-id returns the same items
(hence the same rates), and the output has the same length as the input and, position by
position, the same non-tax fields. -/
theorem C29_normalize_idempotent (items : List Item) (gstNumber : Option (List Char)) :
    normalizeGstFields (normalizeGstFields items gstNumber) gstNumber
        = normalizeGstFields items gstNumber ∧
      (normalizeGstFields items gstNumber).length = items.length ∧
      (normalizeGstFields items gstNumber).map
          (fun it => (it.product_name, it.description, it.hsn_sac, it.quantity,
            it.unit_price, it.line_total))
        = items.map
          (fun it => (it.product_name, it.description, it.hsn_sac, it.quantity,
            it.unit_price, it.line_total)) := by
  refine ⟨?_, ?_, ?_⟩
  · unfold normalizeGstFields
    rw [List.map_map]
    apply List.map_congr_left
    intro it _
    by_cases h : isCgstSgst gstNumber = true
    · simp [h]
    · simp [h]
  · simp [normalizeGstFields]
  · unfold normalizeGstFields
    rw [List.map_map]
    apply List.map_congr_left
    intro it _
    by_cases h : isCgstSgst gstNumber = true
    · simp [h]
    · simp [h]

/-! ## Update route and client preview: proofs -/

/-- With a non-empty customer name, a non-empty item list and a truthy `customer_gst`, the
update handler computes what the create handler computes. -/
theorem updateInvoiceTotals_eq_create (customer_name : Option String) (items : List Item)
    (customer_gst : Option (List Char))
    (hname : ¬ (customer_name = none ∨ customer_name = some ""))
    (hitems : items.length ≠ 0) (hgst : truthyStr customer_gst = true) :
    updateInvoiceTotals items customer_gst
      = createInvoiceTotals customer_name items customer_gst := by
  have hguard : ¬ (customer_name = none ∨ customer_name = some "" ∨ items.length = 0) := by
    intro h
    rcases h with h | h | h
    · exact hname (Or.inl h)
    · exact hname (Or.inr h)
    · exact hitems h
  unfold updateInvoiceTotals createInvoiceTotals
  rw [if_pos hgst, if_neg hguard]

/-- C30: the code at the failing input.  With the worked example's item and an empty (or
absent) `customer_gst`, the create handler returns the totals of the normalised items, while
the update handler raises: its expression `customer_gst || body.customer_gst` reads the
undeclared variable `body`. -/
theorem C30_update_raises_on_empty_gst :
    [sampleItem].length ≠ 0 ∧
      createInvoiceTotals (some "Acme") [sampleItem] (some [])
        = Except.ok (calculateTotals (normalizeGstFields [sampleItem] (some []))) ∧
      updateInvoiceTotals [sampleItem] (some []) = Except.error "body is not defined" ∧
      createInvoiceTotals (some "Acme") [sampleItem] none
        = Except.ok (calculateTotals (normalizeGstFields [sampleItem] none)) ∧
      updateInvoiceTotals [sampleItem] none = Except.error "body is not defined" := by
  refine ⟨by simp, ?_, rfl, ?_, rfl⟩
  · simp [createInvoiceTotals]
  · simp [createInvoiceTotals]

/-- On payload items the client's rate is the sum of the three rate fields. -/
theorem clientGstRate_payloadItem (g : GstType) (it : Item) :
    clientGstRate g (payloadItem g it) = gstRate (payloadItem g it) := by
  cases g <;> simp [clientGstRate, payloadItem, gstRate, numOr0]

/-- On payload items the unrounded figures of the client preview are the sums that
`calculateTotals` rounds: the server's three figures are the 2-decimal roundings of the
client's. -/
theorem totals_payload_unrounded (g : GstType) (items : List Item) :
    (calculateTotals (payloadItems g items)).subtotal
        = toFixed2 (totals g (payloadItems g items)).subtotal ∧
      (calculateTotals (payloadItems g items)).totalGst
        = toFixed2 (totals g (payloadItems g items)).totalGst ∧
      (calculateTotals (payloadItems g items)).total
        = toFixed2 (totals g (payloadItems g items)).total := by
  have hg : (payloadItems g items).foldl
        (fun acc it => acc + line it * (clientGstRate g it / 100)) 0
      = (payloadItems g items).foldl (fun acc it => acc + gstAmt it) 0 := by
    rw [foldl_add_eq_sum, foldl_add_eq_sum]
    congr 1
    unfold payloadItems
    rw [List.map_map, List.map_map]
    apply congrArg
    apply List.map_congr_left
    intro it _
    simp only [Function.comp, gstAmt, clientGstRate_payloadItem]
  simp only [calculateTotals, totals, hg, and_self]

/-- The unrounded figures of the client preview for the near-half item: 200.42, 36.0756 and
236.4956. -/
theorem totals_sampleNearHalfItem :
    payloadItems GstType.IGST [sampleNearHalfItem] = [sampleNearHalfItem] ∧
      (totals GstType.IGST [sampleNearHalfItem]).subtotal = 10021 / 50 ∧
      (totals GstType.IGST [sampleNearHalfItem]).totalGst = 90189 / 2500 ∧
      (totals GstType.IGST [sampleNearHalfItem]).total = 591239 / 2500 := by
  have hl : line sampleNearHalfItem = 10021 / 50 := by
    norm_num [line, numOr0, sampleNearHalfItem]
  have hr : clientGstRate GstType.IGST sampleNearHalfItem = 18 := by
    simp [clientGstRate, numOr0, sampleNearHalfItem]
  refine ⟨?_, ?_, ?_, ?_⟩
  · simp [payloadItems, payloadItem, sampleNearHalfItem, numOr0]
  · simp only [totals, List.foldl_cons, List.foldl_nil, zero_add, hl]
  · simp only [totals, List.foldl_cons, List.foldl_nil, zero_add, hl, hr]
    norm_num
  · simp only [totals, List.foldl_cons, List.foldl_nil, zero_add, hl, hr]
    norm_num

/-- C26: the code at the failing input.  For the payload item `(quantity 1,
unit_price 200.42, igst_rate 18)` the unrounded total is 236.4956.  The client preview
rounds that figure: grand total 236, round-off -0.50.  The server first rounds the total to
236.50 and the PDF totals box rounds again: grand total 237, round-off +0.50. -/
theorem C26_preview_differs_from_pdf :
    payloadItems GstType.IGST [sampleNearHalfItem] = [sampleNearHalfItem] ∧
      (totals GstType.IGST [sampleNearHalfItem]).total = 591239 / 2500 ∧
      (totals GstType.IGST [sampleNearHalfItem]).roundedTotal = 236 ∧
      (totals GstType.IGST [sampleNearHalfItem]).roundOff = -(1 / 2) ∧
      (calculateTotals [sampleNearHalfItem]).total = 473 / 2 ∧
      roundedTotal (some (calculateTotals [sampleNearHalfItem]).total) = 237 ∧
      roundOff (some (calculateTotals [sampleNearHalfItem]).total) = 1 / 2 := by
  obtain ⟨hp, _, _, ht⟩ := totals_sampleNearHalfItem
  have hserver : (calculateTotals [sampleNearHalfItem]).total = 473 / 2 := by
    have h := (totals_payload_unrounded GstType.IGST [sampleNearHalfItem]).2.2
    rw [hp, ht] at h
    rw [h, toFixed2_eq_of_nonneg (591239 / 2500) 23650 (by norm_num) (by norm_num)
      (by norm_num)]
    norm_num
  have hr1 : mathRound (591239 / 2500) = 236 := by
    unfold mathRound
    rw [Int.floor_eq_iff]; norm_num
  have hr2 : mathRound (473 / 2) = 237 := by
    unfold mathRound
    rw [Int.floor_eq_iff]; norm_num
  have hcr : (totals GstType.IGST [sampleNearHalfItem]).roundedTotal
      = mathRound (totals GstType.IGST [sampleNearHalfItem]).total := rfl
  have hco : (totals GstType.IGST [sampleNearHalfItem]).roundOff
      = toFixed2 ((mathRound (totals GstType.IGST [sampleNearHalfItem]).total : ℚ)
          - (totals GstType.IGST [sampleNearHalfItem]).total) := rfl
  refine ⟨hp, ht, ?_, ?_, hserver, ?_, ?_⟩
  · rw [hcr, ht, hr1]
  · rw [hco, ht, hr1]
    have e : (((236 : ℤ) : ℚ) - 591239 / 2500) = -(1239 / 2500) := by norm_num
    rw [e, toFixed2_eq_of_neg (-(1239 / 2500)) 50 (by norm_num) (by norm_num) (by norm_num)]
    norm_num
  · rw [hserver]
    simp only [roundedTotal, hr2]
  · rw [hserver]
    simp only [roundOff, hr2]
    have e : (((237 : ℤ) : ℚ) - 473 / 2) = ((50 : ℤ) : ℚ) / 100 := by norm_num
    rw [e, toFixed2_of_hundredths]
    norm_num

/-! ## Binary64 arithmetic: proofs -/

/-- Rounding to an integer moves a value by at most one half. -/
theorem roundHalfEven_abs_sub_le (y : ℚ) : |(roundHalfEven y : ℚ) - y| ≤ 1 / 2 := by
  have h1 := Int.floor_le y
  have h2 := Int.lt_floor_add_one y
  unfold roundHalfEven
  rw [abs_le]
  split_ifs with ha hb hc
  · constructor <;> linarith
  · push_cast; constructor <;> linarith
  · constructor <;> linarith
  · push_cast; constructor <;> linarith

/-- Evaluation rule for `roundHalfEven` away from a tie. -/
theorem roundHalfEven_eq (y : ℚ) (n : ℤ) (h1 : (n : ℚ) - 1 / 2 < y) (h2 : y < (n : ℚ) + 1 / 2) :
    roundHalfEven y = n := by
  unfold roundHalfEven
  by_cases hn : (n : ℚ) ≤ y
  · have hf : ⌊y⌋ = n := Int.floor_eq_iff.mpr ⟨hn, by linarith⟩
    rw [hf]
    have : y - (n : ℚ) < 1 / 2 := by linarith
    rw [if_pos this]
  · have hn' : y < (n : ℚ) := not_le.mp hn
    have hf : ⌊y⌋ = n - 1 := Int.floor_eq_iff.mpr ⟨by push_cast; linarith, by push_cast; linarith⟩
    rw [hf]
    have h3 : ¬ (y - ((n - 1 : ℤ) : ℚ) < 1 / 2) := by push_cast; linarith
    have h4 : 1 / 2 < y - ((n - 1 : ℤ) : ℚ) := by push_cast; linarith
    rw [if_neg h3, if_pos h4]
    ring

/-- Zero is a binary64 value. -/
theorem fl_zero : fl 0 = 0 := by simp [fl]

/-- The relative error of one binary64 rounding is at most `2^-53`. -/
theorem fl_abs_sub_le (x : ℚ) : |fl x - x| ≤ |x| / 2 ^ 53 := by
  unfold fl
  by_cases hx : x = 0
  · simp [hx]
  · rw [if_neg hx]
    have hpos : 0 < |x| := abs_pos.mpr hx
    set e : ℤ := Int.log 2 |x| with he
    have hq : (0 : ℚ) < (2 : ℚ) ^ (e - 52) := zpow_pos (by norm_num) _
    have hle : ((2 : ℕ) : ℚ) ^ e ≤ |x| := Int.zpow_log_le_self (by norm_num) hpos
    have hr := roundHalfEven_abs_sub_le (x / (2 : ℚ) ^ (e - 52))
    have e1 : (roundHalfEven (x / (2 : ℚ) ^ (e - 52)) : ℚ) * (2 : ℚ) ^ (e - 52) - x
        = ((roundHalfEven (x / (2 : ℚ) ^ (e - 52)) : ℚ) - x / (2 : ℚ) ^ (e - 52))
          * (2 : ℚ) ^ (e - 52) := by
      field_simp
    rw [e1, abs_mul, abs_of_pos hq]
    have e2 : (2 : ℚ) ^ (e - 52) = (2 : ℚ) ^ e / 2 ^ 52 := by
      rw [zpow_sub₀ (by norm_num)]; norm_num
    have h2e : (0 : ℚ) < (2 : ℚ) ^ e := zpow_pos (by norm_num) _
    have hle' : (2 : ℚ) ^ e ≤ |x| := by simpa using hle
    calc |(roundHalfEven (x / (2 : ℚ) ^ (e - 52)) : ℚ) - x / (2 : ℚ) ^ (e - 52)|
          * (2 : ℚ) ^ (e - 52)
        ≤ 1 / 2 * (2 : ℚ) ^ (e - 52) := by
          exact mul_le_mul_of_nonneg_right hr hq.le
      _ = (2 : ℚ) ^ e / 2 ^ 53 := by rw [e2]; ring
      _ ≤ |x| / 2 ^ 53 := by
          apply div_le_div_of_nonneg_right hle' (by norm_num)

/-- The binary exponent of a value whose `2^k`-fold lies in `[2^52, 2^53)`. -/
theorem log_eq_of_scaled (x : ℚ) (k : ℕ) (hlo : (2 : ℚ) ^ 52 ≤ |x| * 2 ^ k)
    (hhi : |x| * 2 ^ k < 2 ^ 53) : Int.log 2 |x| = 52 - (k : ℤ) := by
  have hk : (0 : ℚ) < (2 : ℚ) ^ k := by positivity
  have hpos : 0 < |x| := by
    by_contra h
    have h0 : |x| = 0 := le_antisymm (not_lt.mp h) (abs_nonneg x)
    rw [h0] at hlo
    norm_num at hlo
  have h1 : (52 : ℤ) - k ≤ Int.log 2 |x| := by
    rw [← Int.zpow_le_iff_le_log (by norm_num) hpos]
    rw [zpow_sub₀ (by norm_num)]
    simp only [Nat.cast_ofNat, zpow_natCast]
    rw [div_le_iff₀ hk]
    exact_mod_cast hlo
  have h2 : Int.log 2 |x| < 52 - (k : ℤ) + 1 := by
    rw [← Int.lt_zpow_iff_log_lt (by norm_num) hpos]
    have : (52 : ℤ) - k + 1 = 53 - k := by ring
    rw [this, zpow_sub₀ (by norm_num)]
    simp only [Nat.cast_ofNat, zpow_natCast]
    rw [lt_div_iff₀ hk]
    exact_mod_cast hhi
  omega

/-- Evaluation rule for `fl`. -/
theorem fl_eq_of_scaled (x : ℚ) (k : ℕ) (n : ℤ) (hlo : (2 : ℚ) ^ 52 ≤ |x| * 2 ^ k)
    (hhi : |x| * 2 ^ k < 2 ^ 53) (h1 : (n : ℚ) - 1 / 2 < x * 2 ^ k)
    (h2 : x * 2 ^ k < (n : ℚ) + 1 / 2) : fl x = (n : ℚ) / 2 ^ k := by
  have hx : x ≠ 0 := by
    rintro rfl
    norm_num at hlo
  unfold fl
  rw [if_neg hx, log_eq_of_scaled x k hlo hhi]
  have e : (52 : ℤ) - k - 52 = -(k : ℤ) := by ring
  rw [e, zpow_neg, zpow_natCast, div_inv_eq_mul, roundHalfEven_eq _ n h1 h2]
  ring

/-- Evaluation rule for `fl` on a positive value. -/
theorem fl_eval (x y : ℚ) (k : ℕ) (n : ℤ) (h0 : 0 < x) (hlo : (2 : ℚ) ^ 52 ≤ x * 2 ^ k)
    (hhi : x * 2 ^ k < 2 ^ 53) (h1 : (n : ℚ) - 1 / 2 < x * 2 ^ k)
    (h2 : x * 2 ^ k < (n : ℚ) + 1 / 2) (hy : y = (n : ℚ) / 2 ^ k) : fl x = y := by
  rw [hy]
  exact fl_eq_of_scaled x k n (by rwa [abs_of_pos h0]) (by rwa [abs_of_pos h0]) h1 h2

/-- Evaluation rule for `roundHalfEven` at a tie. -/
theorem roundHalfEven_tie (y : ℚ) (f : ℤ) (h : y = (f : ℚ) + 1 / 2) :
    roundHalfEven y = if f % 2 = 0 then f else f + 1 := by
  have hf : ⌊y⌋ = f := by
    rw [Int.floor_eq_iff]
    constructor <;> linarith
  have e : y - (f : ℚ) = 1 / 2 := by linarith
  have hlt : ¬ ((1 / 2 : ℚ) < 1 / 2) := lt_irrefl _
  unfold roundHalfEven
  rw [hf, e]
  simp only [hlt, if_false]

/-- Evaluation rule for `fl` on a positive value halfway between two binary64 values: the
one with the even significand is taken. -/
theorem fl_eval_tie (x y : ℚ) (k : ℕ) (f n : ℤ) (h0 : 0 < x)
    (hlo : (2 : ℚ) ^ 52 ≤ x * 2 ^ k) (hhi : x * 2 ^ k < 2 ^ 53)
    (ht : x * 2 ^ k = (f : ℚ) + 1 / 2) (hn : n = if f % 2 = 0 then f else f + 1)
    (hy : y = (n : ℚ) / 2 ^ k) : fl x = y := by
  have hx : x ≠ 0 := ne_of_gt h0
  rw [hy, hn]
  unfold fl
  rw [if_neg hx, log_eq_of_scaled x k (by rwa [abs_of_pos h0]) (by rwa [abs_of_pos h0])]
  have e : (52 : ℤ) - k - 52 = -(k : ℤ) := by ring
  rw [e, zpow_neg, zpow_natCast, div_inv_eq_mul, roundHalfEven_tie _ f ht]
  ring

/-- The unit roundoff is positive. -/
theorem u64_pos : 0 < u64 := by norm_num [u64]

/-- Every power of `1 + 2^-53` is at least 1. -/
theorem one_le_pow_u64 (k : ℕ) : 1 ≤ (1 + u64) ^ k :=
  one_le_pow₀ (by linarith [u64_pos])

/-- The relative error of one binary64 rounding, in terms of `u64`. -/
theorem fl_abs_sub_le_u64 (x : ℚ) : |fl x - x| ≤ u64 * |x| := by
  have h := fl_abs_sub_le x
  have e : u64 * |x| = |x| / 2 ^ 53 := by unfold u64; ring
  rw [e]; exact h

/-- The magnitude bound of an approximation is non-negative. -/
theorem approx_nonneg {k : ℕ} {x X B : ℚ} (h : Approx k x X B) : 0 ≤ B :=
  le_trans (abs_nonneg X) h.1

/-- An exact value approximates itself with no rounding. -/
theorem approx_refl (X B : ℚ) (h : |X| ≤ B) : Approx 0 X X B := by
  refine ⟨h, ?_⟩
  simp

/-- The computed value is bounded by the inflated magnitude bound. -/
theorem approx_abs_le {k : ℕ} {x X B : ℚ} (h : Approx k x X B) : |x| ≤ (1 + u64) ^ k * B := by
  have h1 : |x| ≤ |X| + |x - X| := by
    have := abs_add X (x - X)
    simpa using this
  have : |x| ≤ B + ((1 + u64) ^ k - 1) * B := by linarith [h.1, h.2]
  linarith

/-- More roundings may always be allowed. -/
theorem approx_mono {k m : ℕ} {x X B : ℚ} (hkm : k ≤ m) (h : Approx k x X B) :
    Approx m x X B := by
  refine ⟨h.1, le_trans h.2 ?_⟩
  have hB := approx_nonneg h
  have hp : (1 + u64) ^ k ≤ (1 + u64) ^ m :=
    pow_le_pow_right₀ (by linarith [u64_pos]) hkm
  exact mul_le_mul_of_nonneg_right (by linarith) hB

/-- One more binary64 rounding. -/
theorem approx_fl {k : ℕ} {x X B : ℚ} (h : Approx k x X B) : Approx (k + 1) (fl x) X B := by
  refine ⟨h.1, ?_⟩
  have h1 : |fl x - X| ≤ |fl x - x| + |x - X| := abs_sub_le _ _ _
  have h2 := fl_abs_sub_le_u64 x
  have h3 := approx_abs_le h
  have h4 : u64 * |x| ≤ u64 * ((1 + u64) ^ k * B) :=
    mul_le_mul_of_nonneg_left h3 u64_pos.le
  have e : ((1 + u64) ^ (k + 1) - 1) * B
      = u64 * ((1 + u64) ^ k * B) + ((1 + u64) ^ k - 1) * B := by
    rw [pow_succ]; ring
  rw [e]
  linarith [h.2]

/-- Exact sum of two approximations. -/
theorem approx_add {k : ℕ} {x X B y Y C : ℚ} (hx : Approx k x X B) (hy : Approx k y Y C) :
    Approx k (x + y) (X + Y) (B + C) := by
  refine ⟨le_trans (abs_add X Y) (add_le_add hx.1 hy.1), ?_⟩
  have e : x + y - (X + Y) = (x - X) + (y - Y) := by ring
  rw [e]
  have := abs_add (x - X) (y - Y)
  have e2 : ((1 + u64) ^ k - 1) * (B + C)
      = ((1 + u64) ^ k - 1) * B + ((1 + u64) ^ k - 1) * C := by ring
  rw [e2]
  linarith [hx.2, hy.2]

/-- Exact product of two approximations. -/
theorem approx_mul {k m : ℕ} {x X B y Y C : ℚ} (hx : Approx k x X B) (hy : Approx m y Y C) :
    Approx (k + m) (x * y) (X * Y) (B * C) := by
  have hB := approx_nonneg hx
  have hC := approx_nonneg hy
  have hk := one_le_pow_u64 k
  have hm := one_le_pow_u64 m
  refine ⟨?_, ?_⟩
  · rw [abs_mul]
    exact mul_le_mul hx.1 hy.1 (abs_nonneg _) hB
  · have e : x * y - X * Y = (x - X) * y + X * (y - Y) := by ring
    rw [e]
    have h1 : |(x - X) * y + X * (y - Y)| ≤ |x - X| * |y| + |X| * |y - Y| := by
      have := abs_add ((x - X) * y) (X * (y - Y))
      rwa [abs_mul, abs_mul] at this
    have h2 : |x - X| * |y| ≤ (((1 + u64) ^ k - 1) * B) * ((1 + u64) ^ m * C) :=
      mul_le_mul hx.2 (approx_abs_le hy) (abs_nonneg _)
        (mul_nonneg (by linarith) hB)
    have h3 : |X| * |y - Y| ≤ B * (((1 + u64) ^ m - 1) * C) :=
      mul_le_mul hx.1 hy.2 (abs_nonneg _) hB
    have e2 : ((1 + u64) ^ (k + m) - 1) * (B * C)
        = (((1 + u64) ^ k - 1) * B) * ((1 + u64) ^ m * C)
          + B * (((1 + u64) ^ m - 1) * C) := by
      rw [pow_add]; ring
    rw [e2]
    linarith

/-- Exact division of an approximation by 100. -/
theorem approx_div100 {k : ℕ} {x X B : ℚ} (h : Approx k x X B) :
    Approx k (x / 100) (X / 100) (B / 100) := by
  refine ⟨?_, ?_⟩
  · rw [abs_div]
    have : |(100 : ℚ)| = 100 := abs_of_pos (by norm_num)
    rw [this]
    exact div_le_div_of_nonneg_right h.1 (by norm_num)
  · have e : x / 100 - X / 100 = (x - X) / 100 := by ring
    rw [e, abs_div]
    have : |(100 : ℚ)| = 100 := abs_of_pos (by norm_num)
    rw [this]
    have e2 : ((1 + u64) ^ k - 1) * (B / 100) = (((1 + u64) ^ k - 1) * B) / 100 := by ring
    rw [e2]
    exact div_le_div_of_nonneg_right h.2 (by norm_num)

/-- The accumulator loop `acc += f(it)` in binary64 adds one rounding per item. -/
theorem approx_foldl (k : ℕ) (f F G : Item → ℚ) (items : List Item)
    (h : ∀ it ∈ items, Approx k (f it) (F it) (G it)) (m : ℕ) (hkm : k ≤ m)
    (acc A BA : ℚ) (hacc : Approx m acc A BA) :
    Approx (m + items.length) (items.foldl (fun a it => fl (a + f it)) acc)
      (A + (items.map F).sum) (BA + (items.map G).sum) := by
  induction items generalizing m acc A BA with
  | nil => simpa using hacc
  | cons it rest ih =>
    simp only [List.foldl_cons, List.map_cons, List.sum_cons, List.length_cons]
    have hit : Approx m (f it) (F it) (G it) :=
      approx_mono hkm (h it (List.mem_cons_self _ _))
    have hstep : Approx (m + 1) (fl (acc + f it)) (A + F it) (BA + G it) :=
      approx_fl (approx_add hacc hit)
    have := ih (fun j hj => h j (List.mem_cons_of_mem _ hj)) (m + 1) (by omega)
      (fl (acc + f it)) (A + F it) (BA + G it) hstep
    have e1 : m + (rest.length + 1) = m + 1 + rest.length := by omega
    have e2 : A + (F it + (rest.map F).sum) = A + F it + (rest.map F).sum := by ring
    have e3 : BA + (G it + (rest.map G).sum) = BA + G it + (rest.map G).sum := by ring
    rw [e1, e2, e3]
    exact this

/-- Reading a field costs one rounding. -/
theorem approx_num64 (x : Option ℚ) : Approx 1 (num64 x) (numOr0 x) |numOr0 x| :=
  approx_fl (approx_refl _ _ le_rfl)

/-- The value `line` is within three roundings of `quantity * unit_price`. -/
theorem approx_line64 (it : Item) :
    Approx 3 (line64 it) (numOr0 it.quantity * numOr0 it.unit_price)
      (|numOr0 it.quantity| * |numOr0 it.unit_price|) := by
  have h := approx_fl (approx_mul (approx_num64 it.quantity) (approx_num64 it.unit_price))
  unfold line64
  exact approx_mono (by norm_num) h

/-- The value `gstRate` is within three roundings of the sum of the three rates. -/
theorem approx_gstRate64 (it : Item) :
    Approx 3 (gstRate64 it) (numOr0 it.cgst_rate + numOr0 it.sgst_rate + numOr0 it.igst_rate)
      (|numOr0 it.cgst_rate| + |numOr0 it.sgst_rate| + |numOr0 it.igst_rate|) := by
  have h1 := approx_fl (approx_add (approx_num64 it.cgst_rate) (approx_num64 it.sgst_rate))
  have h2 : Approx (1 + 1) (num64 it.igst_rate) (numOr0 it.igst_rate) |numOr0 it.igst_rate| :=
    approx_mono (by norm_num) (approx_num64 it.igst_rate)
  have h := approx_fl (approx_add h1 h2)
  unfold gstRate64
  exact approx_mono (by norm_num) h

/-- The value `gstAmt` is within eight roundings of the exact tax amount. -/
theorem approx_gstAmt64 (it : Item) :
    Approx 8 (gstAmt64 it)
      (numOr0 it.quantity * numOr0 it.unit_price
        * ((numOr0 it.cgst_rate + numOr0 it.sgst_rate + numOr0 it.igst_rate) / 100))
      (|numOr0 it.quantity| * |numOr0 it.unit_price|
        * ((|numOr0 it.cgst_rate| + |numOr0 it.sgst_rate| + |numOr0 it.igst_rate|) / 100)) := by
  have h := approx_fl (approx_mul (approx_line64 it)
    (approx_fl (approx_div100 (approx_gstRate64 it))))
  unfold gstAmt64
  exact approx_mono (by norm_num) h

/-- The value `line + gstAmt` is within nine roundings of the exact line total. -/
theorem approx_lineTotal64 (it : Item) :
    Approx 9 (lineTotal64 it)
      (numOr0 it.quantity * numOr0 it.unit_price
        + numOr0 it.quantity * numOr0 it.unit_price
          * ((numOr0 it.cgst_rate + numOr0 it.sgst_rate + numOr0 it.igst_rate) / 100))
      (|numOr0 it.quantity| * |numOr0 it.unit_price|
        + |numOr0 it.quantity| * |numOr0 it.unit_price|
          * ((|numOr0 it.cgst_rate| + |numOr0 it.sgst_rate| + |numOr0 it.igst_rate|) / 100)) := by
  have h1 : Approx 8 (line64 it) (numOr0 it.quantity * numOr0 it.unit_price)
      (|numOr0 it.quantity| * |numOr0 it.unit_price|) :=
    approx_mono (by norm_num) (approx_line64 it)
  have h := approx_fl (approx_add h1 (approx_gstAmt64 it))
  unfold lineTotal64
  exact approx_mono (by norm_num) h

/-- Bernoulli-type bound on the accumulated rounding factor. -/
theorem pow_u64_le (k : ℕ) (hk : (k : ℚ) ≤ 2 ^ 52) : (1 + u64) ^ k ≤ 1 + 2 * k * u64 := by
  induction k with
  | zero => simp
  | succ j ih =>
    have hj : (j : ℚ) ≤ 2 ^ 52 := by
      push_cast at hk; linarith
    have h := ih hj
    have hu := u64_pos
    have h2 : 2 * (j : ℚ) * u64 ≤ 1 := by
      unfold u64
      have : 2 * (j : ℚ) * (1 / 2 ^ 53) = (j : ℚ) / 2 ^ 52 := by ring
      rw [this, div_le_one (by positivity)]
      exact hj
    rw [pow_succ]
    push_cast
    have h3 : (1 + u64) ^ j * (1 + u64) ≤ (1 + 2 * j * u64) * (1 + u64) :=
      mul_le_mul_of_nonneg_right h (by linarith)
    nlinarith

/-- Two values less than a hundredth apart round to figures at most a hundredth apart. -/
theorem toFixed2_close (x X d : ℚ) (h : |x - X| ≤ d) (hd : d < 1 / 100) :
    |toFixed2 x - toFixed2 X| ≤ 1 / 100 := by
  obtain ⟨na, hna⟩ := toFixed2_hundredths x
  obtain ⟨nb, hnb⟩ := toFixed2_hundredths X
  have ea := abs_le.mp (toFixed2_abs_sub_le x)
  have eb := abs_le.mp (toFixed2_abs_sub_le X)
  have ex := abs_le.mp h
  rw [hna] at ea
  rw [hnb] at eb
  rw [hna, hnb]
  have hub : ((na - nb : ℤ) : ℚ) < 2 := by
    push_cast; linarith [ea.1, ea.2, eb.1, eb.2, ex.1, ex.2]
  have hlb : (-2 : ℚ) < ((na - nb : ℤ) : ℚ) := by
    push_cast; linarith [ea.1, ea.2, eb.1, eb.2, ex.1, ex.2]
  have hub' : na - nb < 2 := by exact_mod_cast hub
  have hlb' : -2 < na - nb := by exact_mod_cast hlb
  have hub1 : ((na - nb : ℤ) : ℚ) ≤ 1 := by
    have : na - nb ≤ 1 := by omega
    exact_mod_cast this
  have hlb1 : (-1 : ℚ) ≤ ((na - nb : ℤ) : ℚ) := by
    have : -1 ≤ na - nb := by omega
    exact_mod_cast this
  push_cast at hub1 hlb1
  rw [abs_le]
  constructor <;> linarith

/-- After at most 2000 roundings of amounts up to `10^9` the 2-decimal figure is within one
hundredth of the figure of the exact value. -/
theorem approx_toFixed2 {k : ℕ} {x X B : ℚ} (h : Approx k x X B) (hk : k ≤ 2000)
    (hB : B ≤ 10 ^ 9) : |toFixed2 x - toFixed2 X| ≤ 1 / 100 := by
  have hB0 := approx_nonneg h
  have hkq : (k : ℚ) ≤ 2000 := by exact_mod_cast hk
  have hp := pow_u64_le k (by linarith [show (2000 : ℚ) ≤ 2 ^ 52 by norm_num])
  have h1 : ((1 + u64) ^ k - 1) * B ≤ (2 * k * u64) * B :=
    mul_le_mul_of_nonneg_right (by linarith) hB0
  have h2 : (2 * (k : ℚ) * u64) * B ≤ (2 * 2000 * u64) * 10 ^ 9 := by
    have hu := u64_pos
    apply mul_le_mul _ hB hB0 (by positivity)
    nlinarith
  have h3 : (2 * 2000 * u64) * 10 ^ 9 < 1 / 100 := by norm_num [u64]
  exact toFixed2_close x X _ (le_trans h.2 (le_trans h1 h2)) h3

/-! ## Totals in binary64 arithmetic: proofs -/

/-- The binary64 values of `line`, `gstAmt` and `line_total` for `sampleFractionalItem`. -/
theorem line64_sampleFractionalItem :
    line64 sampleFractionalItem = 4566650022153683 / 4503599627370496 ∧
      gstAmt64 sampleFractionalItem = 6575976031901303 / 36028797018963968 ∧
      lineTotal64 sampleFractionalItem = 2694323513070673 / 2251799813685248 := by
  have h1 : fl (3 / 10) = 5404319552844595 / 18014398509481984 :=
    fl_eval _ _ 54 5404319552844595 (by norm_num) (by norm_num) (by norm_num) (by norm_num)
      (by norm_num) (by norm_num)
  have h2 : fl (169 / 50) = 3805541685128069 / 1125899906842624 :=
    fl_eval _ _ 51 7611083370256138 (by norm_num) (by norm_num) (by norm_num) (by norm_num)
      (by norm_num) (by norm_num)
  have h3 : fl ((5404319552844595 / 18014398509481984) * (3805541685128069 / 1125899906842624))
      = 4566650022153683 / 4503599627370496 :=
    fl_eval _ _ 52 4566650022153683 (by norm_num) (by norm_num) (by norm_num) (by norm_num)
      (by norm_num) (by norm_num)
  have h4 : fl 0 = 0 := fl_zero
  have h5 : fl 18 = 18 :=
    fl_eval _ _ 48 5066549580791808 (by norm_num) (by norm_num) (by norm_num) (by norm_num)
      (by norm_num) (by norm_num)
  have h6 : fl (0 + 0) = 0 := by
    rw [show (0 + 0 : ℚ) = 0 by norm_num]; exact fl_zero
  have h7 : fl (0 + 18) = 18 :=
    fl_eval _ _ 48 5066549580791808 (by norm_num) (by norm_num) (by norm_num) (by norm_num)
      (by norm_num) (by norm_num)
  have h8 : fl (18 / 100) = 3242591731706757 / 18014398509481984 :=
    fl_eval _ _ 55 6485183463413514 (by norm_num) (by norm_num) (by norm_num) (by norm_num)
      (by norm_num) (by norm_num)
  have h9 : fl ((4566650022153683 / 4503599627370496) * (3242591731706757 / 18014398509481984))
      = 6575976031901303 / 36028797018963968 :=
    fl_eval _ _ 55 6575976031901303 (by norm_num) (by norm_num) (by norm_num) (by norm_num)
      (by norm_num) (by norm_num)
  have h10 : fl ((4566650022153683 / 4503599627370496) + (6575976031901303 / 36028797018963968))
      = 2694323513070673 / 2251799813685248 :=
    fl_eval _ _ 52 5388647026141346 (by norm_num) (by norm_num) (by norm_num) (by norm_num)
      (by norm_num) (by norm_num)
  refine ⟨?_, ?_, ?_⟩ <;>
    simp only [lineTotal64, line64, gstAmt64, gstRate64, num64, numOr0, sampleFractionalItem,
      Option.getD_some, Option.getD_none,
      h1, h2, h3, h4, h5, h6, h7, h8, h9, h10]

/-- The binary64 accumulators after the single item `sampleFractionalItem`. -/
theorem subtotalAcc64_sampleFractionalItem :
    subtotalAcc64 [sampleFractionalItem] = 4566650022153683 / 4503599627370496 ∧
      totalGstAcc64 [sampleFractionalItem] = 6575976031901303 / 36028797018963968 := by
  obtain ⟨hl, hg, _⟩ := line64_sampleFractionalItem
  have h1 : fl (0 + (4566650022153683 / 4503599627370496))
      = 4566650022153683 / 4503599627370496 :=
    fl_eval _ _ 52 4566650022153683 (by norm_num) (by norm_num) (by norm_num) (by norm_num)
      (by norm_num) (by norm_num)
  have h2 : fl (0 + (6575976031901303 / 36028797018963968))
      = 6575976031901303 / 36028797018963968 :=
    fl_eval _ _ 55 6575976031901303 (by norm_num) (by norm_num) (by norm_num) (by norm_num)
      (by norm_num) (by norm_num)
  refine ⟨?_, ?_⟩ <;>
    simp only [subtotalAcc64, totalGstAcc64, List.foldl_cons, List.foldl_nil, hl, hg, h1, h2]

/-- The totals of `sampleFractionalItem` in binary64. -/
theorem calculateTotals64_sampleFractionalItem :
    (calculateTotals64 [sampleFractionalItem]).subtotal = 101 / 100 ∧
      (calculateTotals64 [sampleFractionalItem]).totalGst = 9 / 50 ∧
      (calculateTotals64 [sampleFractionalItem]).total = 6 / 5 ∧
      (calculateTotals64 [sampleFractionalItem]).items.map (fun e => e.line_total)
        = [some (2694323513070673 / 2251799813685248)] := by
  obtain ⟨_, _, ht⟩ := line64_sampleFractionalItem
  obtain ⟨hs, hg⟩ := subtotalAcc64_sampleFractionalItem
  have h1 : fl ((4566650022153683 / 4503599627370496) + (6575976031901303 / 36028797018963968))
      = 2694323513070673 / 2251799813685248 :=
    fl_eval _ _ 52 5388647026141346 (by norm_num) (by norm_num) (by norm_num) (by norm_num)
      (by norm_num) (by norm_num)
  have h2 : toFixed2 (4566650022153683 / 4503599627370496) = 101 / 100 := by
    rw [toFixed2_eq_of_nonneg (4566650022153683 / 4503599627370496) 101 (by norm_num)
      (by norm_num) (by norm_num)]
    norm_num
  have h3 : toFixed2 (6575976031901303 / 36028797018963968) = 9 / 50 := by
    rw [toFixed2_eq_of_nonneg (6575976031901303 / 36028797018963968) 18 (by norm_num)
      (by norm_num) (by norm_num)]
    norm_num
  have h4 : toFixed2 (2694323513070673 / 2251799813685248) = 6 / 5 := by
    rw [toFixed2_eq_of_nonneg (2694323513070673 / 2251799813685248) 120 (by norm_num)
      (by norm_num) (by norm_num)]
    norm_num
  refine ⟨?_, ?_, ?_, ?_⟩ <;>
    simp only [calculateTotals64, List.map_cons, List.map_nil, hs, hg, ht, h1, h2, h3, h4]

/-- The Amount cell of `sampleFractionalItem`. -/
theorem amountStr_sampleFractionalItem : amountStr sampleFractionalItem = 6 / 5 := by
  have h1 : fl (3 / 10) = 5404319552844595 / 18014398509481984 :=
    fl_eval _ _ 54 5404319552844595 (by norm_num) (by norm_num) (by norm_num) (by norm_num)
      (by norm_num) (by norm_num)
  have h2 : fl (169 / 50) = 3805541685128069 / 1125899906842624 :=
    fl_eval _ _ 51 7611083370256138 (by norm_num) (by norm_num) (by norm_num) (by norm_num)
      (by norm_num) (by norm_num)
  have h3 : fl ((5404319552844595 / 18014398509481984) * (3805541685128069 / 1125899906842624))
      = 4566650022153683 / 4503599627370496 :=
    fl_eval _ _ 52 4566650022153683 (by norm_num) (by norm_num) (by norm_num) (by norm_num)
      (by norm_num) (by norm_num)
  have h4 : fl 0 = 0 := fl_zero
  have h5 : fl 18 = 18 :=
    fl_eval _ _ 48 5066549580791808 (by norm_num) (by norm_num) (by norm_num) (by norm_num)
      (by norm_num) (by norm_num)
  have h6 : fl (0 + 0) = 0 := by
    rw [show (0 + 0 : ℚ) = 0 by norm_num]; exact fl_zero
  have h7 : fl (0 + 18) = 18 :=
    fl_eval _ _ 48 5066549580791808 (by norm_num) (by norm_num) (by norm_num) (by norm_num)
      (by norm_num) (by norm_num)
  have h8 : fl (18 / 100) = 3242591731706757 / 18014398509481984 :=
    fl_eval _ _ 55 6485183463413514 (by norm_num) (by norm_num) (by norm_num) (by norm_num)
      (by norm_num) (by norm_num)
  have h9 : fl ((4566650022153683 / 4503599627370496) * (3242591731706757 / 18014398509481984))
      = 6575976031901303 / 36028797018963968 :=
    fl_eval _ _ 55 6575976031901303 (by norm_num) (by norm_num) (by norm_num) (by norm_num)
      (by norm_num) (by norm_num)
  have h10 : fl ((4566650022153683 / 4503599627370496) + (6575976031901303 / 36028797018963968))
      = 2694323513070673 / 2251799813685248 :=
    fl_eval _ _ 52 5388647026141346 (by norm_num) (by norm_num) (by norm_num) (by norm_num)
      (by norm_num) (by norm_num)
  have h11 : toFixed2 (2694323513070673 / 2251799813685248) = 6 / 5 := by
    rw [toFixed2_eq_of_nonneg (2694323513070673 / 2251799813685248) 120 (by norm_num)
      (by norm_num) (by norm_num)]
    norm_num
  simp only [amountStr, num64, numOr0, sampleFractionalItem,
      Option.getD_some, Option.getD_none,
      h1, h2, h3, h4, h5, h6, h7, h8, h9, h10, h11]

/-- The binary64 values of `line`, `gstAmt` and `line_total` for `sampleItem`. -/
theorem line64_sampleItem :
    line64 sampleItem = 200 ∧
      gstAmt64 sampleItem = 36 ∧
      lineTotal64 sampleItem = 236 := by
  have h1 : fl 2 = 2 :=
    fl_eval _ _ 51 4503599627370496 (by norm_num) (by norm_num) (by norm_num) (by norm_num)
      (by norm_num) (by norm_num)
  have h2 : fl 100 = 100 :=
    fl_eval _ _ 46 7036874417766400 (by norm_num) (by norm_num) (by norm_num) (by norm_num)
      (by norm_num) (by norm_num)
  have h3 : fl (2 * 100) = 200 :=
    fl_eval _ _ 45 7036874417766400 (by norm_num) (by norm_num) (by norm_num) (by norm_num)
      (by norm_num) (by norm_num)
  have h4 : fl 0 = 0 := fl_zero
  have h5 : fl 18 = 18 :=
    fl_eval _ _ 48 5066549580791808 (by norm_num) (by norm_num) (by norm_num) (by norm_num)
      (by norm_num) (by norm_num)
  have h6 : fl (0 + 0) = 0 := by
    rw [show (0 + 0 : ℚ) = 0 by norm_num]; exact fl_zero
  have h7 : fl (0 + 18) = 18 :=
    fl_eval _ _ 48 5066549580791808 (by norm_num) (by norm_num) (by norm_num) (by norm_num)
      (by norm_num) (by norm_num)
  have h8 : fl (18 / 100) = 3242591731706757 / 18014398509481984 :=
    fl_eval _ _ 55 6485183463413514 (by norm_num) (by norm_num) (by norm_num) (by norm_num)
      (by norm_num) (by norm_num)
  have h9 : fl (200 * (3242591731706757 / 18014398509481984)) = 36 :=
    fl_eval _ _ 47 5066549580791808 (by norm_num) (by norm_num) (by norm_num) (by norm_num)
      (by norm_num) (by norm_num)
  have h10 : fl (200 + 36) = 236 :=
    fl_eval _ _ 45 8303511812964352 (by norm_num) (by norm_num) (by norm_num) (by norm_num)
      (by norm_num) (by norm_num)
  refine ⟨?_, ?_, ?_⟩ <;>
    simp only [lineTotal64, line64, gstAmt64, gstRate64, num64, numOr0, sampleItem,
      Option.getD_some, Option.getD_none,
      h1, h2, h3, h4, h5, h6, h7, h8, h9, h10]

/-- The binary64 accumulators after the single item `sampleItem`. -/
theorem subtotalAcc64_sampleItem :
    subtotalAcc64 [sampleItem] = 200 ∧
      totalGstAcc64 [sampleItem] = 36 := by
  obtain ⟨hl, hg, _⟩ := line64_sampleItem
  have h1 : fl (0 + 200) = 200 :=
    fl_eval _ _ 45 7036874417766400 (by norm_num) (by norm_num) (by norm_num) (by norm_num)
      (by norm_num) (by norm_num)
  have h2 : fl (0 + 36) = 36 :=
    fl_eval _ _ 47 5066549580791808 (by norm_num) (by norm_num) (by norm_num) (by norm_num)
      (by norm_num) (by norm_num)
  refine ⟨?_, ?_⟩ <;>
    simp only [subtotalAcc64, totalGstAcc64, List.foldl_cons, List.foldl_nil, hl, hg, h1, h2]

/-- The totals of `sampleItem` in binary64. -/
theorem calculateTotals64_sampleItem :
    (calculateTotals64 [sampleItem]).subtotal = 200 ∧
      (calculateTotals64 [sampleItem]).totalGst = 36 ∧
      (calculateTotals64 [sampleItem]).total = 236 ∧
      (calculateTotals64 [sampleItem]).items.map (fun e => e.line_total)
        = [some (236)] := by
  obtain ⟨_, _, ht⟩ := line64_sampleItem
  obtain ⟨hs, hg⟩ := subtotalAcc64_sampleItem
  have h1 : fl (200 + 36) = 236 :=
    fl_eval _ _ 45 8303511812964352 (by norm_num) (by norm_num) (by norm_num) (by norm_num)
      (by norm_num) (by norm_num)
  have h2 : toFixed2 (200) = 200 := by
    rw [toFixed2_eq_of_nonneg (200) 20000 (by norm_num)
      (by norm_num) (by norm_num)]
    norm_num
  have h3 : toFixed2 (36) = 36 := by
    rw [toFixed2_eq_of_nonneg (36) 3600 (by norm_num)
      (by norm_num) (by norm_num)]
    norm_num
  have h4 : toFixed2 (236) = 236 := by
    rw [toFixed2_eq_of_nonneg (236) 23600 (by norm_num)
      (by norm_num) (by norm_num)]
    norm_num
  refine ⟨?_, ?_, ?_, ?_⟩ <;>
    simp only [calculateTotals64, List.map_cons, List.map_nil, hs, hg, ht, h1, h2, h3, h4]

/-- The Amount cell of `sampleItem`. -/
theorem amountStr_sampleItem : amountStr sampleItem = 236 := by
  have h1 : fl 2 = 2 :=
    fl_eval _ _ 51 4503599627370496 (by norm_num) (by norm_num) (by norm_num) (by norm_num)
      (by norm_num) (by norm_num)
  have h2 : fl 100 = 100 :=
    fl_eval _ _ 46 7036874417766400 (by norm_num) (by norm_num) (by norm_num) (by norm_num)
      (by norm_num) (by norm_num)
  have h3 : fl (2 * 100) = 200 :=
    fl_eval _ _ 45 7036874417766400 (by norm_num) (by norm_num) (by norm_num) (by norm_num)
      (by norm_num) (by norm_num)
  have h4 : fl 0 = 0 := fl_zero
  have h5 : fl 18 = 18 :=
    fl_eval _ _ 48 5066549580791808 (by norm_num) (by norm_num) (by norm_num) (by norm_num)
      (by norm_num) (by norm_num)
  have h6 : fl (0 + 0) = 0 := by
    rw [show (0 + 0 : ℚ) = 0 by norm_num]; exact fl_zero
  have h7 : fl (0 + 18) = 18 :=
    fl_eval _ _ 48 5066549580791808 (by norm_num) (by norm_num) (by norm_num) (by norm_num)
      (by norm_num) (by norm_num)
  have h8 : fl (18 / 100) = 3242591731706757 / 18014398509481984 :=
    fl_eval _ _ 55 6485183463413514 (by norm_num) (by norm_num) (by norm_num) (by norm_num)
      (by norm_num) (by norm_num)
  have h9 : fl (200 * (3242591731706757 / 18014398509481984)) = 36 :=
    fl_eval _ _ 47 5066549580791808 (by norm_num) (by norm_num) (by norm_num) (by norm_num)
      (by norm_num) (by norm_num)
  have h10 : fl (200 + 36) = 236 :=
    fl_eval _ _ 45 8303511812964352 (by norm_num) (by norm_num) (by norm_num) (by norm_num)
      (by norm_num) (by norm_num)
  have h11 : toFixed2 (236) = 236 := by
    rw [toFixed2_eq_of_nonneg (236) 23600 (by norm_num)
      (by norm_num) (by norm_num)]
    norm_num
  simp only [amountStr, num64, numOr0, sampleItem,
      Option.getD_some, Option.getD_none,
      h1, h2, h3, h4, h5, h6, h7, h8, h9, h10, h11]

/-- The binary64 values of `line`, `gstAmt` and `line_total` for `sampleHalfTaxItem`. -/
theorem line64_sampleHalfTaxItem :
    line64 sampleHalfTaxItem = 43 / 2 ∧
      gstAmt64 sampleHalfTaxItem = 4841369599423283 / 4503599627370496 ∧
      lineTotal64 sampleHalfTaxItem = 6354297599243059 / 281474976710656 := by
  have h1 : fl 1 = 1 :=
    fl_eval _ _ 52 4503599627370496 (by norm_num) (by norm_num) (by norm_num) (by norm_num)
      (by norm_num) (by norm_num)
  have h2 : fl (43 / 2) = 43 / 2 :=
    fl_eval _ _ 48 6051711999279104 (by norm_num) (by norm_num) (by norm_num) (by norm_num)
      (by norm_num) (by norm_num)
  have h3 : fl (1 * (43 / 2)) = 43 / 2 :=
    fl_eval _ _ 48 6051711999279104 (by norm_num) (by norm_num) (by norm_num) (by norm_num)
      (by norm_num) (by norm_num)
  have h4 : fl 0 = 0 := fl_zero
  have h5 : fl 5 = 5 :=
    fl_eval _ _ 50 5629499534213120 (by norm_num) (by norm_num) (by norm_num) (by norm_num)
      (by norm_num) (by norm_num)
  have h6 : fl (0 + 0) = 0 := by
    rw [show (0 + 0 : ℚ) = 0 by norm_num]; exact fl_zero
  have h7 : fl (0 + 5) = 5 :=
    fl_eval _ _ 50 5629499534213120 (by norm_num) (by norm_num) (by norm_num) (by norm_num)
      (by norm_num) (by norm_num)
  have h8 : fl (5 / 100) = 3602879701896397 / 72057594037927936 :=
    fl_eval _ _ 57 7205759403792794 (by norm_num) (by norm_num) (by norm_num) (by norm_num)
      (by norm_num) (by norm_num)
  have h9 : fl ((43 / 2) * (3602879701896397 / 72057594037927936))
      = 4841369599423283 / 4503599627370496 :=
    fl_eval _ _ 52 4841369599423283 (by norm_num) (by norm_num) (by norm_num) (by norm_num)
      (by norm_num) (by norm_num)
  have h10 : fl ((43 / 2) + (4841369599423283 / 4503599627370496))
      = 6354297599243059 / 281474976710656 :=
    fl_eval _ _ 48 6354297599243059 (by norm_num) (by norm_num) (by norm_num) (by norm_num)
      (by norm_num) (by norm_num)
  refine ⟨?_, ?_, ?_⟩ <;>
    simp only [lineTotal64, line64, gstAmt64, gstRate64, num64, numOr0, sampleHalfTaxItem,
      Option.getD_some, Option.getD_none,
      h1, h2, h3, h4, h5, h6, h7, h8, h9, h10]

/-- The binary64 accumulators after the single item `sampleHalfTaxItem`. -/
theorem subtotalAcc64_sampleHalfTaxItem :
    subtotalAcc64 [sampleHalfTaxItem] = 43 / 2 ∧
      totalGstAcc64 [sampleHalfTaxItem] = 4841369599423283 / 4503599627370496 := by
  obtain ⟨hl, hg, _⟩ := line64_sampleHalfTaxItem
  have h1 : fl (0 + (43 / 2)) = 43 / 2 :=
    fl_eval _ _ 48 6051711999279104 (by norm_num) (by norm_num) (by norm_num) (by norm_num)
      (by norm_num) (by norm_num)
  have h2 : fl (0 + (4841369599423283 / 4503599627370496))
      = 4841369599423283 / 4503599627370496 :=
    fl_eval _ _ 52 4841369599423283 (by norm_num) (by norm_num) (by norm_num) (by norm_num)
      (by norm_num) (by norm_num)
  refine ⟨?_, ?_⟩ <;>
    simp only [subtotalAcc64, totalGstAcc64, List.foldl_cons, List.foldl_nil, hl, hg, h1, h2]

/-- The totals of `sampleHalfTaxItem` in binary64. -/
theorem calculateTotals64_sampleHalfTaxItem :
    (calculateTotals64 [sampleHalfTaxItem]).subtotal = 43 / 2 ∧
      (calculateTotals64 [sampleHalfTaxItem]).totalGst = 107 / 100 ∧
      (calculateTotals64 [sampleHalfTaxItem]).total = 2257 / 100 ∧
      (calculateTotals64 [sampleHalfTaxItem]).items.map (fun e => e.line_total)
        = [some (6354297599243059 / 281474976710656)] := by
  obtain ⟨_, _, ht⟩ := line64_sampleHalfTaxItem
  obtain ⟨hs, hg⟩ := subtotalAcc64_sampleHalfTaxItem
  have h1 : fl ((43 / 2) + (4841369599423283 / 4503599627370496))
      = 6354297599243059 / 281474976710656 :=
    fl_eval _ _ 48 6354297599243059 (by norm_num) (by norm_num) (by norm_num) (by norm_num)
      (by norm_num) (by norm_num)
  have h2 : toFixed2 (43 / 2) = 43 / 2 := by
    rw [toFixed2_eq_of_nonneg (43 / 2) 2150 (by norm_num)
      (by norm_num) (by norm_num)]
    norm_num
  have h3 : toFixed2 (4841369599423283 / 4503599627370496) = 107 / 100 := by
    rw [toFixed2_eq_of_nonneg (4841369599423283 / 4503599627370496) 107 (by norm_num)
      (by norm_num) (by norm_num)]
    norm_num
  have h4 : toFixed2 (6354297599243059 / 281474976710656) = 2257 / 100 := by
    rw [toFixed2_eq_of_nonneg (6354297599243059 / 281474976710656) 2257 (by norm_num)
      (by norm_num) (by norm_num)]
    norm_num
  refine ⟨?_, ?_, ?_, ?_⟩ <;>
    simp only [calculateTotals64, List.map_cons, List.map_nil, hs, hg, ht, h1, h2, h3, h4]

/-- The Amount cell of `sampleHalfTaxItem`. -/
theorem amountStr_sampleHalfTaxItem : amountStr sampleHalfTaxItem = 2257 / 100 := by
  have h1 : fl 1 = 1 :=
    fl_eval _ _ 52 4503599627370496 (by norm_num) (by norm_num) (by norm_num) (by norm_num)
      (by norm_num) (by norm_num)
  have h2 : fl (43 / 2) = 43 / 2 :=
    fl_eval _ _ 48 6051711999279104 (by norm_num) (by norm_num) (by norm_num) (by norm_num)
      (by norm_num) (by norm_num)
  have h3 : fl (1 * (43 / 2)) = 43 / 2 :=
    fl_eval _ _ 48 6051711999279104 (by norm_num) (by norm_num) (by norm_num) (by norm_num)
      (by norm_num) (by norm_num)
  have h4 : fl 0 = 0 := fl_zero
  have h5 : fl 5 = 5 :=
    fl_eval _ _ 50 5629499534213120 (by norm_num) (by norm_num) (by norm_num) (by norm_num)
      (by norm_num) (by norm_num)
  have h6 : fl (0 + 0) = 0 := by
    rw [show (0 + 0 : ℚ) = 0 by norm_num]; exact fl_zero
  have h7 : fl (0 + 5) = 5 :=
    fl_eval _ _ 50 5629499534213120 (by norm_num) (by norm_num) (by norm_num) (by norm_num)
      (by norm_num) (by norm_num)
  have h8 : fl (5 / 100) = 3602879701896397 / 72057594037927936 :=
    fl_eval _ _ 57 7205759403792794 (by norm_num) (by norm_num) (by norm_num) (by norm_num)
      (by norm_num) (by norm_num)
  have h9 : fl ((43 / 2) * (3602879701896397 / 72057594037927936))
      = 4841369599423283 / 4503599627370496 :=
    fl_eval _ _ 52 4841369599423283 (by norm_num) (by norm_num) (by norm_num) (by norm_num)
      (by norm_num) (by norm_num)
  have h10 : fl ((43 / 2) + (4841369599423283 / 4503599627370496))
      = 6354297599243059 / 281474976710656 :=
    fl_eval _ _ 48 6354297599243059 (by norm_num) (by norm_num) (by norm_num) (by norm_num)
      (by norm_num) (by norm_num)
  have h11 : toFixed2 (6354297599243059 / 281474976710656) = 2257 / 100 := by
    rw [toFixed2_eq_of_nonneg (6354297599243059 / 281474976710656) 2257 (by norm_num)
      (by norm_num) (by norm_num)]
    norm_num
  simp only [amountStr, num64, numOr0, sampleHalfTaxItem,
      Option.getD_some, Option.getD_none,
      h1, h2, h3, h4, h5, h6, h7, h8, h9, h10, h11]

/-- The binary64 values of `line`, `gstAmt` and `line_total` for `sampleFiveQuarterItem`. -/
theorem line64_sampleFiveQuarterItem :
    line64 sampleFiveQuarterItem = 5 / 4 ∧
      gstAmt64 sampleFiveQuarterItem = 2026619832316723 / 9007199254740992 ∧
      lineTotal64 sampleFiveQuarterItem = 3321404725185741 / 2251799813685248 := by
  have h1 : fl 1 = 1 :=
    fl_eval _ _ 52 4503599627370496 (by norm_num) (by norm_num) (by norm_num) (by norm_num)
      (by norm_num) (by norm_num)
  have h2 : fl (5 / 4) = 5 / 4 :=
    fl_eval _ _ 52 5629499534213120 (by norm_num) (by norm_num) (by norm_num) (by norm_num)
      (by norm_num) (by norm_num)
  have h3 : fl (1 * (5 / 4)) = 5 / 4 :=
    fl_eval _ _ 52 5629499534213120 (by norm_num) (by norm_num) (by norm_num) (by norm_num)
      (by norm_num) (by norm_num)
  have h4 : fl 0 = 0 := fl_zero
  have h5 : fl 18 = 18 :=
    fl_eval _ _ 48 5066549580791808 (by norm_num) (by norm_num) (by norm_num) (by norm_num)
      (by norm_num) (by norm_num)
  have h6 : fl (0 + 0) = 0 := by
    rw [show (0 + 0 : ℚ) = 0 by norm_num]; exact fl_zero
  have h7 : fl (0 + 18) = 18 :=
    fl_eval _ _ 48 5066549580791808 (by norm_num) (by norm_num) (by norm_num) (by norm_num)
      (by norm_num) (by norm_num)
  have h8 : fl (18 / 100) = 3242591731706757 / 18014398509481984 :=
    fl_eval _ _ 55 6485183463413514 (by norm_num) (by norm_num) (by norm_num) (by norm_num)
      (by norm_num) (by norm_num)
  have h9 : fl ((5 / 4) * (3242591731706757 / 18014398509481984))
      = 2026619832316723 / 9007199254740992 :=
    fl_eval_tie _ _ 55 8106479329266892 8106479329266892 (by norm_num) (by norm_num) (by norm_num)
      (by norm_num) (by norm_num) (by norm_num)
  have h10 : fl ((5 / 4) + (2026619832316723 / 9007199254740992))
      = 3321404725185741 / 2251799813685248 :=
    fl_eval_tie _ _ 52 6642809450371481 6642809450371482 (by norm_num) (by norm_num) (by norm_num)
      (by norm_num) (by norm_num) (by norm_num)
  refine ⟨?_, ?_, ?_⟩ <;>
    simp only [lineTotal64, line64, gstAmt64, gstRate64, num64, numOr0, sampleFiveQuarterItem,
      Option.getD_some, Option.getD_none,
      h1, h2, h3, h4, h5, h6, h7, h8, h9, h10]

/-- The binary64 accumulators after the single item `sampleFiveQuarterItem`. -/
theorem subtotalAcc64_sampleFiveQuarterItem :
    subtotalAcc64 [sampleFiveQuarterItem] = 5 / 4 ∧
      totalGstAcc64 [sampleFiveQuarterItem] = 2026619832316723 / 9007199254740992 := by
  obtain ⟨hl, hg, _⟩ := line64_sampleFiveQuarterItem
  have h1 : fl (0 + (5 / 4)) = 5 / 4 :=
    fl_eval _ _ 52 5629499534213120 (by norm_num) (by norm_num) (by norm_num) (by norm_num)
      (by norm_num) (by norm_num)
  have h2 : fl (0 + (2026619832316723 / 9007199254740992))
      = 2026619832316723 / 9007199254740992 :=
    fl_eval _ _ 55 8106479329266892 (by norm_num) (by norm_num) (by norm_num) (by norm_num)
      (by norm_num) (by norm_num)
  refine ⟨?_, ?_⟩ <;>
    simp only [subtotalAcc64, totalGstAcc64, List.foldl_cons, List.foldl_nil, hl, hg, h1, h2]

/-- The totals of `sampleFiveQuarterItem` in binary64. -/
theorem calculateTotals64_sampleFiveQuarterItem :
    (calculateTotals64 [sampleFiveQuarterItem]).subtotal = 5 / 4 ∧
      (calculateTotals64 [sampleFiveQuarterItem]).totalGst = 11 / 50 ∧
      (calculateTotals64 [sampleFiveQuarterItem]).total = 37 / 25 ∧
      (calculateTotals64 [sampleFiveQuarterItem]).items.map (fun e => e.line_total)
        = [some (3321404725185741 / 2251799813685248)] := by
  obtain ⟨_, _, ht⟩ := line64_sampleFiveQuarterItem
  obtain ⟨hs, hg⟩ := subtotalAcc64_sampleFiveQuarterItem
  have h1 : fl ((5 / 4) + (2026619832316723 / 9007199254740992))
      = 3321404725185741 / 2251799813685248 :=
    fl_eval_tie _ _ 52 6642809450371481 6642809450371482 (by norm_num) (by norm_num) (by norm_num)
      (by norm_num) (by norm_num) (by norm_num)
  have h2 : toFixed2 (5 / 4) = 5 / 4 := by
    rw [toFixed2_eq_of_nonneg (5 / 4) 125 (by norm_num)
      (by norm_num) (by norm_num)]
    norm_num
  have h3 : toFixed2 (2026619832316723 / 9007199254740992) = 11 / 50 := by
    rw [toFixed2_eq_of_nonneg (2026619832316723 / 9007199254740992) 22 (by norm_num)
      (by norm_num) (by norm_num)]
    norm_num
  have h4 : toFixed2 (3321404725185741 / 2251799813685248) = 37 / 25 := by
    rw [toFixed2_eq_of_nonneg (3321404725185741 / 2251799813685248) 148 (by norm_num)
      (by norm_num) (by norm_num)]
    norm_num
  refine ⟨?_, ?_, ?_, ?_⟩ <;>
    simp only [calculateTotals64, List.map_cons, List.map_nil, hs, hg, ht, h1, h2, h3, h4]

/-- The Amount cell of `sampleFiveQuarterItem`. -/
theorem amountStr_sampleFiveQuarterItem : amountStr sampleFiveQuarterItem = 37 / 25 := by
  have h1 : fl 1 = 1 :=
    fl_eval _ _ 52 4503599627370496 (by norm_num) (by norm_num) (by norm_num) (by norm_num)
      (by norm_num) (by norm_num)
  have h2 : fl (5 / 4) = 5 / 4 :=
    fl_eval _ _ 52 5629499534213120 (by norm_num) (by norm_num) (by norm_num) (by norm_num)
      (by norm_num) (by norm_num)
  have h3 : fl (1 * (5 / 4)) = 5 / 4 :=
    fl_eval _ _ 52 5629499534213120 (by norm_num) (by norm_num) (by norm_num) (by norm_num)
      (by norm_num) (by norm_num)
  have h4 : fl 0 = 0 := fl_zero
  have h5 : fl 18 = 18 :=
    fl_eval _ _ 48 5066549580791808 (by norm_num) (by norm_num) (by norm_num) (by norm_num)
      (by norm_num) (by norm_num)
  have h6 : fl (0 + 0) = 0 := by
    rw [show (0 + 0 : ℚ) = 0 by norm_num]; exact fl_zero
  have h7 : fl (0 + 18) = 18 :=
    fl_eval _ _ 48 5066549580791808 (by norm_num) (by norm_num) (by norm_num) (by norm_num)
      (by norm_num) (by norm_num)
  have h8 : fl (18 / 100) = 3242591731706757 / 18014398509481984 :=
    fl_eval _ _ 55 6485183463413514 (by norm_num) (by norm_num) (by norm_num) (by norm_num)
      (by norm_num) (by norm_num)
  have h9 : fl ((5 / 4) * (3242591731706757 / 18014398509481984))
      = 2026619832316723 / 9007199254740992 :=
    fl_eval_tie _ _ 55 8106479329266892 8106479329266892 (by norm_num) (by norm_num) (by norm_num)
      (by norm_num) (by norm_num) (by norm_num)
  have h10 : fl ((5 / 4) + (2026619832316723 / 9007199254740992))
      = 3321404725185741 / 2251799813685248 :=
    fl_eval_tie _ _ 52 6642809450371481 6642809450371482 (by norm_num) (by norm_num) (by norm_num)
      (by norm_num) (by norm_num) (by norm_num)
  have h11 : toFixed2 (3321404725185741 / 2251799813685248) = 37 / 25 := by
    rw [toFixed2_eq_of_nonneg (3321404725185741 / 2251799813685248) 148 (by norm_num)
      (by norm_num) (by norm_num)]
    norm_num
  simp only [amountStr, num64, numOr0, sampleFiveQuarterItem,
      Option.getD_some, Option.getD_none,
      h1, h2, h3, h4, h5, h6, h7, h8, h9, h10, h11]

/-- The binary64 values of `line`, `gstAmt` and `line_total` for `sampleQuarterItem`. -/
theorem line64_sampleQuarterItem :
    line64 sampleQuarterItem = 1 / 4 ∧
      gstAmt64 sampleQuarterItem = 3242591731706757 / 72057594037927936 ∧
      lineTotal64 sampleQuarterItem = 5314247560297185 / 18014398509481984 := by
  have h1 : fl 1 = 1 :=
    fl_eval _ _ 52 4503599627370496 (by norm_num) (by norm_num) (by norm_num) (by norm_num)
      (by norm_num) (by norm_num)
  have h2 : fl (1 / 4) = 1 / 4 :=
    fl_eval _ _ 54 4503599627370496 (by norm_num) (by norm_num) (by norm_num) (by norm_num)
      (by norm_num) (by norm_num)
  have h3 : fl (1 * (1 / 4)) = 1 / 4 :=
    fl_eval _ _ 54 4503599627370496 (by norm_num) (by norm_num) (by norm_num) (by norm_num)
      (by norm_num) (by norm_num)
  have h4 : fl 0 = 0 := fl_zero
  have h5 : fl 18 = 18 :=
    fl_eval _ _ 48 5066549580791808 (by norm_num) (by norm_num) (by norm_num) (by norm_num)
      (by norm_num) (by norm_num)
  have h6 : fl (0 + 0) = 0 := by
    rw [show (0 + 0 : ℚ) = 0 by norm_num]; exact fl_zero
  have h7 : fl (0 + 18) = 18 :=
    fl_eval _ _ 48 5066549580791808 (by norm_num) (by norm_num) (by norm_num) (by norm_num)
      (by norm_num) (by norm_num)
  have h8 : fl (18 / 100) = 3242591731706757 / 18014398509481984 :=
    fl_eval _ _ 55 6485183463413514 (by norm_num) (by norm_num) (by norm_num) (by norm_num)
      (by norm_num) (by norm_num)
  have h9 : fl ((1 / 4) * (3242591731706757 / 18014398509481984))
      = 3242591731706757 / 72057594037927936 :=
    fl_eval _ _ 57 6485183463413514 (by norm_num) (by norm_num) (by norm_num) (by norm_num)
      (by norm_num) (by norm_num)
  have h10 : fl ((1 / 4) + (3242591731706757 / 72057594037927936))
      = 5314247560297185 / 18014398509481984 :=
    fl_eval _ _ 54 5314247560297185 (by norm_num) (by norm_num) (by norm_num) (by norm_num)
      (by norm_num) (by norm_num)
  refine ⟨?_, ?_, ?_⟩ <;>
    simp only [lineTotal64, line64, gstAmt64, gstRate64, num64, numOr0, sampleQuarterItem,
      Option.getD_some, Option.getD_none,
      h1, h2, h3, h4, h5, h6, h7, h8, h9, h10]

/-- The binary64 accumulators after the single item `sampleQuarterItem`. -/
theorem subtotalAcc64_sampleQuarterItem :
    subtotalAcc64 [sampleQuarterItem] = 1 / 4 ∧
      totalGstAcc64 [sampleQuarterItem] = 3242591731706757 / 72057594037927936 := by
  obtain ⟨hl, hg, _⟩ := line64_sampleQuarterItem
  have h1 : fl (0 + (1 / 4)) = 1 / 4 :=
    fl_eval _ _ 54 4503599627370496 (by norm_num) (by norm_num) (by norm_num) (by norm_num)
      (by norm_num) (by norm_num)
  have h2 : fl (0 + (3242591731706757 / 72057594037927936))
      = 3242591731706757 / 72057594037927936 :=
    fl_eval _ _ 57 6485183463413514 (by norm_num) (by norm_num) (by norm_num) (by norm_num)
      (by norm_num) (by norm_num)
  refine ⟨?_, ?_⟩ <;>
    simp only [subtotalAcc64, totalGstAcc64, List.foldl_cons, List.foldl_nil, hl, hg, h1, h2]

/-- The totals of `sampleQuarterItem` in binary64. -/
theorem calculateTotals64_sampleQuarterItem :
    (calculateTotals64 [sampleQuarterItem]).subtotal = 1 / 4 ∧
      (calculateTotals64 [sampleQuarterItem]).totalGst = 1 / 25 ∧
      (calculateTotals64 [sampleQuarterItem]).total = 29 / 100 ∧
      (calculateTotals64 [sampleQuarterItem]).items.map (fun e => e.line_total)
        = [some (5314247560297185 / 18014398509481984)] := by
  obtain ⟨_, _, ht⟩ := line64_sampleQuarterItem
  obtain ⟨hs, hg⟩ := subtotalAcc64_sampleQuarterItem
  have h1 : fl ((1 / 4) + (3242591731706757 / 72057594037927936))
      = 5314247560297185 / 18014398509481984 :=
    fl_eval _ _ 54 5314247560297185 (by norm_num) (by norm_num) (by norm_num) (by norm_num)
      (by norm_num) (by norm_num)
  have h2 : toFixed2 (1 / 4) = 1 / 4 := by
    rw [toFixed2_eq_of_nonneg (1 / 4) 25 (by norm_num)
      (by norm_num) (by norm_num)]
    norm_num
  have h3 : toFixed2 (3242591731706757 / 72057594037927936) = 1 / 25 := by
    rw [toFixed2_eq_of_nonneg (3242591731706757 / 72057594037927936) 4 (by norm_num)
      (by norm_num) (by norm_num)]
    norm_num
  have h4 : toFixed2 (5314247560297185 / 18014398509481984) = 29 / 100 := by
    rw [toFixed2_eq_of_nonneg (5314247560297185 / 18014398509481984) 29 (by norm_num)
      (by norm_num) (by norm_num)]
    norm_num
  refine ⟨?_, ?_, ?_, ?_⟩ <;>
    simp only [calculateTotals64, List.map_cons, List.map_nil, hs, hg, ht, h1, h2, h3, h4]

/-- The Amount cell of `sampleQuarterItem`. -/
theorem amountStr_sampleQuarterItem : amountStr sampleQuarterItem = 29 / 100 := by
  have h1 : fl 1 = 1 :=
    fl_eval _ _ 52 4503599627370496 (by norm_num) (by norm_num) (by norm_num) (by norm_num)
      (by norm_num) (by norm_num)
  have h2 : fl (1 / 4) = 1 / 4 :=
    fl_eval _ _ 54 4503599627370496 (by norm_num) (by norm_num) (by norm_num) (by norm_num)
      (by norm_num) (by norm_num)
  have h3 : fl (1 * (1 / 4)) = 1 / 4 :=
    fl_eval _ _ 54 4503599627370496 (by norm_num) (by norm_num) (by norm_num) (by norm_num)
      (by norm_num) (by norm_num)
  have h4 : fl 0 = 0 := fl_zero
  have h5 : fl 18 = 18 :=
    fl_eval _ _ 48 5066549580791808 (by norm_num) (by norm_num) (by norm_num) (by norm_num)
      (by norm_num) (by norm_num)
  have h6 : fl (0 + 0) = 0 := by
    rw [show (0 + 0 : ℚ) = 0 by norm_num]; exact fl_zero
  have h7 : fl (0 + 18) = 18 :=
    fl_eval _ _ 48 5066549580791808 (by norm_num) (by norm_num) (by norm_num) (by norm_num)
      (by norm_num) (by norm_num)
  have h8 : fl (18 / 100) = 3242591731706757 / 18014398509481984 :=
    fl_eval _ _ 55 6485183463413514 (by norm_num) (by norm_num) (by norm_num) (by norm_num)
      (by norm_num) (by norm_num)
  have h9 : fl ((1 / 4) * (3242591731706757 / 18014398509481984))
      = 3242591731706757 / 72057594037927936 :=
    fl_eval _ _ 57 6485183463413514 (by norm_num) (by norm_num) (by norm_num) (by norm_num)
      (by norm_num) (by norm_num)
  have h10 : fl ((1 / 4) + (3242591731706757 / 72057594037927936))
      = 5314247560297185 / 18014398509481984 :=
    fl_eval _ _ 54 5314247560297185 (by norm_num) (by norm_num) (by norm_num) (by norm_num)
      (by norm_num) (by norm_num)
  have h11 : toFixed2 (5314247560297185 / 18014398509481984) = 29 / 100 := by
    rw [toFixed2_eq_of_nonneg (5314247560297185 / 18014398509481984) 29 (by norm_num)
      (by norm_num) (by norm_num)]
    norm_num
  simp only [amountStr, num64, numOr0, sampleQuarterItem,
      Option.getD_some, Option.getD_none,
      h1, h2, h3, h4, h5, h6, h7, h8, h9, h10, h11]

/-- No rounding has happened to an accumulator that starts at zero. -/
theorem approx_zero (k : ℕ) : Approx k 0 0 0 := by
  refine ⟨by simp, by simp⟩

/-- The binary64 `subtotal` accumulator is within `3 + n` roundings of the exact sum. -/
theorem approx_subtotalAcc64 (items : List Item) :
    Approx (3 + items.length) (subtotalAcc64 items)
      ((items.map (fun it => numOr0 it.quantity * numOr0 it.unit_price)).sum)
      ((items.map (fun it => |numOr0 it.quantity| * |numOr0 it.unit_price|)).sum) := by
  have h := approx_foldl 3 line64
    (fun it => numOr0 it.quantity * numOr0 it.unit_price)
    (fun it => |numOr0 it.quantity| * |numOr0 it.unit_price|) items
    (fun it _ => approx_line64 it) 3 le_rfl 0 0 0 (approx_zero 3)
  rw [zero_add, zero_add] at h
  exact h

/-- The binary64 `totalGst` accumulator is within `8 + n` roundings of the exact sum. -/
theorem approx_totalGstAcc64 (items : List Item) :
    Approx (8 + items.length) (totalGstAcc64 items)
      ((items.map (fun it => numOr0 it.quantity * numOr0 it.unit_price
        * ((numOr0 it.cgst_rate + numOr0 it.sgst_rate + numOr0 it.igst_rate) / 100))).sum)
      ((items.map (fun it => |numOr0 it.quantity| * |numOr0 it.unit_price|
        * ((|numOr0 it.cgst_rate| + |numOr0 it.sgst_rate| + |numOr0 it.igst_rate|) / 100))).sum) := by
  have h := approx_foldl 8 gstAmt64
    (fun it => numOr0 it.quantity * numOr0 it.unit_price
      * ((numOr0 it.cgst_rate + numOr0 it.sgst_rate + numOr0 it.igst_rate) / 100))
    (fun it => |numOr0 it.quantity| * |numOr0 it.unit_price|
      * ((|numOr0 it.cgst_rate| + |numOr0 it.sgst_rate| + |numOr0 it.igst_rate|) / 100)) items
    (fun it _ => approx_gstAmt64 it) 8 le_rfl 0 0 0 (approx_zero 8)
  rw [zero_add, zero_add] at h
  exact h

/-- The Amount cell is the rendering of the `line_total` of `calculateTotals`: the renderer
repeats the operations of `calculateTotals` in the same order. -/
theorem amountStr_eq_lineTotal64 (it : Item) : amountStr it = toFixed2 (lineTotal64 it) := rfl

/-- C5: the claim fails as stated.  For the single item `(quantity 0.3, unit_price 3.38,
igst_rate 18)` `calculateTotals` returns subtotal 1.01, totalGst 0.18 and total 1.20, in
binary64 arithmetic and in exact arithmetic alike, and `1.20 ≠ 1.01 + 0.18`. -/
theorem C5_total_not_sum_counterexample :
    (calculateTotals64 [sampleFractionalItem]).subtotal = 101 / 100 ∧
      (calculateTotals64 [sampleFractionalItem]).totalGst = 18 / 100 ∧
      (calculateTotals64 [sampleFractionalItem]).total = 120 / 100 ∧
      ¬ ((calculateTotals64 [sampleFractionalItem]).total
          = (calculateTotals64 [sampleFractionalItem]).subtotal
            + (calculateTotals64 [sampleFractionalItem]).totalGst) ∧
      (calculateTotals [sampleFractionalItem]).subtotal = 101 / 100 ∧
      (calculateTotals [sampleFractionalItem]).totalGst = 18 / 100 ∧
      (calculateTotals [sampleFractionalItem]).total = 120 / 100 := by
  obtain ⟨h1, h2, h3, _⟩ := calculateTotals64_sampleFractionalItem
  obtain ⟨e1, e2, e3⟩ := calculateTotals_sampleFractionalItem
  rw [h1, h2, h3]
  exact ⟨by norm_num, by norm_num, by norm_num, by norm_num, e1, e2, e3⟩

/-- C5 (amended): for every list of items the returned total is the 2-decimal rounding of
the binary64 sum of the two unrounded accumulators, while the returned subtotal and totalGst
are the 2-decimal roundings of the accumulators themselves; as long as the unrounded sum
does not exceed `10^13` in absolute value, the total differs from the returned
`subtotal + totalGst` by at most 0.01. -/
theorem C5_total_vs_rounded_parts (items : List Item) :
    (calculateTotals64 items).total
        = toFixed2 (fl (subtotalAcc64 items + totalGstAcc64 items)) ∧
      (calculateTotals64 items).subtotal = toFixed2 (subtotalAcc64 items) ∧
      (calculateTotals64 items).totalGst = toFixed2 (totalGstAcc64 items) ∧
      (|subtotalAcc64 items + totalGstAcc64 items| ≤ 10 ^ 13 →
        |(calculateTotals64 items).total
          - ((calculateTotals64 items).subtotal + (calculateTotals64 items).totalGst)|
          ≤ 1 / 100) := by
  refine ⟨rfl, rfl, rfl, ?_⟩
  intro hsize
  simp only [calculateTotals64]
  set a := subtotalAcc64 items
  set b := totalGstAcc64 items
  obtain ⟨na, hna⟩ := toFixed2_hundredths a
  obtain ⟨nb, hnb⟩ := toFixed2_hundredths b
  obtain ⟨nt, hnt⟩ := toFixed2_hundredths (fl (a + b))
  have ea := abs_le.mp (toFixed2_abs_sub_le a)
  have eb := abs_le.mp (toFixed2_abs_sub_le b)
  have et := abs_le.mp (toFixed2_abs_sub_le (fl (a + b)))
  have hfl : |fl (a + b) - (a + b)| ≤ 10 ^ 13 / 2 ^ 53 :=
    le_trans (fl_abs_sub_le (a + b)) (div_le_div_of_nonneg_right hsize (by norm_num))
  have ef := abs_le.mp hfl
  have hsmall : (10 : ℚ) ^ 13 / 2 ^ 53 < 1 / 200 := by norm_num
  rw [hna] at ea
  rw [hnb] at eb
  rw [hnt] at et
  rw [hna, hnb, hnt]
  have hub : ((nt - (na + nb) : ℤ) : ℚ) < 2 := by
    push_cast; linarith [ea.1, ea.2, eb.1, eb.2, et.1, et.2, ef.1, ef.2]
  have hlb : (-2 : ℚ) < ((nt - (na + nb) : ℤ) : ℚ) := by
    push_cast; linarith [ea.1, ea.2, eb.1, eb.2, et.1, et.2, ef.1, ef.2]
  have hub' : nt - (na + nb) < 2 := by exact_mod_cast hub
  have hlb' : -2 < nt - (na + nb) := by exact_mod_cast hlb
  have hub1 : ((nt - (na + nb) : ℤ) : ℚ) ≤ 1 := by
    have : nt - (na + nb) ≤ 1 := by omega
    exact_mod_cast this
  have hlb1 : (-1 : ℚ) ≤ ((nt - (na + nb) : ℤ) : ℚ) := by
    have : -1 ≤ nt - (na + nb) := by omega
    exact_mod_cast this
  push_cast at hub1 hlb1
  rw [abs_le]
  constructor <;> linarith

/-- C5 (amended), evaluated on the item `(quantity 0.3, unit_price 3.38, igst_rate 18)`,
whose unrounded sum is about 1.19652: the total 1.20 is within 0.01 of `1.01 + 0.18`. -/
theorem C5_total_vs_rounded_parts_witness :
    |subtotalAcc64 [sampleFractionalItem] + totalGstAcc64 [sampleFractionalItem]| ≤ 10 ^ 13 ∧
      |(calculateTotals64 [sampleFractionalItem]).total
        - ((calculateTotals64 [sampleFractionalItem]).subtotal
            + (calculateTotals64 [sampleFractionalItem]).totalGst)| ≤ 1 / 100 :=
  have hsize : |subtotalAcc64 [sampleFractionalItem]
      + totalGstAcc64 [sampleFractionalItem]| ≤ 10 ^ 13 := by
    obtain ⟨hs, hg⟩ := subtotalAcc64_sampleFractionalItem
    rw [hs, hg, abs_of_pos (by norm_num)]
    norm_num
  ⟨hsize, (C5_total_vs_rounded_parts [sampleFractionalItem]).2.2.2 hsize⟩

/-- C6: the claim fails as stated.  For the single item `(quantity 1, unit_price 21.50,
igst_rate 5)` the exact tax is 1.075, whose 2-decimal rounding is 1.08 (under round-half-up
and round-half-even alike), but `0.05` is not a binary64 value, the product `21.5 * 0.05`
comes out just below 1.075, and `calculateTotals` returns totalGst 1.07. -/
theorem C6_half_cent_counterexample :
    (calculateTotals64 [sampleHalfTaxItem]).totalGst = 107 / 100 ∧
      ([sampleHalfTaxItem].map (fun it => numOr0 it.quantity * numOr0 it.unit_price
          * (numOr0 it.cgst_rate + numOr0 it.sgst_rate + numOr0 it.igst_rate) / 100)).sum
        = 43 / 40 ∧
      toFixed2 (([sampleHalfTaxItem].map (fun it => numOr0 it.quantity * numOr0 it.unit_price
          * (numOr0 it.cgst_rate + numOr0 it.sgst_rate + numOr0 it.igst_rate) / 100)).sum)
        = 108 / 100 ∧
      (calculateTotals64 [sampleHalfTaxItem]).totalGst
        ≠ toFixed2 (([sampleHalfTaxItem].map (fun it =>
            numOr0 it.quantity * numOr0 it.unit_price
              * (numOr0 it.cgst_rate + numOr0 it.sgst_rate + numOr0 it.igst_rate) / 100)).sum) := by
  obtain ⟨_, h2, _, _⟩ := calculateTotals64_sampleHalfTaxItem
  have hsum : ([sampleHalfTaxItem].map (fun it => numOr0 it.quantity * numOr0 it.unit_price
      * (numOr0 it.cgst_rate + numOr0 it.sgst_rate + numOr0 it.igst_rate) / 100)).sum
      = 43 / 40 := by
    norm_num [numOr0, sampleHalfTaxItem]
  have hr : toFixed2 (43 / 40) = 108 / 100 := by
    rw [toFixed2_eq_of_nonneg (43 / 40) 108 (by norm_num) (by norm_num) (by norm_num)]
    norm_num
  refine ⟨h2, hsum, ?_, ?_⟩
  · rw [hsum, hr]
  · rw [hsum, hr, h2]
    norm_num

/-- C6 (amended): for every list of items `calculateTotals` returns as subtotal and totalGst
the 2-decimal roundings of the sums it accumulates in binary64 arithmetic; for up to 1000
items whose amounts add up to at most `10^9` in absolute value, each figure is within 0.01 of
`round2` of the exact sum (`Σ quantity * unit_price`, respectively
`Σ quantity * unit_price * (cgst_rate + sgst_rate + igst_rate) / 100`, an absent field
counting as 0); for the single item `(quantity 2, unit_price 100, igst_rate 18)` it returns
subtotal 200.00, totalGst 36.00 and total 236.00. -/
theorem C6_subtotal_and_gst (items : List Item) :
    (calculateTotals64 items).subtotal = toFixed2 (subtotalAcc64 items) ∧
      (calculateTotals64 items).totalGst = toFixed2 (totalGstAcc64 items) ∧
      (items.length ≤ 1000 →
        (items.map (fun it => |numOr0 it.quantity| * |numOr0 it.unit_price|)).sum ≤ 10 ^ 9 →
        |(calculateTotals64 items).subtotal
          - toFixed2 ((items.map
              (fun it => numOr0 it.quantity * numOr0 it.unit_price)).sum)| ≤ 1 / 100) ∧
      (items.length ≤ 1000 →
        (items.map (fun it => |numOr0 it.quantity| * |numOr0 it.unit_price|
          * (|numOr0 it.cgst_rate| + |numOr0 it.sgst_rate| + |numOr0 it.igst_rate|) / 100)).sum
          ≤ 10 ^ 9 →
        |(calculateTotals64 items).totalGst
          - toFixed2 ((items.map
              (fun it => numOr0 it.quantity * numOr0 it.unit_price
                * (numOr0 it.cgst_rate + numOr0 it.sgst_rate + numOr0 it.igst_rate) / 100)).sum)|
          ≤ 1 / 100) ∧
      (calculateTotals64 [sampleItem]).subtotal = 200 ∧
      (calculateTotals64 [sampleItem]).totalGst = 36 ∧
      (calculateTotals64 [sampleItem]).total = 236 := by
  obtain ⟨e1, e2, e3, _⟩ := calculateTotals64_sampleItem
  refine ⟨rfl, rfl, ?_, ?_, e1, e2, e3⟩
  · intro hlen hsize
    exact approx_toFixed2 (approx_subtotalAcc64 items) (by omega) hsize
  · intro hlen hsize
    have hX : (fun it : Item => numOr0 it.quantity * numOr0 it.unit_price
        * (numOr0 it.cgst_rate + numOr0 it.sgst_rate + numOr0 it.igst_rate) / 100)
        = (fun it : Item => numOr0 it.quantity * numOr0 it.unit_price
          * ((numOr0 it.cgst_rate + numOr0 it.sgst_rate + numOr0 it.igst_rate) / 100)) := by
      funext it; ring
    have hB : (fun it : Item => |numOr0 it.quantity| * |numOr0 it.unit_price|
        * (|numOr0 it.cgst_rate| + |numOr0 it.sgst_rate| + |numOr0 it.igst_rate|) / 100)
        = (fun it : Item => |numOr0 it.quantity| * |numOr0 it.unit_price|
          * ((|numOr0 it.cgst_rate| + |numOr0 it.sgst_rate| + |numOr0 it.igst_rate|) / 100)) := by
      funext it; ring
    rw [hB] at hsize
    rw [hX]
    exact approx_toFixed2 (approx_totalGstAcc64 items) (by omega) hsize

/-- C6 (amended), evaluated on the half-cent item, for which the bound is attained: the
returned totalGst 1.07 is exactly 0.01 away from `round2(1.075) = 1.08`. -/
theorem C6_subtotal_and_gst_witness :
    |(calculateTotals64 [sampleHalfTaxItem]).totalGst
      - toFixed2 (([sampleHalfTaxItem].map
          (fun it => numOr0 it.quantity * numOr0 it.unit_price
            * (numOr0 it.cgst_rate + numOr0 it.sgst_rate + numOr0 it.igst_rate) / 100)).sum)|
      ≤ 1 / 100 :=
  (C6_subtotal_and_gst [sampleHalfTaxItem]).2.2.2.1 (by simp)
    (by norm_num [numOr0, sampleHalfTaxItem, abs_of_pos])

/-! ## Amount cell: proofs -/

/-- C22: the claim fails as stated.  For the item `(quantity 1, unit_price 21.50,
igst_rate 5)` the exact amount is 22.575, whose 2-decimal rendering is 22.58, but the
renderer's binary64 total lies just below 22.575 and the Amount cell prints 22.57; and the
`line_total` that `calculateTotals` computes for the same item is that unrounded binary64
value, not the printed 22.57. -/
theorem C22_amount_is_rounded_counterexample :
    amountStr sampleHalfTaxItem = 2257 / 100 ∧
      toFixed2 (numOr0 sampleHalfTaxItem.quantity * numOr0 sampleHalfTaxItem.unit_price
        * (1 + (numOr0 sampleHalfTaxItem.cgst_rate + numOr0 sampleHalfTaxItem.sgst_rate
            + numOr0 sampleHalfTaxItem.igst_rate) / 100)) = 2258 / 100 ∧
      (calculateTotals64 [sampleHalfTaxItem]).items.map (fun e => e.line_total)
        = [some (6354297599243059 / 281474976710656)] ∧
      [some (amountStr sampleHalfTaxItem)]
        ≠ (calculateTotals64 [sampleHalfTaxItem]).items.map (fun e => e.line_total) := by
  obtain ⟨_, _, _, hL⟩ := calculateTotals64_sampleHalfTaxItem
  have hA := amountStr_sampleHalfTaxItem
  have hv : numOr0 sampleHalfTaxItem.quantity * numOr0 sampleHalfTaxItem.unit_price
      * (1 + (numOr0 sampleHalfTaxItem.cgst_rate + numOr0 sampleHalfTaxItem.sgst_rate
          + numOr0 sampleHalfTaxItem.igst_rate) / 100) = 903 / 40 := by
    norm_num [numOr0, sampleHalfTaxItem]
  refine ⟨hA, ?_, hL, ?_⟩
  · rw [hv, toFixed2_eq_of_nonneg (903 / 40) 2258 (by norm_num) (by norm_num) (by norm_num)]
    norm_num
  · rw [hA, hL]
    norm_num

/-- C22 (amended): for every item, the Amount cell text is the 2-decimal rendering of
`line + gstAmt` recomputed in binary64 arithmetic from the item's own fields; it does not
depend on the item's stored `line_total`; it equals the 2-decimal rendering of the
`line_total` that `calculateTotals` computes for the same item; and for amounts up to `10^9`
it is within 0.01 of the 2-decimal rendering of the exact
`quantity * unit_price * (1 + (cgst_rate + sgst_rate + igst_rate)/100)`. -/
theorem C22_amount_cell (items : List Item) (it : Item) (stored : Option ℚ) :
    amountStr it = toFixed2 (fl (line64 it + gstAmt64 it)) ∧
      amountStr { it with line_total := stored } = amountStr it ∧
      (calculateTotals64 items).items.map (fun e => e.line_total.map toFixed2)
        = items.map (fun e => some (amountStr e)) ∧
      (|numOr0 it.quantity| * |numOr0 it.unit_price|
          * (1 + (|numOr0 it.cgst_rate| + |numOr0 it.sgst_rate| + |numOr0 it.igst_rate|) / 100)
          ≤ 10 ^ 9 →
        |amountStr it
          - toFixed2 (numOr0 it.quantity * numOr0 it.unit_price
              * (1 + (numOr0 it.cgst_rate + numOr0 it.sgst_rate + numOr0 it.igst_rate) / 100))|
          ≤ 1 / 100) := by
  refine ⟨rfl, rfl, ?_, ?_⟩
  · simp only [calculateTotals64, List.map_map]
    apply List.map_congr_left
    intro e _
    simp only [Function.comp, Option.map_some', amountStr_eq_lineTotal64]
  · intro hsize
    have hX : numOr0 it.quantity * numOr0 it.unit_price
        * (1 + (numOr0 it.cgst_rate + numOr0 it.sgst_rate + numOr0 it.igst_rate) / 100)
        = numOr0 it.quantity * numOr0 it.unit_price
          + numOr0 it.quantity * numOr0 it.unit_price
            * ((numOr0 it.cgst_rate + numOr0 it.sgst_rate + numOr0 it.igst_rate) / 100) := by
      ring
    have hB : |numOr0 it.quantity| * |numOr0 it.unit_price|
        * (1 + (|numOr0 it.cgst_rate| + |numOr0 it.sgst_rate| + |numOr0 it.igst_rate|) / 100)
        = |numOr0 it.quantity| * |numOr0 it.unit_price|
          + |numOr0 it.quantity| * |numOr0 it.unit_price|
            * ((|numOr0 it.cgst_rate| + |numOr0 it.sgst_rate| + |numOr0 it.igst_rate|) / 100) := by
      ring
    rw [hB] at hsize
    rw [hX, amountStr_eq_lineTotal64]
    exact approx_toFixed2 (approx_lineTotal64 it) (by norm_num) hsize

/-- C22 (amended), evaluated on the half-cent item: the printed 22.57 is within 0.01 of the
rendering 22.58 of the exact amount. -/
theorem C22_amount_cell_witness :
    |amountStr sampleHalfTaxItem
      - toFixed2 (numOr0 sampleHalfTaxItem.quantity * numOr0 sampleHalfTaxItem.unit_price
          * (1 + (numOr0 sampleHalfTaxItem.cgst_rate + numOr0 sampleHalfTaxItem.sgst_rate
              + numOr0 sampleHalfTaxItem.igst_rate) / 100))| ≤ 1 / 100 :=
  (C22_amount_cell [] sampleHalfTaxItem none).2.2.2
    (by norm_num [numOr0, sampleHalfTaxItem, abs_of_pos])

/-! ## Negative quantities: proofs -/

/-- The function `toFixed2` is odd: the absolute value is rounded and the sign put back. -/
theorem toFixed2_neg (x : ℚ) : toFixed2 (-x) = -toFixed2 x := by
  unfold toFixed2
  rcases lt_trichotomy x 0 with h | h | h
  · have h1 : ¬ (-x < 0) := by linarith
    rw [if_neg h1, if_pos h]
    ring
  · subst h
    norm_num
  · have h1 : -x < 0 := by linarith
    have h2 : ¬ x < 0 := by linarith
    rw [if_pos h1, if_neg h2, neg_neg]
    ring

/-- Away from a tie, the rounded integer is strictly within one half. -/
theorem roundHalfEven_strict (y : ℚ) (h : y - (⌊y⌋ : ℚ) ≠ 1 / 2) :
    (roundHalfEven y : ℚ) - 1 / 2 < y ∧ y < (roundHalfEven y : ℚ) + 1 / 2 := by
  have h1 := Int.floor_le y
  have h2 := Int.lt_floor_add_one y
  unfold roundHalfEven
  split_ifs with ha hb hc
  · constructor <;> linarith
  · push_cast; constructor <;> linarith
  · exact absurd (le_antisymm (not_lt.mp hb) (not_lt.mp ha)) h
  · exact absurd (le_antisymm (not_lt.mp hb) (not_lt.mp ha)) h

/-- Rounding to the nearest integer, ties to even, is odd. -/
theorem roundHalfEven_neg (y : ℚ) : roundHalfEven (-y) = -roundHalfEven y := by
  by_cases htie : y - (⌊y⌋ : ℚ) = 1 / 2
  · have hf : ⌊-y⌋ = -⌊y⌋ - 1 := by
      rw [Int.floor_eq_iff]
      push_cast
      constructor <;> linarith
    have e1 : -y - ((-⌊y⌋ - 1 : ℤ) : ℚ) = 1 / 2 := by
      push_cast; linarith
    have hlt : ¬ ((1 / 2 : ℚ) < 1 / 2) := lt_irrefl _
    unfold roundHalfEven
    rw [hf, e1, htie]
    simp only [hlt, if_false]
    split_ifs <;> omega
  · obtain ⟨h1, h2⟩ := roundHalfEven_strict y htie
    apply roundHalfEven_eq
    · push_cast; linarith
    · push_cast; linarith

/-- Binary64 rounding is odd. -/
theorem fl_neg (x : ℚ) : fl (-x) = -fl x := by
  unfold fl
  by_cases hx : x = 0
  · simp [hx]
  · have hnx : -x ≠ 0 := neg_ne_zero.mpr hx
    rw [if_neg hx, if_neg hnx, abs_neg, neg_div, roundHalfEven_neg]
    push_cast
    ring

/-- Negating every term negates the sum. -/
theorem sum_map_neg (f : Item → ℚ) (items : List Item) :
    (items.map (fun it => -f it)).sum = -(items.map f).sum := by
  induction items with
  | nil => simp
  | cons it rest ih =>
    simp only [List.map_cons, List.sum_cons, ih]
    ring

/-- Negating the quantity negates `line`. -/
theorem line_negateQuantity (it : Item) : line (negateQuantity it) = -line it := by
  simp only [line, negateQuantity, numOr0, Option.getD_some]
  ring

/-- Negating the quantity negates `gstAmt`. -/
theorem gstAmt_negateQuantity (it : Item) : gstAmt (negateQuantity it) = -gstAmt it := by
  simp only [gstAmt, gstRate, line, negateQuantity, numOr0, Option.getD_some]
  ring

/-- Negating the quantity negates `line` in binary64. -/
theorem line64_negateQuantity (it : Item) : line64 (negateQuantity it) = -line64 it := by
  simp only [line64, num64, negateQuantity, numOr0, Option.getD_some, fl_neg, neg_mul]

/-- Negating the quantity negates `gstAmt` in binary64. -/
theorem gstAmt64_negateQuantity (it : Item) : gstAmt64 (negateQuantity it) = -gstAmt64 it := by
  have hr : gstRate64 (negateQuantity it) = gstRate64 it := rfl
  unfold gstAmt64
  rw [line64_negateQuantity, hr, neg_mul, fl_neg]

/-- The binary64 accumulator loop of a list with negated terms, started at the negated
value, ends at the negated value. -/
theorem foldl_fl_neg (f : Item → ℚ) (h : ∀ it, f (negateQuantity it) = -f it)
    (items : List Item) (acc : ℚ) :
    (items.map negateQuantity).foldl (fun a it => fl (a + f it)) (-acc)
      = -(items.foldl (fun a it => fl (a + f it)) acc) := by
  induction items generalizing acc with
  | nil => simp
  | cons it rest ih =>
    simp only [List.map_cons, List.foldl_cons]
    have e : fl (-acc + f (negateQuantity it)) = -fl (acc + f it) := by
      rw [h, ← neg_add, fl_neg]
    rw [e]
    exact ih (fl (acc + f it))

/-- C7 (amended): `calculateTotals` never fails with a validation error, also when some item
has a negative quantity or a negative unit_price.  On the create route a request is rejected
exactly when `customer_name` is missing or empty or `items` is empty; a request with a
customer name and an item of negative quantity or unit_price gets totals.  The sign carries
into the result: negating every quantity negates subtotal, totalGst and total, in exact and
in binary64 arithmetic. -/
theorem C7_negative_items_get_totals (customer_name : Option String) (items : List Item)
    (customer_gst : Option (List Char)) :
    ((∃ msg : String, createInvoiceTotals customer_name items customer_gst = Except.error msg)
      ↔ (customer_name = none ∨ customer_name = some "" ∨ items.length = 0)) ∧
    ((∃ it ∈ items, numOr0 it.quantity < 0 ∨ numOr0 it.unit_price < 0) →
      customer_name ≠ none → customer_name ≠ some "" →
      createInvoiceTotals customer_name items customer_gst
        = Except.ok (calculateTotals (normalizeGstFields items customer_gst))) ∧
    ((calculateTotals (items.map negateQuantity)).subtotal = -(calculateTotals items).subtotal ∧
      (calculateTotals (items.map negateQuantity)).totalGst
        = -(calculateTotals items).totalGst ∧
      (calculateTotals (items.map negateQuantity)).total = -(calculateTotals items).total) ∧
    ((calculateTotals64 (items.map negateQuantity)).subtotal
        = -(calculateTotals64 items).subtotal ∧
      (calculateTotals64 (items.map negateQuantity)).totalGst
        = -(calculateTotals64 items).totalGst ∧
      (calculateTotals64 (items.map negateQuantity)).total
        = -(calculateTotals64 items).total) := by
  have hs : (items.map negateQuantity).foldl (fun a it => a + line it) 0
      = -(items.foldl (fun a it => a + line it) 0) := by
    rw [foldl_add_eq_sum, foldl_add_eq_sum, List.map_map]
    have : (line ∘ negateQuantity) = fun it => -line it := by
      funext it; exact line_negateQuantity it
    rw [this, sum_map_neg]
    ring
  have hg : (items.map negateQuantity).foldl (fun a it => a + gstAmt it) 0
      = -(items.foldl (fun a it => a + gstAmt it) 0) := by
    rw [foldl_add_eq_sum, foldl_add_eq_sum, List.map_map]
    have : (gstAmt ∘ negateQuantity) = fun it => -gstAmt it := by
      funext it; exact gstAmt_negateQuantity it
    rw [this, sum_map_neg]
    ring
  have hs64 : subtotalAcc64 (items.map negateQuantity) = -subtotalAcc64 items := by
    have h := foldl_fl_neg line64 line64_negateQuantity items 0
    rw [neg_zero] at h
    exact h
  have hg64 : totalGstAcc64 (items.map negateQuantity) = -totalGstAcc64 items := by
    have h := foldl_fl_neg gstAmt64 gstAmt64_negateQuantity items 0
    rw [neg_zero] at h
    exact h
  refine ⟨?_, ?_, ⟨?_, ?_, ?_⟩, ⟨?_, ?_, ?_⟩⟩
  · unfold createInvoiceTotals
    by_cases h : customer_name = none ∨ customer_name = some "" ∨ items.length = 0
    · rw [if_pos h]
      exact ⟨fun _ => h, fun _ => ⟨_, rfl⟩⟩
    · rw [if_neg h]
      constructor
      · rintro ⟨msg, hmsg⟩
        cases hmsg
      · intro hp
        exact absurd hp h
  · rintro ⟨it, hit, _⟩ hn1 hn2
    have hlen : items.length ≠ 0 := by
      intro h0
      rw [List.length_eq_zero] at h0
      rw [h0] at hit
      cases hit
    unfold createInvoiceTotals
    rw [if_neg]
    rintro (h | h | h)
    · exact hn1 h
    · exact hn2 h
    · exact hlen h
  · simp only [calculateTotals, hs, toFixed2_neg]
  · simp only [calculateTotals, hg, toFixed2_neg]
  · simp only [calculateTotals, hs, hg]
    rw [← neg_add, toFixed2_neg]
  · simp only [calculateTotals64, hs64, toFixed2_neg]
  · simp only [calculateTotals64, hg64, toFixed2_neg]
  · simp only [calculateTotals64, hs64, hg64]
    rw [← neg_add, fl_neg, toFixed2_neg]

/-- C7 (amended), evaluated: a request for customer "Acme" with the single item of quantity
`-1` is not rejected and gets totals. -/
theorem C7_negative_items_get_totals_witness :
    createInvoiceTotals (some "Acme") [sampleNegativeItem] none
      = Except.ok (calculateTotals (normalizeGstFields [sampleNegativeItem] none)) :=
  (C7_negative_items_get_totals (some "Acme") [sampleNegativeItem] none).2.1
    ⟨sampleNegativeItem, List.mem_singleton.mpr rfl,
      Or.inl (by norm_num [numOr0, sampleNegativeItem])⟩
    (by simp) (by simp)

end Phoenix
